import Mathlib

/-!
# PNG-Pill: a verification development

A shallow embedding of the animation, viewport and software-rasteriser core of
PNG-Pill (`src/app.cpp`, `src/app_utils.h`) together with machine-checked
statements about it.

Conventions of the embedding

* C++ `int` values are `Int`; the arithmetic of the embedded functions stays far
  away from the 32-bit limits (window coordinates, thread indices), so no
  wrap-around is modelled for them.  `Uint32` tick counters are `Nat` values
  with explicit reduction modulo `2 ^ 32` where the source subtracts them.
* `float` / `double` values are elements of an arbitrary linearly ordered field
  `F` (`ℚ` for evaluation, `ℝ` for the analytic statements): infinities and NaN are
  not represented.  Functions of the C math library (`std::sqrt`, `std::sin`) are
  passed explicitly to the functions that call them.
* The functions named after the source compute in exact arithmetic.  The geometry and
  the rasteriser are embedded a second time with rounded arithmetic
  (`computeRenderGeometryRounded`, ..., `renderFrameCpuRounded`): every operation of type
  `float` or `double` is followed by a rounding function, `roundF32` or `roundF64` for
  IEEE 754 binary32 and binary64 with round to nearest even.
* Conversions from `float` to `int` (`static_cast<int>`, `std::floor`, `std::ceil`) use
  the floor and ceiling of `F`, which is then required to be a `FloorRing`.
* `Uint8` channel values are elements of `Fin 256`.  The functions of SDL that depend
  on a pixel format (`SDL_GetRGBA`, `SDL_MapRGBA`, `SDL_MapRGB`) are the fields of a
  `PixelFormat`; `RGBA8888` is the one format whose bit layout the source relies on.
* Mutation of `*ctx.state` is modelled by functions `MainLoopState → MainLoopState`.
-/

namespace PNGPill

/-! ## Software rasteriser: row bands of `renderFrameCpu` (app_utils.h 473-517) -/

/-- Source: `const int rowsPerThread = std::max(1, height / static_cast<int>(ctx.nThreads));`
with `height = dstBottom - dstTop` (C++ division truncates toward zero). -/
def rowsPerThread (dstTop dstBottom : Int) (nThreads : Nat) : Int :=
  max 1 (Int.tdiv (dstBottom - dstTop) (nThreads : Int))

/-- The row range `[yStart, yEnd)` computed in iteration `t` of the worker loop, or
`none` when the iteration hits `if (yStart >= yEnd) continue;`. -/
def bandOf (dstTop dstBottom : Int) (nThreads : Nat) (t : Nat) : Option (Int × Int) :=
  let yStart := dstTop + (t : Int) * rowsPerThread dstTop dstBottom nThreads
  let yEnd :=
    if (t : Int) = (nThreads : Int) - 1 then dstBottom
    else min (yStart + rowsPerThread dstTop dstBottom nThreads) dstBottom
  if yStart ≥ yEnd then none else some (yStart, yEnd)

/-- The row ranges handed to `workers.emplace_back`, in the order of the loop
`for (int t = 0; t < nThreads; ++t)`. -/
def workerBands (dstTop dstBottom : Int) (nThreads : Nat) : List (Int × Int) :=
  (List.range nThreads).filterMap (bandOf dstTop dstBottom nThreads)

/-- The values taken by `i` in `for (int i = lo; i < hi; ++i)`. -/
def intRange (lo hi : Int) : List Int :=
  (List.range (hi - lo).toNat).map (fun (k : Nat) => lo + (k : Int))

/-- Source: `std::vector<Uint32> frameBuffer(winW * winH, bg);` -/
def initFrameBuffer (winW winH : Int) (bg : Nat) : List Nat :=
  List.replicate (winW * winH).toNat bg

/-- One execution of the body of the inner loop (app_utils.h 486-509) at the pixel
`(x, y)`.  `body x y dst` stands for the computation of the new pixel value from the
loop indices, from the values captured by the lambda (geometry, source surface,
pixel formats, all of them read-only while the workers run) and from the current
value `dst = frameBuffer[y * winW + x]`; it is `none` on each `continue`.  The only
cell of the frame buffer that the body reads or writes is `frameBuffer[y * winW + x]`.
The body of the source is `pixelBody`. -/
def shadePixel (body : Int → Int → Nat → Option Nat) (winW : Int)
    (fb : List Nat) (x y : Int) : List Nat :=
  match body x y (fb.getD (y * winW + x).toNat 0) with
  | some p => fb.set (y * winW + x).toNat p
  | none => fb

/-- Source: `for (int x = dstLeft; x < dstRight; ++x) { ... }` for one row `y`. -/
def renderRow (body : Int → Int → Nat → Option Nat) (winW dstLeft dstRight : Int)
    (fb : List Nat) (y : Int) : List Nat :=
  (intRange dstLeft dstRight).foldl (fun acc x => shadePixel body winW acc x y) fb

/-- Source: `for (int y = yStart; y < yEnd; ++y)` over `renderRow`: the rows `[yStart, yEnd)`. -/
def renderRows (body : Int → Int → Nat → Option Nat) (winW dstLeft dstRight : Int)
    (fb : List Nat) (yStart yEnd : Int) : List Nat :=
  (intRange yStart yEnd).foldl (renderRow body winW dstLeft dstRight) fb

/-- The lambda run by one worker thread on its band `[yStart, yEnd)`. -/
def worker (body : Int → Int → Nat → Option Nat) (winW dstLeft dstRight : Int)
    (fb : List Nat) (band : Int × Int) : List Nat :=
  renderRows body winW dstLeft dstRight fb band.1 band.2

/-- The frame buffer after all workers have been joined (app_utils.h 473-517).  The
effects of the workers are composed in the order of their creation; the workers
touch pairwise disjoint rows of the buffer, so that every other schedule yields the
same buffer (see `renderBands_schedule` and `renderBands_interleaving`). -/
def renderBands (body : Int → Int → Nat → Option Nat) (winW dstLeft dstRight : Int)
    (dstTop dstBottom : Int) (nThreads : Nat) (fb : List Nat) : List Nat :=
  (workerBands dstTop dstBottom nThreads).foldl (worker body winW dstLeft dstRight) fb

/-- The pixels `(x, y)` visited by the loops over the rows `[yStart, yEnd)` and the
columns `[dstLeft, dstRight)`, in the order of the loops. -/
def pixelSteps (dstLeft dstRight yStart yEnd : Int) : List (Int × Int) :=
  (intRange yStart yEnd).flatMap (fun y => (intRange dstLeft dstRight).map (fun x => (x, y)))

/-- A list of bands that starts at row `a`, ends at row `b`, and in which every band
is non-empty and begins where its predecessor ended. -/
def IsBandChain : List (Int × Int) → Int → Int → Prop
  | [], a, b => a = b
  | p :: rest, a, b => p.1 = a ∧ p.1 < p.2 ∧ IsBandChain rest p.2 b

/-! ## Application state (app_utils.h 32-128) -/

/-- The fields of `struct AppConfig` read by the embedded functions, with the
default member initialisers of the source as documentation only. -/
structure AppConfig (F : Type) where
  /-- Source: `uint32_t bgColor = 0x000000;` -/
  bgColor : Nat
  /-- Source: `float micThreshold = 0.0075f;` -/
  micThreshold : F
  /-- Source: `float micGain = 1.0f;` -/
  micGain : F
  /-- Source: `bool enableBreathing = true;` -/
  enableBreathing : Bool
  /-- Source: `float shakingAmp = 1.0f;` -/
  shakingAmp : F
  /-- Source: `float shakingFreq = 1.0f;` -/
  shakingFreq : F
  /-- Source: `int fps = 60;` -/
  fps : Int
  /-- Source: `bool useCpuRendering = false;` -/
  useCpuRendering : Bool

/-- The fields of `struct MainLoopState` read or written by the embedded functions. -/
structure MainLoopState (F : Type) where
  running : Bool
  debug : Bool
  speak : Bool
  prevSpeak : Bool
  blink : Bool
  isBreathing : Bool
  currentSpriteIndex : Int
  prevFrameIndex : Int
  dt : F
  globalTime : F
  breathPhase : F
  breathScale : F
  lastBlink : Nat
  blinkStart : Nat
  perfStart : Nat
  perfFreq : F
  showContextMenu : Bool
  contextMenuX : Int
  contextMenuY : Int
  dragging : Bool
  offsetX : F
  offsetY : F
  baseOffsetX : F
  baseOffsetY : F
  scale : F
  baseScale : F
  dragStartX : Int
  dragStartY : Int
  lastLeftClickTime : Nat
  lastLeftClickX : Int
  lastLeftClickY : Int

/-- The state built by `new MainLoopState()`: the default member initialisers of
`struct MainLoopState`. -/
def MainLoopState.initial (F : Type) [LinearOrderedField F] : MainLoopState F where
  running := true
  debug := false
  speak := false
  prevSpeak := false
  blink := false
  isBreathing := false
  currentSpriteIndex := 0
  prevFrameIndex := -1
  dt := 0
  globalTime := 0
  breathPhase := 0
  breathScale := 1
  lastBlink := 0
  blinkStart := 0
  perfStart := 0
  perfFreq := 0
  showContextMenu := false
  contextMenuX := 0
  contextMenuY := 0
  dragging := false
  offsetX := 0
  offsetY := 0
  baseOffsetX := 0
  baseOffsetY := 0
  scale := 1
  baseScale := 1
  dragStartX := 0
  dragStartY := 0
  lastLeftClickTime := 0
  lastLeftClickX := -1
  lastLeftClickY := -1

/-- Source: `const Uint32 DOUBLE_CLICK_THRESHOLD_MS = 500;` -/
def DOUBLE_CLICK_THRESHOLD_MS : Nat := 500

/-- Source: `const int DOUBLE_CLICK_THRESHOLD_PX = 5;` -/
def DOUBLE_CLICK_THRESHOLD_PX : Int := 5

/-- Source: `constexpr double PI = 3.141592653589793;` -/
def PI (F : Type) [LinearOrderedField F] : F := 3.141592653589793

/-- The four entries of `ctx.contextMenuItems` installed by `main` (app.cpp 632-648). -/
inductive MenuAction where
  | rereadConfig
  | debugMode
  | patPat
  | webRender
  deriving DecidableEq, Repr

/-- The body of the lambda of a context-menu entry (app.cpp 633-647). -/
def MenuAction.run {F : Type} : MenuAction → MainLoopState F → MainLoopState F
  | .rereadConfig, s => { s with showContextMenu := false }
  | .debugMode, s => { s with showContextMenu := false, debug := !s.debug }
  | .patPat, s => { s with showContextMenu := false }
  | .webRender, s => { s with showContextMenu := false }

/-- What the embedded functions read from `struct AppContext` besides `*ctx.state`:
the window size reported by `SDL_GetWindowSize(ctx.win, ...)`, the key map, the
configuration, the worker count and the context-menu entries. -/
structure AppContext (F : Type) where
  winW : Int
  winH : Int
  keymap : Nat → Option Nat
  cfg : AppConfig F
  nThreads : Nat
  contextMenuItems : List MenuAction

/-- The default member initialisers of `struct AppConfig`. -/
def AppConfig.default (F : Type) [LinearOrderedField F] : AppConfig F where
  bgColor := 0
  micThreshold := 0.0075
  micGain := 1.0
  enableBreathing := true
  shakingAmp := 1.0
  shakingFreq := 1.0
  fps := 60
  useCpuRendering := false

/-- Source: `ctx.contextMenuItems` as assigned in `main`. -/
def mainMenuItems : List MenuAction :=
  [MenuAction.rereadConfig, MenuAction.debugMode, MenuAction.patPat, MenuAction.webRender]

/-- A context as `main` builds it: the default configuration, its 800 x 600 window, no
key bound to a sprite, four workers. -/
def exampleContext (F : Type) [LinearOrderedField F] : AppContext F where
  winW := 800
  winH := 600
  keymap := fun _ => none
  cfg := AppConfig.default F
  nThreads := 4
  contextMenuItems := mainMenuItems

/-! ## Event handling (app.cpp 225-372) -/

/-- The value of `ev.button.button`. -/
inductive MouseButton where
  | left
  | right
  | other
  deriving DecidableEq, Repr

/-- The events distinguished by the `switch (ev.type)` of `handleEvents`.  Pointer
positions are integer pixel coordinates; `ticks` is the value returned by
`SDL_GetTicks()` while the press is handled. -/
inductive Event where
  | quit
  | keyDown (key : Nat)
  | mouseButtonDown (button : MouseButton) (x y : Int) (ticks : Nat)
  | mouseButtonUp (button : MouseButton)
  | mouseMotion (x y : Int)
  | mouseWheel (y : Int)
  | other
  deriving DecidableEq, Repr

/-- Source: `SDLK_ESCAPE` (0x1B). -/
def SDLK_ESCAPE : Nat := 27

/-- Source: `std::clamp(v, lo, hi)`. -/
def clamp {F : Type} [LinearOrderedField F] (v lo hi : F) : F :=
  if v < lo then lo else if hi < v then hi else v

/-- The test `isDoubleClick` of app.cpp 249-253.  `currentTime` is a `Uint32`; the
difference `currentTime - lastLeftClickTime` is taken modulo `2 ^ 32`. -/
def isDoubleClick {F : Type} (s : MainLoopState F) (x y : Int) (currentTime : Nat) : Bool :=
  let dx := x - s.lastLeftClickX
  let dy := y - s.lastLeftClickY
  decide ((currentTime + 2 ^ 32 - s.lastLeftClickTime) % 2 ^ 32 ≤ DOUBLE_CLICK_THRESHOLD_MS) &&
    decide (dx * dx + dy * dy ≤ DOUBLE_CLICK_THRESHOLD_PX * DOUBLE_CLICK_THRESHOLD_PX)

/-- A left press while the context menu is shown (app.cpp 255-281). -/
def clickContextMenu {F : Type} (ctx : AppContext F) (s : MainLoopState F) (x y : Int) :
    MainLoopState F :=
  let menuWidth : Int := 180
  let itemHeight : Int := 24
  let size : Int := (ctx.contextMenuItems.length : Int)
  let menuX := if s.contextMenuX + menuWidth > ctx.winW then ctx.winW - menuWidth
    else s.contextMenuX
  let menuY := if s.contextMenuY + size * itemHeight > ctx.winH then ctx.winH - size * itemHeight
    else s.contextMenuY
  let menuX := max 0 menuX
  let menuY := max 0 menuY
  let localY := y - menuY
  let index : Nat := (Int.tdiv localY itemHeight % 2 ^ 64).toNat
  match ctx.contextMenuItems.get? index with
  | some item =>
    if x ≥ menuX ∧ x < menuX + menuWidth then
      { item.run s with showContextMenu := false }
    else { s with showContextMenu := false }
  | none => { s with showContextMenu := false }

/-- One iteration of the loop `while (SDL_PollEvent(&ev))` of `handleEvents`. -/
def handleEvent {F : Type} [LinearOrderedField F] (ctx : AppContext F) (s : MainLoopState F) :
    Event → MainLoopState F
  | .quit => { s with running := false }
  | .keyDown key =>
    if key = SDLK_ESCAPE then { s with running := false }
    else
      match ctx.keymap key with
      | some idx => { s with currentSpriteIndex := (idx : Int) }
      | none => s
  | .mouseButtonDown .left x y ticks =>
    let currentTime := ticks % 2 ^ 32
    if s.showContextMenu then clickContextMenu ctx s x y
    else
      let s1 :=
        if isDoubleClick s x y currentTime then
          { s with lastLeftClickTime := 0, offsetX := s.baseOffsetX, offsetY := s.baseOffsetY,
                   scale := s.baseScale }
        else
          { s with dragging := true, dragStartX := x, dragStartY := y }
      { s1 with lastLeftClickTime := currentTime, lastLeftClickX := x, lastLeftClickY := y }
  | .mouseButtonDown .right x y _ =>
    { s with showContextMenu := !s.showContextMenu, contextMenuX := x, contextMenuY := y }
  | .mouseButtonDown .other _ _ _ => s
  | .mouseButtonUp button =>
    if button = .left then { s with dragging := false } else s
  | .mouseMotion x y =>
    if s.dragging then
      let dx := x - s.dragStartX
      let dy := y - s.dragStartY
      { s with offsetX := s.offsetX + (dx : F), offsetY := s.offsetY + (dy : F),
               dragStartX := x, dragStartY := y }
    else s
  | .mouseWheel y =>
    let zoomFactor : F := 1.1
    let scale :=
      if y > 0 then s.scale * zoomFactor
      else if y < 0 then s.scale / zoomFactor
      else s.scale
    { s with scale := clamp scale 0.1 5.0 }
  | .other => s

/-- The procedure `handleEvents`: the pending events are handled in the order in which
`SDL_PollEvent` delivers them. -/
def handleEvents {F : Type} [LinearOrderedField F] (ctx : AppContext F) (s : MainLoopState F)
    (events : List Event) : MainLoopState F :=
  events.foldl (handleEvent ctx) s

/-! ## Per-tick updates (app.cpp 381-473) -/

/-- The procedure `updateTiming`; `counter` is the `Uint64` value returned by
`SDL_GetPerformanceCounter()`, and `now - perfStart` is taken modulo `2 ^ 64`. -/
def updateTiming {F : Type} [LinearOrderedField F] (counter : Nat) (s : MainLoopState F) :
    MainLoopState F :=
  let now : Nat := counter % 2 ^ 64
  let dt : F := (((now + 2 ^ 64 - s.perfStart) % 2 ^ 64 : Nat) : F) / s.perfFreq
  { s with dt := dt, perfStart := now, globalTime := s.globalTime + dt }

/-- What the audio stream delivers in one tick: `avail` is the result of
`SDL_GetAudioStreamAvailable`, `got` the result of `SDL_GetAudioStreamData`, and
`buffer` the contents of the local `std::vector<float> buffer` after that call. -/
structure AudioPoll (F : Type) where
  avail : Int
  got : Int
  buffer : List F

/-- The loop `for (int i = 0; i < samples; ++i) { v = buffer[i] * 2.0 * (1.0f + micGain);
sum += v * v; }` of `updateAudioState`, started with `sum = 0.0`. -/
def sumSquares {F : Type} [LinearOrderedField F] (micGain : F) (buffer : List F)
    (samples : Nat) : F :=
  (List.range samples).foldl
    (fun sum i => sum + (buffer.getD i 0 * 2 * (1 + micGain)) * (buffer.getD i 0 * 2 * (1 + micGain)))
    0

/-- The procedure `updateAudioState`.  `stream` is `none` when `ctx.stream` is null and
otherwise holds what the stream delivers in this tick; `sqrt` is `std::sqrt`.  When
`got` is 1, 2 or 3 the source divides `0.0` by `samples = 0`; the quotient is a NaN,
every comparison with it is false, and `speak` stays `false`. -/
def updateAudioState {F : Type} [LinearOrderedField F] (sqrt : F → F) (cfg : AppConfig F)
    (stream : Option (AudioPoll F)) (s : MainLoopState F) : MainLoopState F :=
  let s0 := { s with prevSpeak := s.speak, speak := false }
  match stream with
  | none => s0
  | some poll =>
    if poll.avail ≤ 0 then s0
    else if poll.got ≤ 0 then s0
    else
      let samples : Nat := (poll.got / 4).toNat
      if samples = 0 then s0
      else
        let sum := sumSquares cfg.micGain poll.buffer samples
        let rms := sqrt (sum / (samples : F))
        { s0 with speak := decide (rms > cfg.micThreshold) }

/-- Source: `const double BREATH_IDLE_SPEED = 2.0 * PI / 6.0;` -/
def BREATH_IDLE_SPEED (F : Type) [LinearOrderedField F] : F := 2.0 * PI F / 6.0

/-- Source: `const double BREATH_EXHALE_SPEED = 2.0 * PI / 3.0;` -/
def BREATH_EXHALE_SPEED (F : Type) [LinearOrderedField F] : F := 2.0 * PI F / 3.0

/-- The procedure `updateBreathing`; `sin` is `std::sin`. -/
def updateBreathing {F : Type} [LinearOrderedField F] (sin : F → F) (cfg : AppConfig F)
    (s : MainLoopState F) : MainLoopState F :=
  if !cfg.enableBreathing then
    { s with isBreathing := false, breathScale := 1.0 }
  else
    let s1 := { s with isBreathing := true }
    let s2 :=
      if s1.speak then
        { s1 with isBreathing := true,
                  breathPhase := s1.breathPhase + s1.dt * BREATH_EXHALE_SPEED F }
      else if !s1.speak && s1.prevSpeak then
        { s1 with isBreathing := true }
      else if !s1.speak && s1.isBreathing then
        { s1 with breathPhase := s1.breathPhase - s1.dt * BREATH_IDLE_SPEED F }
      else s1
    { s2 with breathScale := if s2.isBreathing then 1.0 + 0.03 * sin s2.breathPhase else 1.0 }

/-- The procedure `updateBlinking`; `ticks` is the value returned by `SDL_GetTicks()`,
stored in the `Uint32` variable `nowMs`, and the differences of tick counts are taken
modulo `2 ^ 32`. -/
def updateBlinking {F : Type} (ticks : Nat) (s : MainLoopState F) : MainLoopState F :=
  let BLINK_INTERVAL : Nat := 3000
  let BLINK_DURATION : Nat := 200
  let nowMs : Nat := ticks % 2 ^ 32
  let s1 :=
    if !s.blink && decide ((nowMs + 2 ^ 32 - s.lastBlink) % 2 ^ 32 ≥ BLINK_INTERVAL) then
      { s with blink := true, blinkStart := nowMs, lastBlink := nowMs }
    else s
  if s1.blink && decide ((nowMs + 2 ^ 32 - s1.blinkStart) % 2 ^ 32 ≥ BLINK_DURATION) then
    { s1 with blink := false }
  else s1

/-- Source: `int frameIndex = (ctx.state->speak ? 1 : 0) + (ctx.state->blink ? 2 : 0);` -/
def frameIndex {F : Type} (s : MainLoopState F) : Int :=
  (if s.speak then 1 else 0) + (if s.blink then 2 else 0)

/-- Source: `bool needsRender = speak || isBreathing || blink || (prevFrameIndex != frameIndex);` -/
def needsRender {F : Type} (s : MainLoopState F) : Bool :=
  s.speak || s.isBreathing || s.blink || decide (s.prevFrameIndex ≠ frameIndex s)

/-- The procedure `maybeRender`: the state after the call, and the frame index passed
to `renderFrame` if `renderFrame` is called. -/
def maybeRender {F : Type} (s : MainLoopState F) : MainLoopState F × Option Int :=
  if !needsRender s then (s, none)
  else ({ s with prevFrameIndex := frameIndex s }, some (frameIndex s))

/-! ## Surfaces and pixel formats (SDL) -/

/-- Four `Uint8` channel values, as `SDL_GetRGBA` returns them. -/
structure RGBA where
  r : Fin 256
  g : Fin 256
  b : Fin 256
  a : Fin 256
  deriving DecidableEq, Repr

/-- The functions of SDL that convert between pixel words and channel values, for one
pixel format (`const SDL_PixelFormatDetails*`): `SDL_GetRGBA`, `SDL_MapRGBA` and
`SDL_MapRGB`.  They belong to the SDL library and are parameters of the embedding. -/
structure PixelFormat where
  getRGBA : Nat → RGBA
  mapRGBA : RGBA → Nat
  mapRGB : Fin 256 → Fin 256 → Fin 256 → Nat

/-- The packed format `SDL_PIXELFORMAT_RGBA8888`: red in bits 31..24, green in bits
23..16, blue in bits 15..8 and alpha in bits 7..0 of the 32-bit pixel word;
`SDL_MapRGB` yields an opaque pixel. -/
def RGBA8888 : PixelFormat where
  getRGBA := fun p =>
    { r := Fin.ofNat ((p >>> 24) &&& 0xFF), g := Fin.ofNat ((p >>> 16) &&& 0xFF),
      b := Fin.ofNat ((p >>> 8) &&& 0xFF), a := Fin.ofNat (p &&& 0xFF) }
  mapRGBA := fun c => (c.r.val <<< 24) ||| (c.g.val <<< 16) ||| (c.b.val <<< 8) ||| c.a.val
  mapRGB := fun r g b => (r.val <<< 24) ||| (g.val <<< 16) ||| (b.val <<< 8) ||| 255

/-- The fields of `SDL_Surface` used by the embedded functions: `w`, `h`, `pitch` (in
bytes), the pixel words `static_cast<Uint32*>(pixels)`, and the result of
`SDL_GetPixelFormatDetails(format)` (`none` when that call returns null). -/
structure Surface where
  w : Int
  h : Int
  pitch : Int
  pixels : List Nat
  format : Option PixelFormat

/-- Source: `enum class SpriteAlignment { AsIs, Centered }`. -/
inductive SpriteAlignment where
  | AsIs
  | Centered
  deriving DecidableEq, Repr

/-- The fields of `struct SpriteList` used by the embedded functions.  The arrays
`float baseOffsetX[4]`, `float baseOffsetY[4]` are functions of the index; only the
entries 0, 1, 2, 3 exist in the source. -/
structure SpriteList (F : Type) where
  surface : Option Surface
  w : Int
  h : Int
  baseOffsetX : Int → F
  baseOffsetY : Int → F

/-! ## Sprite alignment (app.cpp 118-173) -/

/-- The running bounding box `min_x, max_x, min_y, max_y` of the scan of a quadrant. -/
structure BBox where
  min_x : Int
  max_x : Int
  min_y : Int
  max_y : Int
  deriving DecidableEq, Repr

/-- Source: `uint8_t alpha = (pixel >> 24) & 0xFF;` (app.cpp 152). -/
def alignerAlpha (pixel : Nat) : Nat := (pixel >>> 24) &&& 0xFF

/-- The pixel word read at the quadrant-local position `(x, y)` of quadrant `(fx, fy)`:
`pixels[gy * pitch + gx]` with `gx = fx * quadW + x`, `gy = fy * quadH + y` and
`pitch = surf->pitch / sizeof(uint32_t)`. -/
def quadrantPixel (surf : Surface) (fx fy x y : Int) : Nat :=
  let quadW := Int.tdiv surf.w 2
  let quadH := Int.tdiv surf.h 2
  let pitch := surf.pitch / 4
  let gx := fx * quadW + x
  let gy := fy * quadH + y
  surf.pixels.getD (gy * pitch + gx).toNat 0

/-- The test `if (alpha > 0)` of the scan at the quadrant-local position `(x, y)`. -/
def scanIncludes (surf : Surface) (fx fy x y : Int) : Bool :=
  decide (alignerAlpha (quadrantPixel surf fx fy x y) > 0)

/-- The body of the two scan loops (app.cpp 149-158) at the position `p = (x, y)`. -/
def scanStep (surf : Surface) (fx fy : Int) (bb : BBox) (p : Int × Int) : BBox :=
  if scanIncludes surf fx fy p.1 p.2 then
    { min_x := if p.1 < bb.min_x then p.1 else bb.min_x
      max_x := if p.1 > bb.max_x then p.1 else bb.max_x
      min_y := if p.2 < bb.min_y then p.2 else bb.min_y
      max_y := if p.2 > bb.max_y then p.2 else bb.max_y }
  else bb

/-- The scan of quadrant `(fx, fy)`: `for (y = 0; y < quadH; ++y) for (x = 0; x < quadW;
++x)`, started with `min_x = quadW, max_x = -1, min_y = quadH, max_y = -1`. -/
def scanQuadrant (surf : Surface) (fx fy : Int) : BBox :=
  (pixelSteps 0 (Int.tdiv surf.w 2) 0 (Int.tdiv surf.h 2)).foldl (scanStep surf fx fy)
    { min_x := Int.tdiv surf.w 2, max_x := -1, min_y := Int.tdiv surf.h 2, max_y := -1 }

/-- The body of the loops over `fy` and `fx` (app.cpp 142-170) for one quadrant: the scan
and the assignment of `baseOffsetX[idx]`, `baseOffsetY[idx]` when the box is not empty. -/
def alignQuadrant {F : Type} [LinearOrderedField F] (surf : Surface) (s : SpriteList F)
    (q : Int × Int) : SpriteList F :=
  let fx := q.1
  let fy := q.2
  let idx := fy * 2 + fx
  let bb := scanQuadrant surf fx fy
  if bb.min_x ≤ bb.max_x ∧ bb.min_y ≤ bb.max_y then
    let current_center_x : F := ((bb.min_x + bb.max_x : Int) : F) * 0.5
    let current_center_y : F := ((bb.min_y + bb.max_y : Int) : F) * 0.5
    let quad_center_x : F := ((Int.tdiv surf.w 2 : Int) : F) * 0.5
    let quad_center_y : F := ((Int.tdiv surf.h 2 : Int) : F) * 0.5
    { s with
      baseOffsetX := Function.update s.baseOffsetX idx (quad_center_x - current_center_x)
      baseOffsetY := Function.update s.baseOffsetY idx (quad_center_y - current_center_y) }
  else s

/-- The surface scanned by the aligner (app.cpp 120-130): `rgbaSurf`, the result of
`SDL_ConvertSurface(surf, SDL_PIXELFORMAT_RGBA8888)`, or `surf` itself when the
conversion fails (`rgbaSurf` is null). -/
def alignedSurface (surf : Surface) (rgbaSurf : Option Surface) : Surface :=
  match rgbaSurf with
  | some r => r
  | none => surf

/-- The part of the body of the loop of `loadSpritesCpu` that builds the `SpriteList` of
one loaded image (app.cpp 111-173).  `surf` is the result of `IMG_Load` and `rgbaSurf`
the result of `SDL_ConvertSurface(surf, SDL_PIXELFORMAT_RGBA8888)`. -/
def loadSprite {F : Type} [LinearOrderedField F] (alignment : SpriteAlignment)
    (surf : Surface) (rgbaSurf : Option Surface) : SpriteList F :=
  let s : SpriteList F :=
    { surface := some surf, w := surf.w, h := surf.h,
      baseOffsetX := fun _ => 0, baseOffsetY := fun _ => 0 }
  match alignment with
  | SpriteAlignment.AsIs => s
  | SpriteAlignment.Centered =>
    let surf1 := alignedSurface surf rgbaSurf
    let s1 : SpriteList F := { s with surface := some surf1, w := surf1.w, h := surf1.h }
    (pixelSteps 0 2 0 2).foldl (alignQuadrant surf1) s1

/-- The visible pixels of the specification ("scan every pixel whose alpha channel is
non-zero"): the quadrant-local position `(x, y)` of quadrant `(fx, fy)` is visible when
the alpha channel of its pixel, read in the format `RGBA8888` of the scanned surface, is
not zero.  This definition follows the specification, not the source. -/
def specVisible (surf : Surface) (fx fy x y : Int) : Bool :=
  decide ((RGBA8888.getRGBA (quadrantPixel surf fx fy x y)).a.val > 0)

/-! ## Geometry (app_utils.h 163-206) -/

/-- The conversion `static_cast<int>(x)` of a `float`: truncation toward zero. -/
def truncInt {F : Type} [LinearOrderedField F] [FloorRing F] (x : F) : Int :=
  if 0 ≤ x then ⌊x⌋ else ⌈x⌉

/-- Source: `struct RenderGeometry { float dstX, dstY; float dstW, dstH; int srcX, srcY,
srcW, srcH; };` -/
structure RenderGeometry (F : Type) where
  dstX : F
  dstY : F
  dstW : F
  dstH : F
  srcX : Int
  srcY : Int
  srcW : Int
  srcH : Int

/-- The function `computeRenderGeometry`.  `s` is `*ctx.state`, of which the function
reads `breathScale`, `scale`, `offsetX`, `offsetY`, `speak` and `globalTime` and writes
nothing; `sin` and `cos` are `std::sin` and `std::cos`.  The integer divisions and
remainders truncate toward zero. -/
def computeRenderGeometry {F : Type} [LinearOrderedField F] [FloorRing F] (sin cos : F → F)
    (spriteW spriteH winW winH : Int) (s : MainLoopState F) (frameIndex : Int)
    (shakingAmp shakingFreq : F) (baseOffsetX baseOffsetY : Int → F) : RenderGeometry F :=
  let quadW := Int.tdiv spriteW 2
  let quadH := Int.tdiv spriteH 2
  let srcX := Int.tmod frameIndex 2 * quadW
  let srcY := Int.tdiv frameIndex 2 * quadH
  let ibaseOffsetX := baseOffsetX frameIndex
  let ibaseOffsetY := baseOffsetY frameIndex
  let aspect : F := (quadW : F) / (quadH : F)
  let dstW : Int := min winW (truncInt ((winH : F) * aspect))
  let dstH : Int := min winH (truncInt ((winW : F) / aspect))
  let baseW : F := (dstW : F) * s.breathScale
  let baseH : F := (dstH : F) * s.breathScale
  let finalW : F := baseW * s.scale
  let finalH : F := baseH * s.scale
  let dstX : F := ((winW : F) - finalW) / 2.0 + s.offsetX + ibaseOffsetX * s.scale
  let dstY : F := ((winH : F) - finalH) / 2.0 + s.offsetY + ibaseOffsetY * s.scale
  if shakingAmp > 0.0 ∧ shakingFreq > 0.0 ∧ s.speak = true then
    let ox : F := sin (s.globalTime * (50.0 * shakingFreq) * PI F) * 2.0 * (shakingAmp / 2.0)
    let oy : F := cos (s.globalTime * (36.0 * shakingFreq) * PI F) * 1.0 * (shakingAmp / 2.0)
    { dstX := dstX + ox, dstY := dstY + oy, dstW := finalW, dstH := finalH,
      srcX := srcX, srcY := srcY, srcW := quadW, srcH := quadH }
  else
    { dstX := dstX, dstY := dstY, dstW := finalW, dstH := finalH,
      srcX := srcX, srcY := srcY, srcW := quadW, srcH := quadH }

/-! ## Bilinear sampling and the software rasteriser (app_utils.h 364-553) -/

/-- The function `std::clamp(v, lo, hi)` on `int` values. -/
def clampInt (v lo hi : Int) : Int :=
  if v < lo then lo else if hi < v then hi else v

/-- The conversion `static_cast<Uint8>(x)` of a `float`: truncation toward zero.  The
source applies it to values in `[0, 256)` only; outside of that range the conversion is
undefined in C++ and the embedding reduces modulo 256. -/
def castUint8 {F : Type} [LinearOrderedField F] [FloorRing F] (x : F) : Fin 256 :=
  Fin.ofNat (truncInt x % 256).toNat

/-- The lambda `lerpUint8` of `sampleBilinear`:
`static_cast<Uint8>(a + t * (b - a) + 0.5f)`, the difference `b - a` being an `int`. -/
def lerpUint8 {F : Type} [LinearOrderedField F] [FloorRing F] (a b : Fin 256) (t : F) :
    Fin 256 :=
  castUint8 (((a.val : Int) : F) + t * ((((b.val : Int) - (a.val : Int) : Int)) : F) + 0.5)

/-- The lambda `getPixel` of `sampleBilinear`:
`static_cast<Uint32*>(src->pixels)[y * src->w + x]`. -/
def getPixel (src : Surface) (x y : Int) : Nat :=
  src.pixels.getD (y * src.w + x).toNat 0

/-- The function `sampleBilinear`; `src` is `none` for a null pointer. -/
def sampleBilinear {F : Type} [LinearOrderedField F] [FloorRing F] (src : Option Surface)
    (u v : F) : Nat :=
  match src with
  | none => 0
  | some src =>
    match src.format with
    | none => 0
    | some fmtDetails =>
      let x0 := clampInt ⌊u⌋ 0 (src.w - 1)
      let x1 := clampInt (⌊u⌋ + 1) 0 (src.w - 1)
      let y0 := clampInt ⌊v⌋ 0 (src.h - 1)
      let y1 := clampInt (⌊v⌋ + 1) 0 (src.h - 1)
      let fx : F := u - (x0 : F)
      let fy : F := v - (y0 : F)
      let c00 := fmtDetails.getRGBA (getPixel src x0 y0)
      let c10 := fmtDetails.getRGBA (getPixel src x1 y0)
      let c01 := fmtDetails.getRGBA (getPixel src x0 y1)
      let c11 := fmtDetails.getRGBA (getPixel src x1 y1)
      let r_top := lerpUint8 c00.r c10.r fx
      let g_top := lerpUint8 c00.g c10.g fx
      let b_top := lerpUint8 c00.b c10.b fx
      let a_top := lerpUint8 c00.a c10.a fx
      let r_bot := lerpUint8 c01.r c11.r fx
      let g_bot := lerpUint8 c01.g c11.g fx
      let b_bot := lerpUint8 c01.b c11.b fx
      let a_bot := lerpUint8 c01.a c11.a fx
      fmtDetails.mapRGBA
        { r := lerpUint8 r_top r_bot fy, g := lerpUint8 g_top g_bot fy,
          b := lerpUint8 b_top b_bot fy, a := lerpUint8 a_top a_bot fy }

/-- The body of the per-pixel loop of `renderFrameCpu` (app_utils.h 486-509) at the
pixel `(x, y)`, `dstPixel` being the current value of `frameBuffer[y * winW + x]`; the
result is `none` on each `continue`. -/
def pixelBody {F : Type} [LinearOrderedField F] [FloorRing F] (surface : Surface)
    (srcFmt dstFmt : PixelFormat) (geom : RenderGeometry F) (x y : Int) (dstPixel : Nat) :
    Option Nat :=
  let invDstW : F := 1.0 / geom.dstW
  let invDstH : F := 1.0 / geom.dstH
  let fx : F := ((x : F) + 0.5 - geom.dstX) * invDstW
  let fy : F := ((y : F) + 0.5 - geom.dstY) * invDstH
  if fx < 0.0 ∨ fx ≥ 1.0 ∨ fy < 0.0 ∨ fy ≥ 1.0 then none
  else
    let srcU : F := (geom.srcX : F) + fx * (geom.srcW : F)
    let srcV : F := (geom.srcY : F) + fy * (geom.srcH : F)
    let srcPixel := sampleBilinear (some surface) srcU srcV
    let sc := srcFmt.getRGBA srcPixel
    if sc.a = 0 then none
    else
      let dc := dstFmt.getRGBA dstPixel
      let a : F := ((sc.a.val : Int) : F) / 255.0
      let r := castUint8 (((sc.r.val : Int) : F) * a + ((dc.r.val : Int) : F) * (1.0 - a) + 0.5)
      let g := castUint8 (((sc.g.val : Int) : F) * a + ((dc.g.val : Int) : F) * (1.0 - a) + 0.5)
      let b := castUint8 (((sc.b.val : Int) : F) * a + ((dc.b.val : Int) : F) * (1.0 - a) + 0.5)
      some (dstFmt.mapRGB r g b)

/-- The first part of `renderFrameCpu` (app_utils.h 423-517), for a window surface `win`
that is not null: `none` when one of the `return` statements is reached, and otherwise
the frame buffer after all workers have been joined. -/
def rasterize {F : Type} [LinearOrderedField F] [FloorRing F] (sin cos : F → F)
    (ctx : AppContext F) (s : MainLoopState F) (sp : SpriteList F) (win : Surface)
    (frameIndex : Int) : Option (List Nat) :=
  match sp.surface with
  | none => none
  | some surface =>
    let winW := win.w
    let winH := win.h
    let geom := computeRenderGeometry sin cos surface.w surface.h winW winH s frameIndex
      ctx.cfg.shakingAmp ctx.cfg.shakingFreq sp.baseOffsetX sp.baseOffsetY
    if geom.dstW ≤ 0 ∨ geom.dstH ≤ 0 ∨ geom.srcW ≤ 0 ∨ geom.srcH ≤ 0 then none
    else
      match win.format with
      | none => none
      | some dstFmt =>
        let bgR : Fin 256 := Fin.ofNat ((ctx.cfg.bgColor >>> 16) &&& 0xFF)
        let bgG : Fin 256 := Fin.ofNat ((ctx.cfg.bgColor >>> 8) &&& 0xFF)
        let bgB : Fin 256 := Fin.ofNat (ctx.cfg.bgColor &&& 0xFF)
        let bg := dstFmt.mapRGB bgR bgG bgB
        let frameBuffer := initFrameBuffer winW winH bg
        match surface.format with
        | none => none
        | some srcFmt =>
          let dstLeft : Int := max 0 ⌊geom.dstX⌋
          let dstTop : Int := max 0 ⌊geom.dstY⌋
          let dstRight : Int := min winW ⌈geom.dstX + geom.dstW⌉
          let dstBottom : Int := min winH ⌈geom.dstY + geom.dstH⌉
          if dstLeft ≥ dstRight ∨ dstTop ≥ dstBottom then none
          else
            some (renderBands (pixelBody surface srcFmt dstFmt geom) winW dstLeft dstRight
              dstTop dstBottom ctx.nThreads frameBuffer)

/-- The assignment `frameBuffer[index] = value` for an `int` index; an index outside of
the buffer (undefined in C++) leaves the buffer as it is. -/
def writePixel (fb : List Nat) (index : Int) (value : Nat) : List Nat :=
  if 0 ≤ index then fb.set index.toNat value else fb

/-- The overlay of the context menu (app_utils.h 519-547). -/
def overlayMenu {F : Type} (s : MainLoopState F) (dstFmt : PixelFormat) (winW winH : Int)
    (frameBuffer : List Nat) : List Nat :=
  let menuW : Int := 150
  let menuH : Int := 80
  let menuX := clampInt s.contextMenuX 0 (winW - menuW)
  let menuY := clampInt s.contextMenuY 0 (winH - menuH)
  let menuBg := dstFmt.mapRGB 40 40 40
  let menuBorder := dstFmt.mapRGB 200 200 200
  let fb1 := (pixelSteps menuX (menuX + menuW) menuY (menuY + menuH)).foldl
    (fun fb p =>
      if p.2 ≥ 0 ∧ p.2 < winH ∧ p.1 ≥ 0 ∧ p.1 < winW then writePixel fb (p.2 * winW + p.1) menuBg
      else fb) frameBuffer
  let fb2 := (intRange menuX (min (menuX + menuW) winW)).foldl
    (fun fb x =>
      let fb := if menuY ≥ 0 ∧ menuY < winH then writePixel fb (menuY * winW + x) menuBorder
        else fb
      if menuY + menuH - 1 < winH then writePixel fb ((menuY + menuH - 1) * winW + x) menuBorder
      else fb) fb1
  (intRange menuY (min (menuY + menuH) winH)).foldl
    (fun fb y =>
      let fb := if menuX ≥ 0 then writePixel fb (y * winW + menuX) menuBorder else fb
      if menuX + menuW - 1 < winW then writePixel fb (y * winW + (menuX + menuW - 1)) menuBorder
      else fb) fb2

/-- The procedure `renderFrameCpu`: the window surface after the call.  `winSurface` is
the result of `SDL_GetWindowSurface(ctx.win)` (`none` for a null pointer) and `sp` is
`ctx.sprites[ctx.state->currentSpriteIndex]`.  The final `std::memcpy` overwrites the
first `frameBuffer.size()` pixel words of the window surface. -/
def renderFrameCpu {F : Type} [LinearOrderedField F] [FloorRing F] (sin cos : F → F)
    (ctx : AppContext F) (s : MainLoopState F) (sp : SpriteList F)
    (winSurface : Option Surface) (frameIndex : Int) : Option Surface :=
  match winSurface with
  | none => none
  | some win =>
    match rasterize sin cos ctx s sp win frameIndex with
    | none => some win
    | some frameBuffer =>
      match win.format with
      | none => some win
      | some dstFmt =>
        let fb :=
          if s.showContextMenu then overlayMenu s dstFmt win.w win.h frameBuffer
          else frameBuffer
        some { win with pixels := fb ++ win.pixels.drop fb.length }

/-! ## Binary floating point (the types `float` and `double`) -/

/-- Rounding of a rational number to the nearest integer, a tie going to the even
integer. -/
def roundHalfEven (x : ℚ) : Int :=
  let f := ⌊x⌋
  let r := x - (f : ℚ)
  if r < 1 / 2 then f else if 1 / 2 < r then f + 1 else if f % 2 = 0 then f else f + 1

/-- Rounding to the nearest value of the IEEE 754 binary format with `p` significand
bits and least normal exponent `emin`, ties to even: the result is the multiple of the
unit in the last place `2 ^ (e - (p - 1))` nearest to `x`, where `2 ^ e ≤ |x| < 2 ^ (e + 1)`
and `e` is not taken below `emin` (subnormal range).  Overflow to infinity is not
represented. -/
def roundBinary (p : Nat) (emin : Int) (x : ℚ) : ℚ :=
  if x = 0 then 0
  else
    let e := max (Int.log 2 |x|) emin
    let ulp : ℚ := (2 : ℚ) ^ (e - ((p : Int) - 1))
    (roundHalfEven (x / ulp) : ℚ) * ulp

/-- The result of an arithmetic operation or conversion of type `float` (IEEE 754
binary32, round to nearest even), as a function of the exact result. -/
def roundF32 (x : ℚ) : ℚ := roundBinary 24 (-126) x

/-- The result of an arithmetic operation or conversion of type `double` (IEEE 754
binary64, round to nearest even), as a function of the exact result. -/
def roundF64 (x : ℚ) : ℚ := roundBinary 53 (-1022) x

/-! ## Geometry and rasteriser with rounded arithmetic

The functions of this section are the functions `computeRenderGeometry`, `lerpUint8`,
`sampleBilinear`, the loop body and `renderFrameCpu` once more, with the result of every
operation of type `float` passed through `fl32` and of every operation of type `double`
through `fl64`.  With `fl32 = fl64 = id` they are the functions of the sections above;
with `fl32 = roundF32` and `fl64 = roundF64` they compute what the program computes with
IEEE 754 arithmetic evaluated in the precision of the operand types. -/

/-- The function `computeRenderGeometry` (app_utils.h 169-206) with rounded arithmetic.
The operands of `globalTime * (50.0f * shakingFreq) * PI` and of the products with the
result of `std::sin` are of type `double`; all other operations are of type `float`. -/
def computeRenderGeometryRounded {F : Type} [LinearOrderedField F] [FloorRing F]
    (fl32 fl64 : F → F) (sin cos : F → F)
    (spriteW spriteH winW winH : Int) (s : MainLoopState F) (frameIndex : Int)
    (shakingAmp shakingFreq : F) (baseOffsetX baseOffsetY : Int → F) : RenderGeometry F :=
  let quadW := Int.tdiv spriteW 2
  let quadH := Int.tdiv spriteH 2
  let srcX := Int.tmod frameIndex 2 * quadW
  let srcY := Int.tdiv frameIndex 2 * quadH
  let ibaseOffsetX := baseOffsetX frameIndex
  let ibaseOffsetY := baseOffsetY frameIndex
  let aspect : F := fl32 (fl32 (quadW : F) / fl32 (quadH : F))
  let dstW : Int := min winW (truncInt (fl32 (fl32 (winH : F) * aspect)))
  let dstH : Int := min winH (truncInt (fl32 (fl32 (winW : F) / aspect)))
  let baseW : F := fl32 (fl32 (dstW : F) * s.breathScale)
  let baseH : F := fl32 (fl32 (dstH : F) * s.breathScale)
  let finalW : F := fl32 (baseW * s.scale)
  let finalH : F := fl32 (baseH * s.scale)
  let dstX : F :=
    fl32 (fl32 (fl32 (fl32 (fl32 (winW : F) - finalW) / 2.0) + s.offsetX)
      + fl32 (ibaseOffsetX * s.scale))
  let dstY : F :=
    fl32 (fl32 (fl32 (fl32 (fl32 (winH : F) - finalH) / 2.0) + s.offsetY)
      + fl32 (ibaseOffsetY * s.scale))
  if shakingAmp > 0.0 ∧ shakingFreq > 0.0 ∧ s.speak = true then
    let ox : F :=
      fl32 (fl64 (fl64 (sin (fl64 (fl64 (s.globalTime * fl32 (50.0 * shakingFreq))
        * fl64 (PI F))) * 2.0) * fl32 (shakingAmp / 2.0)))
    let oy : F :=
      fl32 (fl64 (fl64 (cos (fl64 (fl64 (s.globalTime * fl32 (36.0 * shakingFreq))
        * fl64 (PI F))) * 1.0) * fl32 (shakingAmp / 2.0)))
    { dstX := fl32 (dstX + ox), dstY := fl32 (dstY + oy), dstW := finalW, dstH := finalH,
      srcX := srcX, srcY := srcY, srcW := quadW, srcH := quadH }
  else
    { dstX := dstX, dstY := dstY, dstW := finalW, dstH := finalH,
      srcX := srcX, srcY := srcY, srcW := quadW, srcH := quadH }

/-- The lambda `lerpUint8` of `sampleBilinear` with rounded arithmetic. -/
def lerpUint8Rounded {F : Type} [LinearOrderedField F] [FloorRing F] (fl32 : F → F)
    (a b : Fin 256) (t : F) : Fin 256 :=
  castUint8 (fl32 (fl32 (fl32 ((a.val : Int) : F)
    + fl32 (t * fl32 ((((b.val : Int) - (a.val : Int) : Int)) : F))) + 0.5))

/-- The function `sampleBilinear` (app_utils.h 364-417) with rounded arithmetic. -/
def sampleBilinearRounded {F : Type} [LinearOrderedField F] [FloorRing F] (fl32 : F → F)
    (src : Option Surface) (u v : F) : Nat :=
  match src with
  | none => 0
  | some src =>
    match src.format with
    | none => 0
    | some fmtDetails =>
      let x0 := clampInt ⌊u⌋ 0 (src.w - 1)
      let x1 := clampInt (⌊u⌋ + 1) 0 (src.w - 1)
      let y0 := clampInt ⌊v⌋ 0 (src.h - 1)
      let y1 := clampInt (⌊v⌋ + 1) 0 (src.h - 1)
      let fx : F := fl32 (u - fl32 (x0 : F))
      let fy : F := fl32 (v - fl32 (y0 : F))
      let c00 := fmtDetails.getRGBA (getPixel src x0 y0)
      let c10 := fmtDetails.getRGBA (getPixel src x1 y0)
      let c01 := fmtDetails.getRGBA (getPixel src x0 y1)
      let c11 := fmtDetails.getRGBA (getPixel src x1 y1)
      let r_top := lerpUint8Rounded fl32 c00.r c10.r fx
      let g_top := lerpUint8Rounded fl32 c00.g c10.g fx
      let b_top := lerpUint8Rounded fl32 c00.b c10.b fx
      let a_top := lerpUint8Rounded fl32 c00.a c10.a fx
      let r_bot := lerpUint8Rounded fl32 c01.r c11.r fx
      let g_bot := lerpUint8Rounded fl32 c01.g c11.g fx
      let b_bot := lerpUint8Rounded fl32 c01.b c11.b fx
      let a_bot := lerpUint8Rounded fl32 c01.a c11.a fx
      fmtDetails.mapRGBA
        { r := lerpUint8Rounded fl32 r_top r_bot fy, g := lerpUint8Rounded fl32 g_top g_bot fy,
          b := lerpUint8Rounded fl32 b_top b_bot fy, a := lerpUint8Rounded fl32 a_top a_bot fy }

/-- The body of the per-pixel loop of `renderFrameCpu` (app_utils.h 486-509) with
rounded arithmetic; `invDstW = 1.0f / dstW` and `invDstH = 1.0f / dstH` are computed
before the loop (app_utils.h 460-461). -/
def pixelBodyRounded {F : Type} [LinearOrderedField F] [FloorRing F] (fl32 : F → F)
    (surface : Surface) (srcFmt dstFmt : PixelFormat) (geom : RenderGeometry F) (x y : Int)
    (dstPixel : Nat) : Option Nat :=
  let invDstW : F := fl32 (1.0 / geom.dstW)
  let invDstH : F := fl32 (1.0 / geom.dstH)
  let fx : F := fl32 (fl32 (fl32 (fl32 (x : F) + 0.5) - geom.dstX) * invDstW)
  let fy : F := fl32 (fl32 (fl32 (fl32 (y : F) + 0.5) - geom.dstY) * invDstH)
  if fx < 0.0 ∨ fx ≥ 1.0 ∨ fy < 0.0 ∨ fy ≥ 1.0 then none
  else
    let srcU : F := fl32 (fl32 (geom.srcX : F) + fl32 (fx * fl32 (geom.srcW : F)))
    let srcV : F := fl32 (fl32 (geom.srcY : F) + fl32 (fy * fl32 (geom.srcH : F)))
    let srcPixel := sampleBilinearRounded fl32 (some surface) srcU srcV
    let sc := srcFmt.getRGBA srcPixel
    if sc.a = 0 then none
    else
      let dc := dstFmt.getRGBA dstPixel
      let a : F := fl32 (fl32 ((sc.a.val : Int) : F) / 255.0)
      let r := castUint8 (fl32 (fl32 (fl32 (fl32 ((sc.r.val : Int) : F) * a)
        + fl32 (fl32 ((dc.r.val : Int) : F) * fl32 (1.0 - a))) + 0.5))
      let g := castUint8 (fl32 (fl32 (fl32 (fl32 ((sc.g.val : Int) : F) * a)
        + fl32 (fl32 ((dc.g.val : Int) : F) * fl32 (1.0 - a))) + 0.5))
      let b := castUint8 (fl32 (fl32 (fl32 (fl32 ((sc.b.val : Int) : F) * a)
        + fl32 (fl32 ((dc.b.val : Int) : F) * fl32 (1.0 - a))) + 0.5))
      some (dstFmt.mapRGB r g b)

/-- The first part of `renderFrameCpu` (app_utils.h 423-517) with rounded arithmetic,
for a window surface `win` that is not null: `none` when one of the `return` statements
is reached, and otherwise the frame buffer after all workers have been joined. -/
def rasterizeRounded {F : Type} [LinearOrderedField F] [FloorRing F] (fl32 fl64 : F → F)
    (sin cos : F → F) (ctx : AppContext F) (s : MainLoopState F) (sp : SpriteList F)
    (win : Surface) (frameIndex : Int) : Option (List Nat) :=
  match sp.surface with
  | none => none
  | some surface =>
    let winW := win.w
    let winH := win.h
    let geom := computeRenderGeometryRounded fl32 fl64 sin cos surface.w surface.h winW winH s
      frameIndex ctx.cfg.shakingAmp ctx.cfg.shakingFreq sp.baseOffsetX sp.baseOffsetY
    if geom.dstW ≤ 0 ∨ geom.dstH ≤ 0 ∨ geom.srcW ≤ 0 ∨ geom.srcH ≤ 0 then none
    else
      match win.format with
      | none => none
      | some dstFmt =>
        let bgR : Fin 256 := Fin.ofNat ((ctx.cfg.bgColor >>> 16) &&& 0xFF)
        let bgG : Fin 256 := Fin.ofNat ((ctx.cfg.bgColor >>> 8) &&& 0xFF)
        let bgB : Fin 256 := Fin.ofNat (ctx.cfg.bgColor &&& 0xFF)
        let bg := dstFmt.mapRGB bgR bgG bgB
        let frameBuffer := initFrameBuffer winW winH bg
        match surface.format with
        | none => none
        | some srcFmt =>
          let dstLeft : Int := max 0 ⌊geom.dstX⌋
          let dstTop : Int := max 0 ⌊geom.dstY⌋
          let dstRight : Int := min winW ⌈fl32 (geom.dstX + geom.dstW)⌉
          let dstBottom : Int := min winH ⌈fl32 (geom.dstY + geom.dstH)⌉
          if dstLeft ≥ dstRight ∨ dstTop ≥ dstBottom then none
          else
            some (renderBands (pixelBodyRounded fl32 surface srcFmt dstFmt geom) winW
              dstLeft dstRight dstTop dstBottom ctx.nThreads frameBuffer)

/-- The procedure `renderFrameCpu` (app_utils.h 419-553) with rounded arithmetic: the
window surface after the call. -/
def renderFrameCpuRounded {F : Type} [LinearOrderedField F] [FloorRing F] (fl32 fl64 : F → F)
    (sin cos : F → F) (ctx : AppContext F) (s : MainLoopState F) (sp : SpriteList F)
    (winSurface : Option Surface) (frameIndex : Int) : Option Surface :=
  match winSurface with
  | none => none
  | some win =>
    match rasterizeRounded fl32 fl64 sin cos ctx s sp win frameIndex with
    | none => some win
    | some frameBuffer =>
      match win.format with
      | none => some win
      | some dstFmt =>
        let fb :=
          if s.showContextMenu then overlayMenu s dstFmt win.w win.h frameBuffer
          else frameBuffer
        some { win with pixels := fb ++ win.pixels.drop fb.length }

/-! ## Main loop (app.cpp 475-505) -/

/-- What one iteration of the loop of `runMainLoop` receives from outside of the
program: the events delivered by `SDL_PollEvent` during `handleEvents`, the value of
`SDL_GetPerformanceCounter()` in `updateTiming`, what the audio stream delivers in
`updateAudioState` (`none` when `ctx.stream` is null), the value of `SDL_GetTicks()` in
`updateBlinking`, and the value of `g_globalRunning` at the end of the iteration. -/
structure TickInput (F : Type) where
  events : List Event
  counter : Nat
  stream : Option (AudioPoll F)
  ticks : Nat
  globalRunning : Bool

/-- The body of the loop `while (ctx.state->running)` of `runMainLoop`: the state at the
end of the iteration and the frame index passed to `renderFrame` by `maybeRender`, if
`renderFrame` is called.  `sqrt` and `sin` are `std::sqrt` and `std::sin`.  The frame
delay (`SDL_Delay`) and the renderer calls at the end of the body write no field of the
state and are left out. -/
def runTick {F : Type} [LinearOrderedField F] (sqrt sin : F → F) (ctx : AppContext F)
    (s : MainLoopState F) (inp : TickInput F) : MainLoopState F × Option Int :=
  let s1 := handleEvents ctx s inp.events
  let s2 := updateTiming inp.counter s1
  let s3 := updateAudioState sqrt ctx.cfg inp.stream s2
  let s4 := updateBreathing sin ctx.cfg s3
  let s5 := updateBlinking inp.ticks s4
  let r := maybeRender s5
  let s6 := if !inp.globalRunning then { r.1 with running := false } else r.1
  (s6, r.2)

/-- The loop `while (ctx.state->running) { ... }` of `runMainLoop` over the iterations
for which an input is given: the state when the loop stops or the inputs are used up,
and for each iteration that ran what `maybeRender` passed to `renderFrame`. -/
def tickLoop {F : Type} [LinearOrderedField F] (sqrt sin : F → F) (ctx : AppContext F) :
    MainLoopState F → List (TickInput F) → MainLoopState F × List (Option Int)
  | s, [] => (s, [])
  | s, inp :: rest =>
    if s.running then
      let r := runTick sqrt sin ctx s inp
      let t := tickLoop sqrt sin ctx r.1 rest
      (t.1, r.2 :: t.2)
    else (s, [])

/-- A 2 x 2 image in the format `RGBA8888`, one pixel per quadrant: opaque black,
fully transparent red, opaque green and an empty pixel. -/
def fourPixelSurface : Surface where
  w := 2
  h := 2
  pitch := 8
  pixels := [0x000000FF, 0xFF000000, 0x00FF00FF, 0]
  format := some RGBA8888

/-- An 8 x 4 image in the format `RGBA8888` (quadrants of 4 x 2 pixels) whose only
non-zero pixels are two opaque white pixels at the positions (6,1) and (7,1), that is
at the local positions (2,1) and (3,1) of quadrant 1. -/
def twoDotSurface : Surface where
  w := 8
  h := 4
  pitch := 32
  pixels := List.replicate 14 0 ++ [0xFFFFFFFF, 0xFFFFFFFF] ++ List.replicate 16 0
  format := some RGBA8888

/-- A 2 x 2 image in the format `RGBA8888` with four different pixels. -/
def variedSurface : Surface where
  w := 2
  h := 2
  pitch := 8
  pixels := [0x11223344, 0xAABBCCDD, 0x01020304, 0xFFEEDDCC]
  format := some RGBA8888

/-- A window surface of 4 x 2 pixels in the format `RGBA8888` that shows the pixel word
`0x12345678` everywhere. -/
def smallWindow : Surface where
  w := 4
  h := 2
  pitch := 16
  pixels := List.replicate 8 0x12345678
  format := some RGBA8888

/-- A sprite sheet of 1 x 2 pixels: its quadrants have width `1 / 2 = 0`. -/
def narrowSprite : SpriteList ℚ where
  surface := some { w := 1, h := 2, pitch := 4, pixels := [0xFF0000FF, 0xFF0000FF],
                    format := some RGBA8888 }
  w := 1
  h := 2
  baseOffsetX := fun _ => 0
  baseOffsetY := fun _ => 0

/-- An opaque 4 x 2 image in the format `RGBA8888` whose pixels all have the colour
(0x33, 0x66, 0xCC). -/
def uniformSurface : Surface where
  w := 4
  h := 2
  pitch := 16
  pixels := List.replicate 8 0x3366CCFF
  format := some RGBA8888

/-- The sprite of `uniformSurface`, loaded as is. -/
def uniformSprite : SpriteList ℚ where
  surface := some uniformSurface
  w := 4
  h := 2
  baseOffsetX := fun _ => 0
  baseOffsetY := fun _ => 0

/-- An 8 x 4 image in the format `RGBA8888` (quadrants of 4 x 2 pixels).  Quadrant 0
holds an opaque black pixel at (1,0) and an opaque white pixel at (3,1); quadrant 1
holds a fully transparent red pixel at its local position (0,0); all other pixels are
zero. -/
def darkDotSurface : Surface where
  w := 8
  h := 4
  pitch := 32
  pixels := [0, 0x000000FF, 0, 0, 0xFF000000] ++ List.replicate 6 0 ++ [0xFFFFFFFF]
    ++ List.replicate 20 0
  format := some RGBA8888

/-- A fully opaque sprite sheet of 300 x 500 pixels in the format `RGBA8888`, all pixels
of the colour (0x33, 0x66, 0xCC). -/
def tallUniformSurface : Surface where
  w := 300
  h := 500
  pitch := 1200
  pixels := List.replicate 150000 0x3366CCFF
  format := some RGBA8888

/-- A window surface of 300 x 500 pixels in the format `RGBA8888`. -/
def tallWindow : Surface where
  w := 300
  h := 500
  pitch := 1200
  pixels := List.replicate 150000 0x12345678
  format := some RGBA8888

/-- The sprite list of `tallUniformSurface` with as-is alignment. -/
def tallUniformSprite : SpriteList ℚ where
  surface := some tallUniformSurface
  w := 300
  h := 500
  baseOffsetX := fun _ => 0
  baseOffsetY := fun _ => 0

/-! ## Theorems -/

/-! ### Row bands -/

theorem IsBandChain.snoc {l : List (Int × Int)} {a b c : Int}
    (h : IsBandChain l a b) (hbc : b < c) : IsBandChain (l ++ [(b, c)]) a c := by
  induction l generalizing a with
  | nil =>
    simp only [IsBandChain] at h
    subst h
    simp [IsBandChain, hbc]
  | cons p rest ih =>
    obtain ⟨h1, h2, h3⟩ := h
    exact ⟨h1, h2, ih h3⟩

theorem IsBandChain.le {l : List (Int × Int)} {a b : Int}
    (h : IsBandChain l a b) : a ≤ b := by
  induction l generalizing a with
  | nil => exact le_of_eq h
  | cons p rest ih =>
    obtain ⟨h1, h2, h3⟩ := h
    have := ih h3
    omega

theorem rowsPerThread_pos (dstTop dstBottom : Int) (nThreads : Nat) :
    1 ≤ rowsPerThread dstTop dstBottom nThreads :=
  le_max_left _ _

theorem bandOf_inner (dstTop dstBottom : Int) (nThreads t : Nat) (ht : t + 1 < nThreads) :
    bandOf dstTop dstBottom nThreads t =
      if dstTop + (t : Int) * rowsPerThread dstTop dstBottom nThreads < dstBottom then
        some (dstTop + (t : Int) * rowsPerThread dstTop dstBottom nThreads,
          min (dstTop + (t : Int) * rowsPerThread dstTop dstBottom nThreads
            + rowsPerThread dstTop dstBottom nThreads) dstBottom)
      else none := by
  have hq := rowsPerThread_pos dstTop dstBottom nThreads
  have hne : ¬ ((t : Int) = (nThreads : Int) - 1) := by omega
  unfold bandOf
  simp only [hne, if_false]
  split_ifs with h1 h2 h2
  · omega
  · rfl
  · rfl
  · omega

theorem bandOf_last (dstTop dstBottom : Int) (nThreads : Nat) (hn : 1 ≤ nThreads) :
    bandOf dstTop dstBottom nThreads (nThreads - 1) =
      if dstTop + ((nThreads - 1 : Nat) : Int) * rowsPerThread dstTop dstBottom nThreads
          < dstBottom then
        some (dstTop + ((nThreads - 1 : Nat) : Int) * rowsPerThread dstTop dstBottom nThreads,
          dstBottom)
      else none := by
  have he : ((nThreads - 1 : Nat) : Int) = (nThreads : Int) - 1 := by omega
  unfold bandOf
  simp only [he, if_true]
  split_ifs with h1 h2 h2
  · omega
  · rfl
  · rfl
  · omega

/-- The bands created by the iterations `0 .. t-1`, none of which is the last
iteration, cover the rows from `dstTop` to `min (dstTop + t * rowsPerThread) dstBottom`. -/
theorem bands_initial_chain (dstTop dstBottom : Int) (nThreads : Nat)
    (hrows : dstTop ≤ dstBottom) (t : Nat) (ht : t + 1 ≤ nThreads) :
    IsBandChain ((List.range t).filterMap (bandOf dstTop dstBottom nThreads)) dstTop
      (min (dstTop + (t : Int) * rowsPerThread dstTop dstBottom nThreads) dstBottom) := by
  have hq := rowsPerThread_pos dstTop dstBottom nThreads
  induction t with
  | zero =>
    simp only [List.range_zero, List.filterMap_nil, IsBandChain]
    simp only [Nat.cast_zero, zero_mul, add_zero]
    omega
  | succ t ih =>
    have ih := ih (by omega)
    have hmul : ((t + 1 : Nat) : Int) * rowsPerThread dstTop dstBottom nThreads
        = (t : Int) * rowsPerThread dstTop dstBottom nThreads
          + rowsPerThread dstTop dstBottom nThreads := by
      push_cast; ring
    rw [List.range_succ, List.filterMap_append, hmul, List.filterMap_cons,
      bandOf_inner dstTop dstBottom nThreads t (by omega)]
    by_cases hlt : dstTop + (t : Int) * rowsPerThread dstTop dstBottom nThreads < dstBottom
    · rw [if_pos hlt]
      simp only [List.filterMap_nil]
      rw [min_eq_left (le_of_lt hlt)] at ih
      have key := ih.snoc (c := min (dstTop + (t : Int) * rowsPerThread dstTop dstBottom nThreads
            + rowsPerThread dstTop dstBottom nThreads) dstBottom) (by omega)
      rw [add_assoc] at key ⊢
      exact key
    · rw [if_neg hlt]
      simp only [List.filterMap_nil, List.append_nil]
      have e1 : min (dstTop + (t : Int) * rowsPerThread dstTop dstBottom nThreads) dstBottom
          = dstBottom := by omega
      have e2 : min (dstTop + ((t : Int) * rowsPerThread dstTop dstBottom nThreads
          + rowsPerThread dstTop dstBottom nThreads)) dstBottom = dstBottom := by omega
      rw [e1] at ih
      rw [e2]
      exact ih

/-- For a non-empty (or empty) row range and at least one worker, the bands of
`renderFrameCpu` form a chain from `dstTop` to `dstBottom`. -/
theorem workerBands_chain (dstTop dstBottom : Int) (nThreads : Nat)
    (hrows : dstTop ≤ dstBottom) (hn : 1 ≤ nThreads) :
    IsBandChain (workerBands dstTop dstBottom nThreads) dstTop dstBottom := by
  have hpre := bands_initial_chain dstTop dstBottom nThreads hrows (nThreads - 1) (by omega)
  have hsucc : nThreads = (nThreads - 1) + 1 := by omega
  unfold workerBands
  rw [hsucc, List.range_succ, List.filterMap_append, List.filterMap_cons, ← hsucc,
    bandOf_last dstTop dstBottom nThreads hn]
  by_cases hlt : dstTop + ((nThreads - 1 : Nat) : Int) * rowsPerThread dstTop dstBottom nThreads
      < dstBottom
  · rw [if_pos hlt]
    simp only [List.filterMap_nil]
    rw [min_eq_left (le_of_lt hlt)] at hpre
    exact hpre.snoc hlt
  · rw [if_neg hlt]
    simp only [List.filterMap_nil, List.append_nil]
    rw [min_eq_right (by omega)] at hpre
    exact hpre

/-- With an empty row range every iteration of the worker loop is skipped. -/
theorem workerBands_of_le (dstTop dstBottom : Int) (nThreads : Nat)
    (hrows : dstBottom ≤ dstTop) : workerBands dstTop dstBottom nThreads = [] := by
  have hq := rowsPerThread_pos dstTop dstBottom nThreads
  unfold workerBands
  rw [List.filterMap_eq_nil_iff]
  intro t _
  have hs : 0 ≤ (t : Int) * rowsPerThread dstTop dstBottom nThreads :=
    mul_nonneg (by omega) (by omega)
  simp only [bandOf]
  split_ifs <;> first | rfl | omega

theorem IsBandChain.bounds {l : List (Int × Int)} {a b : Int}
    (h : IsBandChain l a b) : ∀ p ∈ l, a ≤ p.1 ∧ p.1 < p.2 ∧ p.2 ≤ b := by
  induction l generalizing a with
  | nil => intro p hp; cases hp
  | cons q rest ih =>
    obtain ⟨h1, h2, h3⟩ := h
    intro p hp
    rcases List.mem_cons.mp hp with rfl | hp
    · exact ⟨le_of_eq h1.symm, h2, h3.le⟩
    · have := ih h3 p hp
      omega

theorem IsBandChain.pairwise {l : List (Int × Int)} {a b : Int}
    (h : IsBandChain l a b) : l.Pairwise (fun p q => p.2 ≤ q.1) := by
  induction l generalizing a with
  | nil => exact List.Pairwise.nil
  | cons q rest ih =>
    obtain ⟨_, _, h3⟩ := h
    exact List.Pairwise.cons (fun p hp => (h3.bounds p hp).1) (ih h3)

theorem IsBandChain.contiguous {l : List (Int × Int)} {a b : Int}
    (h : IsBandChain l a b) : l.Chain' (fun p q => p.2 = q.1) := by
  induction l generalizing a with
  | nil => exact List.chain'_nil
  | cons q rest ih =>
    obtain ⟨_, _, h3⟩ := h
    cases rest with
    | nil => exact List.chain'_singleton q
    | cons r rest2 =>
      exact List.chain'_cons.mpr ⟨h3.1.symm, ih h3⟩

theorem IsBandChain.head {l : List (Int × Int)} {a b : Int}
    (h : IsBandChain l a b) (hab : a < b) : l.head?.map Prod.fst = some a := by
  cases l with
  | nil => simp only [IsBandChain] at h; omega
  | cons q rest => simp [h.1]

theorem IsBandChain.last {l : List (Int × Int)} {a b : Int}
    (h : IsBandChain l a b) (hab : a < b) : l.getLast?.map Prod.snd = some b := by
  induction l generalizing a with
  | nil => simp only [IsBandChain] at h; omega
  | cons q rest ih =>
    obtain ⟨h1, h2, h3⟩ := h
    cases rest with
    | nil =>
      simp only [IsBandChain] at h3
      simp [h3]
    | cons r rest2 =>
      have hlt : q.2 < b := by
        have := h3.2.2.le
        have := h3.2.1
        have := h3.1
        omega
      have := ih h3 hlt
      simpa [List.getLast?_cons_cons] using this

theorem IsBandChain.countP {l : List (Int × Int)} {a b : Int}
    (h : IsBandChain l a b) (y : Int) :
    l.countP (fun p => decide (p.1 ≤ y ∧ y < p.2)) = if a ≤ y ∧ y < b then 1 else 0 := by
  induction l generalizing a with
  | nil =>
    simp only [IsBandChain] at h
    subst h
    have : ¬ (a ≤ y ∧ y < a) := by omega
    simp [this]
  | cons q rest ih =>
    obtain ⟨h1, h2, h3⟩ := h
    have hle := h3.le
    rw [List.countP_cons, ih h3]
    by_cases hy : q.1 ≤ y ∧ y < q.2
    · have h1' : ¬ (q.2 ≤ y ∧ y < b) := by omega
      have h2' : a ≤ y ∧ y < b := by omega
      simp [hy, h1', h2']
    · by_cases hr : q.2 ≤ y ∧ y < b
      · have h2' : a ≤ y ∧ y < b := by omega
        simp [hy, hr, h2']
      · have h2' : ¬ (a ≤ y ∧ y < b) := by omega
        simp [hy, hr, h2']

/-- Claim C2. For `dstTop < dstBottom` and `nThreads ≥ 1` the row ranges handed to the
workers of `renderFrameCpu` are non-empty, contiguous in increasing order (each one
starts where the previous one ended), pairwise disjoint, start at `dstTop`, end at
`dstBottom`, and every row `y` lies in exactly one of them if
`dstTop ≤ y < dstBottom` and in none otherwise. -/
theorem workerBands_partition (dstTop dstBottom : Int) (nThreads : Nat)
    (hrows : dstTop < dstBottom) (hn : 1 ≤ nThreads) :
    (∀ p ∈ workerBands dstTop dstBottom nThreads, p.1 < p.2) ∧
    (workerBands dstTop dstBottom nThreads).Chain' (fun p q => p.2 = q.1) ∧
    (workerBands dstTop dstBottom nThreads).Pairwise (fun p q => p.2 ≤ q.1) ∧
    (workerBands dstTop dstBottom nThreads).head?.map Prod.fst = some dstTop ∧
    (workerBands dstTop dstBottom nThreads).getLast?.map Prod.snd = some dstBottom ∧
    ∀ y : Int,
      (workerBands dstTop dstBottom nThreads).countP (fun p => decide (p.1 ≤ y ∧ y < p.2))
        = if dstTop ≤ y ∧ y < dstBottom then 1 else 0 := by
  have hc := workerBands_chain dstTop dstBottom nThreads hrows.le hn
  exact ⟨fun p hp => (hc.bounds p hp).2.1, hc.contiguous, hc.pairwise, hc.head hrows,
    hc.last hrows, hc.countP⟩

/-- Witness for C2: ten rows `[3, 13)` split among four workers. -/
theorem workerBands_partition_witness :
    workerBands 3 13 4 = [(3, 5), (5, 7), (7, 9), (9, 13)] ∧
    ((∀ p ∈ workerBands 3 13 4, p.1 < p.2) ∧
    (workerBands 3 13 4).Chain' (fun p q => p.2 = q.1) ∧
    (workerBands 3 13 4).Pairwise (fun p q => p.2 ≤ q.1) ∧
    (workerBands 3 13 4).head?.map Prod.fst = some 3 ∧
    (workerBands 3 13 4).getLast?.map Prod.snd = some 13 ∧
    ∀ y : Int,
      (workerBands 3 13 4).countP (fun p => decide (p.1 ≤ y ∧ y < p.2))
        = if 3 ≤ y ∧ y < 13 then 1 else 0) :=
  ⟨by decide, workerBands_partition 3 13 4 (by decide) (by decide)⟩

/-- More workers than rows: three bands of one row, the other iterations are skipped. -/
theorem workerBands_more_workers_than_rows :
    workerBands 0 3 8 = [(0, 1), (1, 2), (2, 3)] := by decide

/-- Ten rows and three workers: the last worker takes the remainder. -/
theorem workerBands_remainder : workerBands 0 10 3 = [(0, 3), (3, 6), (6, 10)] := by decide

/-- The banded loop on a 3 x 2 window, two workers, a body that skips the pixels with
odd `x + y` and otherwise adds `10 * y + x` to the background pixel. -/
theorem renderBands_example :
    renderBands (fun x y dst => if (x + y) % 2 = 0 then some (dst + (10 * y + x).toNat) else none)
        3 0 3 0 2 2 (initFrameBuffer 3 2 100)
      = [100, 100, 102, 100, 111, 100] := by decide

/-! ### The banded loop computes the same buffer as one pass over all rows -/

theorem intRange_append (a b c : Int) (hab : a ≤ b) (hbc : b ≤ c) :
    intRange a c = intRange a b ++ intRange b c := by
  have hlen : (c - a).toNat = (b - a).toNat + (c - b).toNat := by omega
  unfold intRange
  rw [hlen, List.range_add, List.map_append, List.map_map]
  congr 1
  apply List.map_congr_left
  intro k _
  simp only [Function.comp_apply, Nat.cast_add]
  have : (((b - a).toNat : Nat) : Int) = b - a := Int.toNat_of_nonneg (by omega)
  omega

theorem intRange_empty (a b : Int) (h : b ≤ a) : intRange a b = [] := by
  have : (b - a).toNat = 0 := by omega
  simp [intRange, this]

theorem renderRows_append (body : Int → Int → Nat → Option Nat)
    (winW dstLeft dstRight : Int) (fb : List Nat) (a b c : Int) (hab : a ≤ b) (hbc : b ≤ c) :
    renderRows body winW dstLeft dstRight (renderRows body winW dstLeft dstRight fb a b) b c
      = renderRows body winW dstLeft dstRight fb a c := by
  unfold renderRows
  rw [intRange_append a b c hab hbc, List.foldl_append]

theorem renderRows_empty (body : Int → Int → Nat → Option Nat)
    (winW dstLeft dstRight : Int) (fb : List Nat) (a b : Int) (h : b ≤ a) :
    renderRows body winW dstLeft dstRight fb a b = fb := by
  simp [renderRows, intRange_empty a b h]

/-- Running the workers of a chain of bands from `a` to `b` one after the other
renders exactly the rows `[a, b)`. -/
theorem foldl_worker_chain (body : Int → Int → Nat → Option Nat)
    (winW dstLeft dstRight : Int) {l : List (Int × Int)} {a b : Int}
    (h : IsBandChain l a b) (fb : List Nat) :
    l.foldl (worker body winW dstLeft dstRight) fb
      = renderRows body winW dstLeft dstRight fb a b := by
  induction l generalizing a fb with
  | nil =>
    simp only [IsBandChain] at h
    subst h
    simp [renderRows_empty]
  | cons p rest ih =>
    obtain ⟨h1, h2, h3⟩ := h
    rw [List.foldl_cons, ih h3, worker, h1,
      renderRows_append body winW dstLeft dstRight fb a p.2 b (by omega) h3.le]

/-- For every worker count `nThreads ≥ 1` the banded loop of `renderFrameCpu` yields
the buffer of the single loop `for (y = dstTop; y < dstBottom; ++y)`. -/
theorem renderBands_eq_renderRows (body : Int → Int → Nat → Option Nat)
    (winW dstLeft dstRight dstTop dstBottom : Int) (nThreads : Nat) (hn : 1 ≤ nThreads)
    (fb : List Nat) :
    renderBands body winW dstLeft dstRight dstTop dstBottom nThreads fb
      = renderRows body winW dstLeft dstRight fb dstTop dstBottom := by
  unfold renderBands
  by_cases hrows : dstTop ≤ dstBottom
  · exact foldl_worker_chain body winW dstLeft dstRight
      (workerBands_chain dstTop dstBottom nThreads hrows hn) fb
  · rw [workerBands_of_le dstTop dstBottom nThreads (by omega),
      renderRows_empty body winW dstLeft dstRight fb dstTop dstBottom (by omega)]
    rfl

/-- Claim C1. For every per-pixel computation (source bitmap, resolved geometry, pixel
formats), background colour and window size, the frame buffer filled by the banded
loop of `renderFrameCpu` is the same for all worker counts `n, m ≥ 1`. -/
theorem renderBands_worker_count_irrelevant (body : Int → Int → Nat → Option Nat)
    (winW winH : Int) (bg : Nat) (dstLeft dstRight dstTop dstBottom : Int)
    (n m : Nat) (hn : 1 ≤ n) (hm : 1 ≤ m) :
    renderBands body winW dstLeft dstRight dstTop dstBottom n (initFrameBuffer winW winH bg)
      = renderBands body winW dstLeft dstRight dstTop dstBottom m
          (initFrameBuffer winW winH bg) := by
  rw [renderBands_eq_renderRows body winW dstLeft dstRight dstTop dstBottom n hn,
    renderBands_eq_renderRows body winW dstLeft dstRight dstTop dstBottom m hm]

/-- Witness for C1: one worker against eight workers on a 4 x 3 window. -/
theorem renderBands_worker_count_irrelevant_witness :
    renderBands (fun x y dst => if (x + y) % 2 = 0 then some (dst + 1) else none)
        4 0 4 0 3 1 (initFrameBuffer 4 3 7)
      = renderBands (fun x y dst => if (x + y) % 2 = 0 then some (dst + 1) else none)
        4 0 4 0 3 8 (initFrameBuffer 4 3 7) :=
  renderBands_worker_count_irrelevant _ 4 3 7 0 4 0 3 1 8 (by decide) (by decide)

/-! ### The order in which the workers run is irrelevant -/

theorem foldl_commute_op {α β : Type} (f : β → α → β) (g : β → β) (l : List α)
    (h : ∀ a ∈ l, ∀ z, f (g z) a = g (f z a)) (z : β) :
    l.foldl f (g z) = g (l.foldl f z) := by
  induction l generalizing z with
  | nil => rfl
  | cons a rest ih =>
    rw [List.foldl_cons, List.foldl_cons, h a (List.mem_cons_self a rest) z]
    exact ih (fun b hb => h b (List.mem_cons_of_mem a hb)) (f z a)

theorem mem_intRange {lo hi i : Int} : i ∈ intRange lo hi ↔ lo ≤ i ∧ i < hi := by
  unfold intRange
  simp only [List.mem_map, List.mem_range]
  constructor
  · rintro ⟨k, hk, rfl⟩
    omega
  · intro h
    exact ⟨(i - lo).toNat, by omega, by omega⟩

/-- Pixels of different rows occupy different cells of the frame buffer. -/
theorem index_ne_of_row_ne {winW x1 y1 x2 y2 : Int}
    (hx1 : 0 ≤ x1) (hx1w : x1 < winW) (hx2 : 0 ≤ x2) (hx2w : x2 < winW)
    (hy1 : 0 ≤ y1) (hy2 : 0 ≤ y2) (hne : y1 ≠ y2) :
    (y1 * winW + x1).toNat ≠ (y2 * winW + x2).toNat := by
  have hw : 0 < winW := by omega
  have h1 : 0 ≤ y1 * winW := mul_nonneg hy1 hw.le
  have h2 : 0 ≤ y2 * winW := mul_nonneg hy2 hw.le
  rcases lt_or_gt_of_ne hne with hlt | hgt
  · have : (y1 + 1) * winW ≤ y2 * winW := mul_le_mul_of_nonneg_right (by omega) hw.le
    have e : (y1 + 1) * winW = y1 * winW + winW := by ring
    omega
  · have : (y2 + 1) * winW ≤ y1 * winW := mul_le_mul_of_nonneg_right (by omega) hw.le
    have e : (y2 + 1) * winW = y2 * winW + winW := by ring
    omega

theorem shadePixel_comm (body : Int → Int → Nat → Option Nat) (winW : Int) (fb : List Nat)
    (x1 y1 x2 y2 : Int) (hne : (y1 * winW + x1).toNat ≠ (y2 * winW + x2).toNat) :
    shadePixel body winW (shadePixel body winW fb x1 y1) x2 y2
      = shadePixel body winW (shadePixel body winW fb x2 y2) x1 y1 := by
  have hne' : (y2 * winW + x2).toNat ≠ (y1 * winW + x1).toNat := fun h => hne h.symm
  have get1 : ∀ p, (fb.set (y1 * winW + x1).toNat p).getD (y2 * winW + x2).toNat 0
      = fb.getD (y2 * winW + x2).toNat 0 := by
    intro p
    simp only [List.getD_eq_getElem?_getD, List.getElem?_set_ne hne]
  have get2 : ∀ p, (fb.set (y2 * winW + x2).toNat p).getD (y1 * winW + x1).toNat 0
      = fb.getD (y1 * winW + x1).toNat 0 := by
    intro p
    simp only [List.getD_eq_getElem?_getD, List.getElem?_set_ne hne']
  unfold shadePixel
  cases h1 : body x1 y1 (fb.getD (y1 * winW + x1).toNat 0) with
  | none =>
    cases h2 : body x2 y2 (fb.getD (y2 * winW + x2).toNat 0) with
    | none => simp only [h1, h2]
    | some q => simp only [h1, h2, get2]
  | some p =>
    cases h2 : body x2 y2 (fb.getD (y2 * winW + x2).toNat 0) with
    | none => simp only [h1, h2, get1]
    | some q =>
      simp only [h1, h2, get1, get2]
      exact (List.set_comm p q fb hne)

theorem renderRow_comm (body : Int → Int → Nat → Option Nat)
    (winW dstLeft dstRight : Int) (hl : 0 ≤ dstLeft) (hr : dstRight ≤ winW)
    (fb : List Nat) (y1 y2 : Int) (hy1 : 0 ≤ y1) (hy2 : 0 ≤ y2) (hne : y1 ≠ y2) :
    renderRow body winW dstLeft dstRight (renderRow body winW dstLeft dstRight fb y1) y2
      = renderRow body winW dstLeft dstRight (renderRow body winW dstLeft dstRight fb y2) y1 := by
  have hstep : ∀ x1 ∈ intRange dstLeft dstRight, ∀ z,
      renderRow body winW dstLeft dstRight (shadePixel body winW z x1 y1) y2
        = shadePixel body winW (renderRow body winW dstLeft dstRight z y2) x1 y1 := by
    intro x1 hx1 z
    rw [mem_intRange] at hx1
    unfold renderRow
    apply foldl_commute_op (fun acc x => shadePixel body winW acc x y2)
      (fun w => shadePixel body winW w x1 y1)
    intro x2 hx2 w
    rw [mem_intRange] at hx2
    exact shadePixel_comm body winW w x1 y1 x2 y2
      (index_ne_of_row_ne (by omega) (by omega) (by omega) (by omega) hy1 hy2 hne)
  exact (foldl_commute_op (fun acc x => shadePixel body winW acc x y1)
    (fun w => renderRow body winW dstLeft dstRight w y2) (intRange dstLeft dstRight)
    (fun a ha z => (hstep a ha z).symm) fb).symm

theorem worker_comm (body : Int → Int → Nat → Option Nat)
    (winW dstLeft dstRight : Int) (hl : 0 ≤ dstLeft) (hr : dstRight ≤ winW)
    (fb : List Nat) (p q : Int × Int) (hp : 0 ≤ p.1) (hq : 0 ≤ q.1)
    (hdisj : p.2 ≤ q.1 ∨ q.2 ≤ p.1) :
    worker body winW dstLeft dstRight (worker body winW dstLeft dstRight fb p) q
      = worker body winW dstLeft dstRight (worker body winW dstLeft dstRight fb q) p := by
  have hstep : ∀ y1 ∈ intRange p.1 p.2, ∀ z,
      worker body winW dstLeft dstRight (renderRow body winW dstLeft dstRight z y1) q
        = renderRow body winW dstLeft dstRight (worker body winW dstLeft dstRight z q) y1 := by
    intro y1 hy1 z
    rw [mem_intRange] at hy1
    unfold worker renderRows
    apply foldl_commute_op (renderRow body winW dstLeft dstRight)
      (fun w => renderRow body winW dstLeft dstRight w y1)
    intro y2 hy2 w
    rw [mem_intRange] at hy2
    exact renderRow_comm body winW dstLeft dstRight hl hr w y1 y2 (by omega) (by omega)
      (by omega)
  exact (foldl_commute_op (renderRow body winW dstLeft dstRight)
    (fun w => worker body winW dstLeft dstRight w q) (intRange p.1 p.2)
    (fun a ha z => (hstep a ha z).symm) fb).symm

/-- Whatever the order in which the workers of `renderFrameCpu` run to completion,
the frame buffer after the join is the one computed by `renderBands`: the bands are
pairwise disjoint and a worker reads and writes only cells of its own rows. -/
theorem renderBands_schedule (body : Int → Int → Nat → Option Nat)
    (winW dstLeft dstRight dstTop dstBottom : Int) (nThreads : Nat) (hn : 1 ≤ nThreads)
    (hl : 0 ≤ dstLeft) (hr : dstRight ≤ winW) (ht : 0 ≤ dstTop)
    (schedule : List (Int × Int))
    (hperm : schedule.Perm (workerBands dstTop dstBottom nThreads)) (fb : List Nat) :
    schedule.foldl (worker body winW dstLeft dstRight) fb
      = renderBands body winW dstLeft dstRight dstTop dstBottom nThreads fb := by
  unfold renderBands
  by_cases hrows : dstTop ≤ dstBottom
  · have hc := workerBands_chain dstTop dstBottom nThreads hrows hn
    have hpw : (workerBands dstTop dstBottom nThreads).Pairwise
        (fun p q => p.2 ≤ q.1 ∨ q.2 ≤ p.1) :=
      hc.pairwise.imp (fun h => Or.inl h)
    have hsym : Symmetric (fun p q : Int × Int => p.2 ≤ q.1 ∨ q.2 ≤ p.1) :=
      fun p q h => h.symm
    apply List.Perm.foldl_eq' hperm
    intro p hp q hq z
    have hp' := hperm.mem_iff.mp hp
    have hq' := hperm.mem_iff.mp hq
    by_cases hpq : p = q
    · rw [hpq]
    · exact worker_comm body winW dstLeft dstRight hl hr z p q
        (by have := (hc.bounds p hp').1; omega) (by have := (hc.bounds q hq').1; omega)
        (hpw.forall hsym hp' hq' hpq)
  · rw [workerBands_of_le dstTop dstBottom nThreads (by omega)] at hperm ⊢
    rw [List.Perm.eq_nil hperm]

/-! ### Every interleaving of the pixel updates yields the same buffer -/

theorem renderRows_eq_foldl_pixelSteps (body : Int → Int → Nat → Option Nat)
    (winW dstLeft dstRight : Int) (fb : List Nat) (yStart yEnd : Int) :
    renderRows body winW dstLeft dstRight fb yStart yEnd
      = (pixelSteps dstLeft dstRight yStart yEnd).foldl
          (fun acc p => shadePixel body winW acc p.1 p.2) fb := by
  unfold renderRows pixelSteps
  generalize intRange yStart yEnd = rows
  induction rows generalizing fb with
  | nil => rfl
  | cons y rest ih =>
    rw [List.foldl_cons, List.flatMap_cons, List.foldl_append, ih]
    congr 1
    unfold renderRow
    rw [List.foldl_map]

theorem mem_pixelSteps {dstLeft dstRight yStart yEnd : Int} {p : Int × Int} :
    p ∈ pixelSteps dstLeft dstRight yStart yEnd
      ↔ (dstLeft ≤ p.1 ∧ p.1 < dstRight) ∧ (yStart ≤ p.2 ∧ p.2 < yEnd) := by
  unfold pixelSteps
  simp only [List.mem_flatMap, List.mem_map, mem_intRange]
  constructor
  · rintro ⟨y, hy, x, hx, rfl⟩
    exact ⟨hx, hy⟩
  · rintro ⟨hx, hy⟩
    exact ⟨p.2, hy, p.1, hx, rfl⟩

/-- Different pixels of the window occupy different cells of the frame buffer. -/
theorem index_ne_of_ne {winW x1 y1 x2 y2 : Int}
    (hx1 : 0 ≤ x1) (hx1w : x1 < winW) (hx2 : 0 ≤ x2) (hx2w : x2 < winW)
    (hy1 : 0 ≤ y1) (hy2 : 0 ≤ y2) (hne : (x1, y1) ≠ (x2, y2)) :
    (y1 * winW + x1).toNat ≠ (y2 * winW + x2).toNat := by
  by_cases hy : y1 = y2
  · subst hy
    have hx : x1 ≠ x2 := fun h => hne (by rw [h])
    have h1 : 0 ≤ y1 * winW := mul_nonneg hy1 (by omega)
    omega
  · exact index_ne_of_row_ne hx1 hx1w hx2 hx2w hy1 hy2 hy

/-- The workers of `renderFrameCpu` update each pixel of
`[dstLeft, dstRight) x [dstTop, dstBottom)` once, and an update reads and writes only
the cell of its own pixel.  Hence the frame buffer after the join does not depend on
how the updates of the different workers are interleaved: executing the pixel
updates in any order whatsoever yields the buffer computed by `renderBands`. -/
theorem renderBands_interleaving (body : Int → Int → Nat → Option Nat)
    (winW dstLeft dstRight dstTop dstBottom : Int) (nThreads : Nat) (hn : 1 ≤ nThreads)
    (hl : 0 ≤ dstLeft) (hr : dstRight ≤ winW) (ht : 0 ≤ dstTop)
    (schedule : List (Int × Int))
    (hperm : schedule.Perm (pixelSteps dstLeft dstRight dstTop dstBottom)) (fb : List Nat) :
    schedule.foldl (fun acc p => shadePixel body winW acc p.1 p.2) fb
      = renderBands body winW dstLeft dstRight dstTop dstBottom nThreads fb := by
  rw [renderBands_eq_renderRows body winW dstLeft dstRight dstTop dstBottom nThreads hn,
    renderRows_eq_foldl_pixelSteps]
  apply List.Perm.foldl_eq' hperm
  intro p hp q hq z
  have hp' := mem_pixelSteps.mp (hperm.mem_iff.mp hp)
  have hq' := mem_pixelSteps.mp (hperm.mem_iff.mp hq)
  by_cases hpq : p = q
  · rw [hpq]
  · exact shadePixel_comm body winW z p.1 p.2 q.1 q.2
      (index_ne_of_ne (by omega) (by omega) (by omega) (by omega) (by omega) (by omega)
        (fun h => hpq (Prod.ext (by simpa using congrArg Prod.fst h)
          (by simpa using congrArg Prod.snd h))))

/-! ### Frame index -/

/-- Claim C3. The frame index computed by `maybeRender` is
`(speak ? 1 : 0) + (blink ? 2 : 0)`, it is one of 0, 1, 2, 3, and it is the index
handed to `renderFrame` whenever `maybeRender` renders. -/
theorem maybeRender_frameIndex {F : Type} (s : MainLoopState F) :
    frameIndex s = (if s.speak = true then (1 : Int) else 0) + (if s.blink = true then 2 else 0) ∧
    (frameIndex s = 0 ∨ frameIndex s = 1 ∨ frameIndex s = 2 ∨ frameIndex s = 3) ∧
    ((maybeRender s).2 = none ∨ (maybeRender s).2 = some (frameIndex s)) := by
  refine ⟨rfl, ?_, ?_⟩
  · unfold frameIndex
    cases s.speak <;> cases s.blink <;> simp
  · unfold maybeRender
    cases needsRender s <;> simp

/-! ### Viewport scale -/

theorem clamp_bounds {F : Type} [LinearOrderedField F] (v lo hi : F) (h : lo ≤ hi) :
    lo ≤ clamp v lo hi ∧ clamp v lo hi ≤ hi := by
  unfold clamp
  split_ifs with h1 h2
  · exact ⟨le_refl _, h⟩
  · exact ⟨h, le_refl _⟩
  · exact ⟨not_lt.mp h1, not_lt.mp h2⟩

theorem MenuAction.run_scale {F : Type} (a : MenuAction) (s : MainLoopState F) :
    (a.run s).scale = s.scale ∧ (a.run s).baseScale = s.baseScale := by
  cases a <;> exact ⟨rfl, rfl⟩

theorem clickContextMenu_scale {F : Type} (ctx : AppContext F) (s : MainLoopState F)
    (x y : Int) :
    (clickContextMenu ctx s x y).scale = s.scale ∧
    (clickContextMenu ctx s x y).baseScale = s.baseScale := by
  unfold clickContextMenu
  simp only
  split
  · split_ifs <;> first | exact MenuAction.run_scale _ s | exact ⟨rfl, rfl⟩
  · exact ⟨rfl, rfl⟩

/-- The invariant of the viewport scale: `scale` lies in `[0.1, 5.0]` and `baseScale`
still has its initial value `1.0`. -/
theorem handleEvent_scale_inv {F : Type} [LinearOrderedField F] (ctx : AppContext F)
    (s : MainLoopState F) (e : Event)
    (h : (0.1 ≤ s.scale ∧ s.scale ≤ 5.0) ∧ s.baseScale = 1) :
    (0.1 ≤ (handleEvent ctx s e).scale ∧ (handleEvent ctx s e).scale ≤ 5.0) ∧
      (handleEvent ctx s e).baseScale = 1 := by
  obtain ⟨⟨hlo, hhi⟩, hbase⟩ := h
  cases e with
  | quit => exact ⟨⟨hlo, hhi⟩, hbase⟩
  | keyDown key =>
    simp only [handleEvent]
    split_ifs
    · exact ⟨⟨hlo, hhi⟩, hbase⟩
    · split <;> exact ⟨⟨hlo, hhi⟩, hbase⟩
  | mouseButtonDown button x y ticks =>
    cases button with
    | left =>
      simp only [handleEvent]
      split_ifs
      · rw [(clickContextMenu_scale ctx s x y).1, (clickContextMenu_scale ctx s x y).2]
        exact ⟨⟨hlo, hhi⟩, hbase⟩
      · simp only [hbase]
        norm_num
      · exact ⟨⟨hlo, hhi⟩, hbase⟩
    | right => exact ⟨⟨hlo, hhi⟩, hbase⟩
    | other => exact ⟨⟨hlo, hhi⟩, hbase⟩
  | mouseButtonUp button =>
    simp only [handleEvent]
    split_ifs <;> exact ⟨⟨hlo, hhi⟩, hbase⟩
  | mouseMotion x y =>
    simp only [handleEvent]
    split_ifs <;> exact ⟨⟨hlo, hhi⟩, hbase⟩
  | mouseWheel y =>
    exact ⟨clamp_bounds _ _ _ (by norm_num), hbase⟩
  | other => exact ⟨⟨hlo, hhi⟩, hbase⟩

theorem handleEvents_scale_inv {F : Type} [LinearOrderedField F] (ctx : AppContext F)
    (events : List Event) (s : MainLoopState F)
    (h : (0.1 ≤ s.scale ∧ s.scale ≤ 5.0) ∧ s.baseScale = 1) :
    (0.1 ≤ (handleEvents ctx s events).scale ∧ (handleEvents ctx s events).scale ≤ 5.0) ∧
      (handleEvents ctx s events).baseScale = 1 := by
  induction events generalizing s with
  | nil => exact h
  | cons e rest ih => exact ih (handleEvent ctx s e) (handleEvent_scale_inv ctx s e h)

/-- Claim C4. From a state with `scale = baseScale = 1.0` (the initial `MainLoopState`),
every finite sequence of events handled by `handleEvents` leads to a state with
`0.1 ≤ scale ≤ 5.0`; and one wheel event brings every prior value of `scale` into
that interval. -/
theorem scale_within_bounds {F : Type} [LinearOrderedField F] (ctx : AppContext F)
    (s0 : MainLoopState F) (hscale : s0.scale = 1) (hbase : s0.baseScale = 1) :
    (∀ events : List Event,
      0.1 ≤ (handleEvents ctx s0 events).scale ∧ (handleEvents ctx s0 events).scale ≤ 5.0) ∧
    (∀ (s : MainLoopState F) (y : Int),
      0.1 ≤ (handleEvent ctx s (Event.mouseWheel y)).scale ∧
        (handleEvent ctx s (Event.mouseWheel y)).scale ≤ 5.0) := by
  constructor
  · intro events
    refine (handleEvents_scale_inv ctx events s0 ⟨⟨?_, ?_⟩, hbase⟩).1
    · rw [hscale]; norm_num
    · rw [hscale]; norm_num
  · intro s y
    exact clamp_bounds _ _ _ (by norm_num)

/-- Witness for C4: from the state built by `new MainLoopState()`, twenty wheel-up
events, a press and a wheel-down event; and one wheel event on a state whose scale
is 100. -/
theorem scale_within_bounds_witness :
    (0.1 ≤ (handleEvents (exampleContext ℚ) (MainLoopState.initial ℚ)
        (List.replicate 20 (Event.mouseWheel 1)
          ++ [Event.mouseButtonDown MouseButton.left 10 10 700, Event.mouseWheel (-1)])).scale ∧
      (handleEvents (exampleContext ℚ) (MainLoopState.initial ℚ)
        (List.replicate 20 (Event.mouseWheel 1)
          ++ [Event.mouseButtonDown MouseButton.left 10 10 700, Event.mouseWheel (-1)])).scale
        ≤ 5.0) ∧
    (0.1 ≤ (handleEvent (exampleContext ℚ) { MainLoopState.initial ℚ with scale := 100 }
        (Event.mouseWheel 1)).scale ∧
      (handleEvent (exampleContext ℚ) { MainLoopState.initial ℚ with scale := 100 }
        (Event.mouseWheel 1)).scale ≤ 5.0) :=
  ⟨(scale_within_bounds (exampleContext ℚ) (MainLoopState.initial ℚ) rfl rfl).1 _,
   (scale_within_bounds (exampleContext ℚ) (MainLoopState.initial ℚ) rfl rfl).2 _ _⟩

/-! ### Double click -/

/-- A left press with the context menu closed records its time and position. -/
theorem handleEvent_left_records {F : Type} [LinearOrderedField F] (ctx : AppContext F)
    (s : MainLoopState F) (x y : Int) (t : Nat) (hmenu : s.showContextMenu = false) :
    (handleEvent ctx s (Event.mouseButtonDown MouseButton.left x y t)).lastLeftClickTime
        = t % 2 ^ 32 ∧
    (handleEvent ctx s (Event.mouseButtonDown MouseButton.left x y t)).lastLeftClickX = x ∧
    (handleEvent ctx s (Event.mouseButtonDown MouseButton.left x y t)).lastLeftClickY = y := by
  simp only [handleEvent, hmenu]
  exact ⟨rfl, rfl, rfl⟩

/-- The double-click test succeeds for a press at most 500 ms after and at most 5
pixels away from the recorded press. -/
theorem isDoubleClick_of_near {F : Type} (s : MainLoopState F) (x1 y1 x2 y2 : Int)
    (t1 t2 : Nat) (hT : s.lastLeftClickTime = t1 % 2 ^ 32) (hX : s.lastLeftClickX = x1)
    (hY : s.lastLeftClickY = y1) (ht1 : t1 ≤ t2) (ht : t2 - t1 ≤ 500)
    (hd : (x2 - x1) * (x2 - x1) + (y2 - y1) * (y2 - y1) ≤ 25) :
    isDoubleClick s x2 y2 (t2 % 2 ^ 32) = true := by
  have htime : (t2 % 2 ^ 32 + 2 ^ 32 - t1 % 2 ^ 32) % 2 ^ 32 ≤ 500 := by omega
  simp only [isDoubleClick, hT, hX, hY, DOUBLE_CLICK_THRESHOLD_MS, DOUBLE_CLICK_THRESHOLD_PX,
    Bool.and_eq_true, decide_eq_true_eq]
  exact ⟨htime, by omega⟩

/-- Claim C5. Let a left press at `(x1, y1)` at time `t1` be handled with the context menu
closed, and let `st` be any later state with the menu closed that still holds the
click record of that press (its offset, scale and drag fields are arbitrary).  A left
press at `(x2, y2)` at time `t2` with `t2 - t1 ≤ 500` and squared distance at most 25
sets `offset := baseOffset`, `scale := baseScale` and leaves the drag fields as they
were: no drag is started. -/
theorem double_click_resets {F : Type} [LinearOrderedField F] (ctx : AppContext F)
    (s0 st : MainLoopState F) (x1 y1 x2 y2 : Int) (t1 t2 : Nat)
    (hmenu0 : s0.showContextMenu = false)
    (hrec : st.lastLeftClickTime
          = (handleEvent ctx s0 (Event.mouseButtonDown MouseButton.left x1 y1 t1)).lastLeftClickTime ∧
        st.lastLeftClickX
          = (handleEvent ctx s0 (Event.mouseButtonDown MouseButton.left x1 y1 t1)).lastLeftClickX ∧
        st.lastLeftClickY
          = (handleEvent ctx s0 (Event.mouseButtonDown MouseButton.left x1 y1 t1)).lastLeftClickY)
    (hmenu : st.showContextMenu = false)
    (ht1 : t1 ≤ t2) (ht : t2 - t1 ≤ 500)
    (hd : (x2 - x1) * (x2 - x1) + (y2 - y1) * (y2 - y1) ≤ 25) :
    (handleEvent ctx st (Event.mouseButtonDown MouseButton.left x2 y2 t2)).offsetX
        = st.baseOffsetX ∧
    (handleEvent ctx st (Event.mouseButtonDown MouseButton.left x2 y2 t2)).offsetY
        = st.baseOffsetY ∧
    (handleEvent ctx st (Event.mouseButtonDown MouseButton.left x2 y2 t2)).scale
        = st.baseScale ∧
    (handleEvent ctx st (Event.mouseButtonDown MouseButton.left x2 y2 t2)).dragging
        = st.dragging ∧
    (handleEvent ctx st (Event.mouseButtonDown MouseButton.left x2 y2 t2)).dragStartX
        = st.dragStartX ∧
    (handleEvent ctx st (Event.mouseButtonDown MouseButton.left x2 y2 t2)).dragStartY
        = st.dragStartY := by
  obtain ⟨r1, r2, r3⟩ := handleEvent_left_records ctx s0 x1 y1 t1 hmenu0
  obtain ⟨hT, hX, hY⟩ := hrec
  rw [r1] at hT
  rw [r2] at hX
  rw [r3] at hY
  have hdc := isDoubleClick_of_near st x1 y1 x2 y2 t1 t2 hT hX hY ht1 ht hd
  simp only [handleEvent, hmenu, hdc]
  exact ⟨rfl, rfl, rfl, rfl, rfl, rfl⟩

/-- Witness for C5: presses at (100,100) and (102,101), 300 ms apart; between them the
pointer is dragged to (130,90) and the wheel is turned, so that before the second press
`offset = (30,-10)`, `scale = 1.1` and `dragging = true`. -/
theorem double_click_resets_witness :
    (handleEvents (exampleContext ℚ) (MainLoopState.initial ℚ)
        [Event.mouseButtonDown MouseButton.left 100 100 1000, Event.mouseMotion 130 90,
          Event.mouseWheel 1]).offsetX = 30 ∧
    (handleEvents (exampleContext ℚ) (MainLoopState.initial ℚ)
        [Event.mouseButtonDown MouseButton.left 100 100 1000, Event.mouseMotion 130 90,
          Event.mouseWheel 1]).scale = 11 / 10 ∧
    (handleEvents (exampleContext ℚ) (MainLoopState.initial ℚ)
        [Event.mouseButtonDown MouseButton.left 100 100 1000, Event.mouseMotion 130 90,
          Event.mouseWheel 1]).dragging = true ∧
    (handleEvents (exampleContext ℚ) (MainLoopState.initial ℚ)
        [Event.mouseButtonDown MouseButton.left 100 100 1000, Event.mouseMotion 130 90,
          Event.mouseWheel 1, Event.mouseButtonDown MouseButton.left 102 101 1300]).offsetX = 0 ∧
    (handleEvents (exampleContext ℚ) (MainLoopState.initial ℚ)
        [Event.mouseButtonDown MouseButton.left 100 100 1000, Event.mouseMotion 130 90,
          Event.mouseWheel 1, Event.mouseButtonDown MouseButton.left 102 101 1300]).offsetY = 0 ∧
    (handleEvents (exampleContext ℚ) (MainLoopState.initial ℚ)
        [Event.mouseButtonDown MouseButton.left 100 100 1000, Event.mouseMotion 130 90,
          Event.mouseWheel 1, Event.mouseButtonDown MouseButton.left 102 101 1300]).scale = 1 := by
  have h := double_click_resets (exampleContext ℚ) (MainLoopState.initial ℚ)
    (handleEvents (exampleContext ℚ) (MainLoopState.initial ℚ)
        [Event.mouseButtonDown MouseButton.left 100 100 1000, Event.mouseMotion 130 90,
          Event.mouseWheel 1])
    100 100 102 101 1000 1300 rfl ⟨rfl, rfl, rfl⟩ rfl (by decide) (by decide) (by decide)
  refine ⟨?_, ?_, ?_, h.1, h.2.1, h.2.2.1⟩
  · norm_num [handleEvents, handleEvent, isDoubleClick, MainLoopState.initial,
      DOUBLE_CLICK_THRESHOLD_MS, DOUBLE_CLICK_THRESHOLD_PX]
  · norm_num [handleEvents, handleEvent, isDoubleClick, MainLoopState.initial,
      DOUBLE_CLICK_THRESHOLD_MS, DOUBLE_CLICK_THRESHOLD_PX, clamp]
  · norm_num [handleEvents, handleEvent, isDoubleClick, MainLoopState.initial,
      DOUBLE_CLICK_THRESHOLD_MS, DOUBLE_CLICK_THRESHOLD_PX]

/-- After a left press with the menu closed, whether it was a double click or not, the
click timer holds the time of that press: the assignment `lastLeftClickTime = 0` of the
double-click branch is overwritten by `lastLeftClickTime = currentTime`.  Hence a
further press within 500 ms and 5 pixels passes the double-click test again. -/
theorem third_press_isDoubleClick {F : Type} [LinearOrderedField F] (ctx : AppContext F)
    (s : MainLoopState F) (x2 y2 x3 y3 : Int) (t2 t3 : Nat)
    (hmenu : s.showContextMenu = false)
    (ht1 : t2 ≤ t3) (ht : t3 - t2 ≤ 500)
    (hd : (x3 - x2) * (x3 - x2) + (y3 - y2) * (y3 - y2) ≤ 25) :
    isDoubleClick (handleEvent ctx s (Event.mouseButtonDown MouseButton.left x2 y2 t2))
      x3 y3 (t3 % 2 ^ 32) = true := by
  obtain ⟨r1, r2, r3⟩ := handleEvent_left_records ctx s x2 y2 t2 hmenu
  exact isDoubleClick_of_near _ x2 y2 x3 y3 t2 t3 r1 r2 r3 ht1 ht hd

/-- Claim C6, the code at the failing input. Presses at (100,100) at 1000 ms and at
(102,101) at 1300 ms: the second one is a double click, after which
`lastLeftClickTime` is 1300, not 0.  The wheel then changes `scale` to 1.1, and a third
press at (102,101) at 1500 ms passes the double-click test and resets `scale` to 1
once more. -/
theorem third_click_resets_again :
    isDoubleClick
      (handleEvents (exampleContext ℚ) (MainLoopState.initial ℚ)
        [Event.mouseButtonDown MouseButton.left 100 100 1000,
          Event.mouseButtonUp MouseButton.left]) 102 101 1300 = true ∧
    (handleEvents (exampleContext ℚ) (MainLoopState.initial ℚ)
        [Event.mouseButtonDown MouseButton.left 100 100 1000,
          Event.mouseButtonUp MouseButton.left,
          Event.mouseButtonDown MouseButton.left 102 101 1300,
          Event.mouseButtonUp MouseButton.left]).lastLeftClickTime = 1300 ∧
    (handleEvents (exampleContext ℚ) (MainLoopState.initial ℚ)
        [Event.mouseButtonDown MouseButton.left 100 100 1000,
          Event.mouseButtonUp MouseButton.left,
          Event.mouseButtonDown MouseButton.left 102 101 1300,
          Event.mouseButtonUp MouseButton.left,
          Event.mouseWheel 1]).scale = 11 / 10 ∧
    isDoubleClick
      (handleEvents (exampleContext ℚ) (MainLoopState.initial ℚ)
        [Event.mouseButtonDown MouseButton.left 100 100 1000,
          Event.mouseButtonUp MouseButton.left,
          Event.mouseButtonDown MouseButton.left 102 101 1300,
          Event.mouseButtonUp MouseButton.left,
          Event.mouseWheel 1]) 102 101 1500 = true ∧
    (handleEvents (exampleContext ℚ) (MainLoopState.initial ℚ)
        [Event.mouseButtonDown MouseButton.left 100 100 1000,
          Event.mouseButtonUp MouseButton.left,
          Event.mouseButtonDown MouseButton.left 102 101 1300,
          Event.mouseButtonUp MouseButton.left,
          Event.mouseWheel 1,
          Event.mouseButtonDown MouseButton.left 102 101 1500]).scale = 1 := by
  refine ⟨?_, ?_, ?_, ?_, ?_⟩ <;>
    norm_num [handleEvents, handleEvent, isDoubleClick, MainLoopState.initial,
      DOUBLE_CLICK_THRESHOLD_MS, DOUBLE_CLICK_THRESHOLD_PX, clamp]

/-! ### Speech detection -/

theorem sumSquares_succ {F : Type} [LinearOrderedField F] (micGain : F) (buffer : List F)
    (n : Nat) :
    sumSquares micGain buffer (n + 1)
      = sumSquares micGain buffer n
        + (buffer.getD n 0 * 2 * (1 + micGain)) * (buffer.getD n 0 * 2 * (1 + micGain)) := by
  simp only [sumSquares, List.range_succ, List.foldl_append, List.foldl_cons, List.foldl_nil]

theorem sumSquares_zero_buffer {F : Type} [LinearOrderedField F] (micGain : F)
    (buffer : List F) (hzero : ∀ x ∈ buffer, x = 0) (n : Nat) :
    sumSquares micGain buffer n = 0 := by
  induction n with
  | zero => rfl
  | succ n ih =>
    have hget : buffer.getD n 0 = 0 := by
      rw [List.getD_eq_getElem?_getD]
      cases h : buffer[n]? with
      | none => rfl
      | some x => exact hzero x (List.getElem?_mem h)
    rw [sumSquares_succ, ih, hget]
    ring

/-- Claim C7. For every `micThreshold ≥ 0` (and every `micGain`) and every chunk whose
samples are all zero, `updateAudioState` sets `speak = false`. -/
theorem silence_not_speaking (cfg : AppConfig ℝ) (s : MainLoopState ℝ) (poll : AudioPoll ℝ)
    (hthr : 0 ≤ cfg.micThreshold) (hzero : ∀ x ∈ poll.buffer, x = 0) :
    (updateAudioState Real.sqrt cfg (some poll) s).speak = false := by
  unfold updateAudioState
  simp only
  split_ifs with h1 h2 h3
  · rfl
  · rfl
  · rfl
  · simp only [sumSquares_zero_buffer cfg.micGain poll.buffer hzero, zero_div, Real.sqrt_zero,
      gt_iff_lt, decide_eq_false_iff_not, not_lt]
    exact hthr

/-- Witness for C7: three zero samples (12 bytes), default gain and threshold. -/
theorem silence_not_speaking_witness :
    (updateAudioState Real.sqrt (AppConfig.default ℝ)
      (some { avail := 12, got := 12, buffer := [0, 0, 0] })
      (MainLoopState.initial ℝ)).speak = false :=
  silence_not_speaking (AppConfig.default ℝ) (MainLoopState.initial ℝ)
    { avail := 12, got := 12, buffer := [0, 0, 0] }
    (by norm_num [AppConfig.default]) (by simp)

/-- Claim C9. In a tick without audio data (no stream, `avail ≤ 0`, or `got ≤ 0`)
`updateAudioState` returns the state in which `speak` is `false` and `prevSpeak` holds
the old value of `speak`, whatever `speak` was; nothing else changes and the call
cannot fail. -/
theorem no_audio_means_silence {F : Type} [LinearOrderedField F] (sqrt : F → F)
    (cfg : AppConfig F) (s : MainLoopState F) (stream : Option (AudioPoll F))
    (hnone : stream = none ∨ ∃ poll, stream = some poll ∧ (poll.avail ≤ 0 ∨ poll.got ≤ 0)) :
    (updateAudioState sqrt cfg stream s).speak = false ∧
    (updateAudioState sqrt cfg stream s).prevSpeak = s.speak ∧
    updateAudioState sqrt cfg stream s = { s with prevSpeak := s.speak, speak := false } := by
  have key : updateAudioState sqrt cfg stream s
      = { s with prevSpeak := s.speak, speak := false } := by
    rcases hnone with rfl | ⟨poll, rfl, h | h⟩
    · rfl
    · simp only [updateAudioState, h, if_true]
    · unfold updateAudioState
      simp only [h, if_true]
      split_ifs <;> rfl
  rw [key]
  exact ⟨rfl, rfl, rfl⟩

/-- Witness for C9: the stream reports no available bytes while `speak` is `true`. -/
theorem no_audio_means_silence_witness :
    (updateAudioState (fun x : ℚ => x) (AppConfig.default ℚ)
      (some { avail := 0, got := 0, buffer := [] })
      { MainLoopState.initial ℚ with speak := true }).speak = false ∧
    (updateAudioState (fun x : ℚ => x) (AppConfig.default ℚ)
      (some { avail := 0, got := 0, buffer := [] })
      { MainLoopState.initial ℚ with speak := true }).prevSpeak = true :=
  ⟨(no_audio_means_silence (fun x : ℚ => x) (AppConfig.default ℚ)
      { MainLoopState.initial ℚ with speak := true }
      (some { avail := 0, got := 0, buffer := [] })
      (Or.inr ⟨_, rfl, Or.inl (by decide)⟩)).1,
   (no_audio_means_silence (fun x : ℚ => x) (AppConfig.default ℚ)
      { MainLoopState.initial ℚ with speak := true }
      (some { avail := 0, got := 0, buffer := [] })
      (Or.inr ⟨_, rfl, Or.inl (by decide)⟩)).2.1⟩

/-! ### Breathing -/

/-- Claim C10. With `enableBreathing = false`, for every prior state (every `dt`, `speak`
and `prevSpeak`), `updateBreathing` sets `isBreathing = false` and `breathScale = 1.0`
and leaves `breathPhase` (and every other field) unchanged. -/
theorem breathing_disabled {F : Type} [LinearOrderedField F] (sin : F → F)
    (cfg : AppConfig F) (s : MainLoopState F) (hoff : cfg.enableBreathing = false) :
    (updateBreathing sin cfg s).isBreathing = false ∧
    (updateBreathing sin cfg s).breathScale = 1 ∧
    (updateBreathing sin cfg s).breathPhase = s.breathPhase ∧
    updateBreathing sin cfg s = { s with isBreathing := false, breathScale := 1 } := by
  have key : updateBreathing sin cfg s = { s with isBreathing := false, breathScale := 1 } := by
    simp only [updateBreathing, hoff, Bool.not_false, if_true]
    norm_num
  rw [key]
  exact ⟨rfl, rfl, rfl, rfl⟩

/-- Witness for C10: breathing switched off while the state is speaking, breathing
and has `breathPhase = 2`, `dt = 1/60`. -/
theorem breathing_disabled_witness :
    (updateBreathing (fun x : ℚ => x) { AppConfig.default ℚ with enableBreathing := false }
      { MainLoopState.initial ℚ with
        speak := true, isBreathing := true, breathPhase := 2, breathScale := 1.02,
        dt := 1 / 60 }).isBreathing = false ∧
    (updateBreathing (fun x : ℚ => x) { AppConfig.default ℚ with enableBreathing := false }
      { MainLoopState.initial ℚ with
        speak := true, isBreathing := true, breathPhase := 2, breathScale := 1.02,
        dt := 1 / 60 }).breathScale = 1 ∧
    (updateBreathing (fun x : ℚ => x) { AppConfig.default ℚ with enableBreathing := false }
      { MainLoopState.initial ℚ with
        speak := true, isBreathing := true, breathPhase := 2, breathScale := 1.02,
        dt := 1 / 60 }).breathPhase = 2 :=
  ⟨(breathing_disabled (fun x : ℚ => x) { AppConfig.default ℚ with enableBreathing := false }
      { MainLoopState.initial ℚ with
        speak := true, isBreathing := true, breathPhase := 2, breathScale := 1.02,
        dt := 1 / 60 } rfl).1,
   (breathing_disabled (fun x : ℚ => x) { AppConfig.default ℚ with enableBreathing := false }
      { MainLoopState.initial ℚ with
        speak := true, isBreathing := true, breathPhase := 2, breathScale := 1.02,
        dt := 1 / 60 } rfl).2.1,
   (breathing_disabled (fun x : ℚ => x) { AppConfig.default ℚ with enableBreathing := false }
      { MainLoopState.initial ℚ with
        speak := true, isBreathing := true, breathPhase := 2, breathScale := 1.02,
        dt := 1 / 60 } rfl).2.2.1⟩

/-- The constant `PI` of the source is the decimal `3.141592653589793`: it lies below
the number `π` and differs from it by less than `4 / 10 ^ 16`. -/
theorem PI_approximates_pi : PI ℝ < Real.pi ∧ Real.pi - PI ℝ < 4 / 10 ^ 16 := by
  have h1 := Real.pi_gt_d20
  have h2 := Real.pi_lt_d20
  unfold PI
  constructor
  · norm_num at h1 ⊢
    linarith
  · norm_num at h2 ⊢
    linarith

theorem BREATH_EXHALE_SPEED_eq {F : Type} [LinearOrderedField F] :
    BREATH_EXHALE_SPEED F = 2 * PI F / 3 := by
  unfold BREATH_EXHALE_SPEED
  norm_num

theorem BREATH_IDLE_SPEED_eq {F : Type} [LinearOrderedField F] :
    BREATH_IDLE_SPEED F = 2 * PI F / 6 := by
  unfold BREATH_IDLE_SPEED
  norm_num

/-- Claim C17. With breathing enabled, one call of `updateBreathing` changes
`breathPhase` as follows, `PI` being the constant of the source: if `speak`, it
increases by `dt * (2 * PI / 3)`; else if `prevSpeak`, it is unchanged; else it
decreases by `dt * (2 * PI / 6)`, whatever `isBreathing` was before the call (the
procedure has set `isBreathing` to `true` before it tests it).  No reduction modulo
`2 * PI` takes place. -/
theorem updateBreathing_phase {F : Type} [LinearOrderedField F] (sin : F → F)
    (cfg : AppConfig F) (s : MainLoopState F) (hon : cfg.enableBreathing = true) :
    (s.speak = true →
      (updateBreathing sin cfg s).breathPhase = s.breathPhase + s.dt * (2 * PI F / 3)) ∧
    (s.speak = false → s.prevSpeak = true →
      (updateBreathing sin cfg s).breathPhase = s.breathPhase) ∧
    (s.speak = false → s.prevSpeak = false →
      (updateBreathing sin cfg s).breathPhase = s.breathPhase - s.dt * (2 * PI F / 6)) := by
  refine ⟨?_, ?_, ?_⟩
  · intro hs
    simp only [updateBreathing, hon, hs, Bool.not_true, if_true, BREATH_EXHALE_SPEED_eq]
    simp
  · intro hs hp
    simp only [updateBreathing, hon, hs, hp, Bool.not_true, Bool.not_false, Bool.and_self,
      if_true]
    simp
  · intro hs hp
    simp only [updateBreathing, hon, hs, hp, Bool.not_true, Bool.not_false, Bool.and_self,
      Bool.and_false, if_true, BREATH_IDLE_SPEED_eq]
    simp

/-- Witness for C17: three states with `breathPhase = 1` and `dt = 3`, one speaking,
one on the falling edge, one idle and not breathing before the call. -/
theorem updateBreathing_phase_witness :
    (updateBreathing (fun x : ℚ => x) (AppConfig.default ℚ)
      { MainLoopState.initial ℚ with speak := true, breathPhase := 1, dt := 3 }).breathPhase
        = 1 + 3 * (2 * PI ℚ / 3) ∧
    (updateBreathing (fun x : ℚ => x) (AppConfig.default ℚ)
      { MainLoopState.initial ℚ with prevSpeak := true, breathPhase := 1, dt := 3 }).breathPhase
        = 1 ∧
    (updateBreathing (fun x : ℚ => x) (AppConfig.default ℚ)
      { MainLoopState.initial ℚ with breathPhase := 1, dt := 3 }).breathPhase
        = 1 - 3 * (2 * PI ℚ / 6) :=
  ⟨(updateBreathing_phase (fun x : ℚ => x) (AppConfig.default ℚ)
      { MainLoopState.initial ℚ with speak := true, breathPhase := 1, dt := 3 } rfl).1 rfl,
   (updateBreathing_phase (fun x : ℚ => x) (AppConfig.default ℚ)
      { MainLoopState.initial ℚ with prevSpeak := true, breathPhase := 1, dt := 3 } rfl).2.1
      rfl rfl,
   (updateBreathing_phase (fun x : ℚ => x) (AppConfig.default ℚ)
      { MainLoopState.initial ℚ with breathPhase := 1, dt := 3 } rfl).2.2 rfl rfl⟩

/-- With breathing enabled `updateBreathing` leaves `isBreathing = true`. -/
theorem updateBreathing_isBreathing {F : Type} [LinearOrderedField F] (sin : F → F)
    (cfg : AppConfig F) (s : MainLoopState F) (hon : cfg.enableBreathing = true) :
    (updateBreathing sin cfg s).isBreathing = true := by
  simp only [updateBreathing, hon, Bool.not_true]
  cases s.speak <;> cases s.prevSpeak <;> simp

/-- With breathing enabled `breathScale` is computed from the updated `isBreathing`
and `breathPhase`. -/
theorem updateBreathing_breathScale {F : Type} [LinearOrderedField F] (sin : F → F)
    (cfg : AppConfig F) (s : MainLoopState F) (hon : cfg.enableBreathing = true) :
    (updateBreathing sin cfg s).breathScale
      = if (updateBreathing sin cfg s).isBreathing = true then
          1 + 0.03 * sin (updateBreathing sin cfg s).breathPhase
        else 1 := by
  simp only [updateBreathing, hon, Bool.not_true]
  cases s.speak <;> cases s.prevSpeak <;> norm_num

/-- Claim C18. After every call of `updateBreathing` with breathing enabled,
`breathScale = (isBreathing ? 1 + 0.03 * sin(breathPhase) : 1.0)` for the updated
`isBreathing` and `breathPhase`, and `0.97 ≤ breathScale ≤ 1.03` whatever the value of
`breathPhase` is. -/
theorem breathScale_formula_and_bounds (cfg : AppConfig ℝ) (s : MainLoopState ℝ)
    (hon : cfg.enableBreathing = true) :
    (updateBreathing Real.sin cfg s).breathScale
      = (if (updateBreathing Real.sin cfg s).isBreathing = true then
          1 + 0.03 * Real.sin (updateBreathing Real.sin cfg s).breathPhase
        else 1) ∧
    0.97 ≤ (updateBreathing Real.sin cfg s).breathScale ∧
    (updateBreathing Real.sin cfg s).breathScale ≤ 1.03 := by
  have hform := updateBreathing_breathScale Real.sin cfg s hon
  have hb := updateBreathing_isBreathing Real.sin cfg s hon
  refine ⟨hform, ?_, ?_⟩
  · rw [hform, if_pos hb]
    have := Real.neg_one_le_sin (updateBreathing Real.sin cfg s).breathPhase
    norm_num
    linarith
  · rw [hform, if_pos hb]
    have := Real.sin_le_one (updateBreathing Real.sin cfg s).breathPhase
    norm_num
    linarith

/-- Witness for C18: a speaking state whose phase is `10 ^ 9` radians. -/
theorem breathScale_formula_and_bounds_witness :
    0.97 ≤ (updateBreathing Real.sin (AppConfig.default ℝ)
      { MainLoopState.initial ℝ with
        speak := true, breathPhase := 1000000000, dt := 1 / 60 }).breathScale ∧
    (updateBreathing Real.sin (AppConfig.default ℝ)
      { MainLoopState.initial ℝ with
        speak := true, breathPhase := 1000000000, dt := 1 / 60 }).breathScale ≤ 1.03 :=
  (breathScale_formula_and_bounds (AppConfig.default ℝ)
      { MainLoopState.initial ℝ with speak := true, breathPhase := 1000000000, dt := 1 / 60 }
      rfl).2

/-! ### Blinking -/

/-- Claim C19. `updateBlinking` at the tick count `now` (a `Uint32`, differences taken
modulo `2 ^ 32`): if `blink` is false and `now - lastBlink ≥ 3000`, the blink starts
(`blink = true`, `blinkStart = lastBlink = now`) and is still on when the call returns;
if `blink` was already true, it is switched off exactly when `now - blinkStart ≥ 200`;
in every other case the state is returned as it was.  No field other than `blink`,
`blinkStart` and `lastBlink` is written, and the three new values depend on the old
state through these three fields only. -/
theorem updateBlinking_spec {F : Type} (ticks : Nat) (s : MainLoopState F) :
    updateBlinking ticks s
      = (if s.blink = false ∧ 3000 ≤ (ticks % 2 ^ 32 + 2 ^ 32 - s.lastBlink) % 2 ^ 32 then
          { s with blink := true, blinkStart := ticks % 2 ^ 32, lastBlink := ticks % 2 ^ 32 }
        else if s.blink = true ∧ 200 ≤ (ticks % 2 ^ 32 + 2 ^ 32 - s.blinkStart) % 2 ^ 32 then
          { s with blink := false }
        else s) ∧
    (updateBlinking ticks s).speak = s.speak ∧
    (updateBlinking ticks s).prevSpeak = s.prevSpeak ∧
    (updateBlinking ticks s).isBreathing = s.isBreathing ∧
    (updateBlinking ticks s).breathPhase = s.breathPhase ∧
    (updateBlinking ticks s).breathScale = s.breathScale ∧
    (∀ s2 : MainLoopState F,
      s2.blink = s.blink → s2.blinkStart = s.blinkStart → s2.lastBlink = s.lastBlink →
      (updateBlinking ticks s2).blink = (updateBlinking ticks s).blink ∧
      (updateBlinking ticks s2).blinkStart = (updateBlinking ticks s).blinkStart ∧
      (updateBlinking ticks s2).lastBlink = (updateBlinking ticks s).lastBlink) := by
  have hmod : (ticks % 2 ^ 32 + 2 ^ 32 - ticks % 2 ^ 32) % 2 ^ 32 = 0 := by omega
  have key : ∀ t : MainLoopState F, updateBlinking ticks t
      = (if t.blink = false ∧ 3000 ≤ (ticks % 2 ^ 32 + 2 ^ 32 - t.lastBlink) % 2 ^ 32 then
          { t with blink := true, blinkStart := ticks % 2 ^ 32, lastBlink := ticks % 2 ^ 32 }
        else if t.blink = true ∧ 200 ≤ (ticks % 2 ^ 32 + 2 ^ 32 - t.blinkStart) % 2 ^ 32 then
          { t with blink := false }
        else t) := by
    intro t
    unfold updateBlinking
    generalize (2 : Nat) ^ 32 = M at hmod ⊢
    cases hb : t.blink
    · by_cases h1 : 3000 ≤ (ticks % M + M - t.lastBlink) % M
      · simp [h1, hmod]
      · simp [h1, hb]
    · by_cases h2 : 200 ≤ (ticks % M + M - t.blinkStart) % M
      · simp [h2, hb]
      · simp [h2, hb]
  refine ⟨key s, ?_, ?_, ?_, ?_, ?_, ?_⟩
  · rw [key s]; split_ifs <;> rfl
  · rw [key s]; split_ifs <;> rfl
  · rw [key s]; split_ifs <;> rfl
  · rw [key s]; split_ifs <;> rfl
  · rw [key s]; split_ifs <;> rfl
  · intro s2 hb hbs hlb
    rw [key s, key s2, hb, hbs, hlb]
    split_ifs <;> exact ⟨by first | rfl | assumption, by first | rfl | assumption,
      by first | rfl | assumption⟩

/-- Witness for C19: a blink starts at 5000 ms (last blink at 2000 ms) and stays on;
it is still on at 5199 ms and off at 5200 ms. -/
theorem updateBlinking_spec_witness :
    (updateBlinking 5000 { MainLoopState.initial ℚ with lastBlink := 2000 }).blink = true ∧
    (updateBlinking 5000 { MainLoopState.initial ℚ with lastBlink := 2000 }).blinkStart = 5000 ∧
    (updateBlinking 5000 { MainLoopState.initial ℚ with lastBlink := 2000 }).lastBlink = 5000 ∧
    (updateBlinking 4999 { MainLoopState.initial ℚ with lastBlink := 2000 }).blink = false ∧
    (updateBlinking 5199 { MainLoopState.initial ℚ with
      blink := true, blinkStart := 5000, lastBlink := 5000 }).blink = true ∧
    (updateBlinking 5200 { MainLoopState.initial ℚ with
      blink := true, blinkStart := 5000, lastBlink := 5000 }).blink = false ∧
    (updateBlinking 5000 { MainLoopState.initial ℚ with lastBlink := 2000, speak := true }).blink
      = (updateBlinking 5000 { MainLoopState.initial ℚ with lastBlink := 2000 }).blink := by
  refine ⟨?_, ?_, ?_, ?_, ?_, ?_,
    ((updateBlinking_spec 5000 { MainLoopState.initial ℚ with lastBlink := 2000 }).2.2.2.2.2.2
      { MainLoopState.initial ℚ with lastBlink := 2000, speak := true } rfl rfl rfl).1⟩
  · rw [(updateBlinking_spec 5000 _).1]; decide
  · rw [(updateBlinking_spec 5000 _).1]; decide
  · rw [(updateBlinking_spec 5000 _).1]; decide
  · rw [(updateBlinking_spec 4999 _).1]; decide
  · rw [(updateBlinking_spec 5199 _).1]; decide
  · rw [(updateBlinking_spec 5200 _).1]; decide

/-! ### Render decision -/

/-- Claim C16. `maybeRender` calls `renderFrame` if and only if
`speak || isBreathing || blink || (frameIndex != prevFrameIndex)`; when it does, it
passes the current frame index and stores it in `prevFrameIndex`; when it does not,
the state (`prevFrameIndex` included) is left as it was.  A render is skipped exactly
when `speak`, `isBreathing` and `blink` are all false and the frame index equals
`prevFrameIndex`. -/
theorem maybeRender_spec {F : Type} (s : MainLoopState F) :
    ((maybeRender s).2.isSome = true ↔
      (s.speak = true ∨ s.isBreathing = true ∨ s.blink = true
        ∨ frameIndex s ≠ s.prevFrameIndex)) ∧
    maybeRender s
      = (if s.speak = true ∨ s.isBreathing = true ∨ s.blink = true
            ∨ frameIndex s ≠ s.prevFrameIndex then
          ({ s with prevFrameIndex := frameIndex s }, some (frameIndex s))
        else (s, none)) ∧
    ((maybeRender s).2 = none ↔
      (s.speak = false ∧ s.isBreathing = false ∧ s.blink = false
        ∧ frameIndex s = s.prevFrameIndex)) := by
  have hneeds : needsRender s = true ↔
      (s.speak = true ∨ s.isBreathing = true ∨ s.blink = true
        ∨ frameIndex s ≠ s.prevFrameIndex) := by
    unfold needsRender
    simp only [Bool.or_eq_true, decide_eq_true_eq, or_assoc]
    constructor
    · rintro (h | h | h | h)
      · exact Or.inl h
      · exact Or.inr (Or.inl h)
      · exact Or.inr (Or.inr (Or.inl h))
      · exact Or.inr (Or.inr (Or.inr (fun e => h e.symm)))
    · rintro (h | h | h | h)
      · exact Or.inl h
      · exact Or.inr (Or.inl h)
      · exact Or.inr (Or.inr (Or.inl h))
      · exact Or.inr (Or.inr (Or.inr (fun e => h e.symm)))
  by_cases hn : needsRender s = true
  · have hc := hneeds.mp hn
    have hm : maybeRender s
        = ({ s with prevFrameIndex := frameIndex s }, some (frameIndex s)) := by
      simp [maybeRender, hn]
    refine ⟨?_, ?_, ?_⟩
    · rw [hm]
      exact ⟨fun _ => hc, fun _ => rfl⟩
    · rw [hm, if_pos hc]
    · rw [hm]
      constructor
      · intro h
        cases h
      · rintro ⟨h1, h2, h3, h4⟩
        rcases hc with h | h | h | h
        · rw [h1] at h; cases h
        · rw [h2] at h; cases h
        · rw [h3] at h; cases h
        · exact absurd h4 h
  · have hc : ¬ (s.speak = true ∨ s.isBreathing = true ∨ s.blink = true
        ∨ frameIndex s ≠ s.prevFrameIndex) := fun h => hn (hneeds.mpr h)
    have hm : maybeRender s = (s, none) := by
      simp [maybeRender, hn]
    refine ⟨?_, ?_, ?_⟩
    · rw [hm]
      constructor
      · intro h
        cases h
      · intro h
        exact absurd h hc
    · rw [hm, if_neg hc]
    · rw [hm]
      refine ⟨fun _ => ?_, fun _ => rfl⟩
      push_neg at hc
      obtain ⟨h1, h2, h3, h4⟩ := hc
      exact ⟨by simpa using h1, by simpa using h2, by simpa using h3, h4⟩

/-- An idle state whose pose was rendered last is skipped, and the same state with a
stale `prevFrameIndex` is rendered once. -/
theorem maybeRender_example :
    (maybeRender { MainLoopState.initial ℚ with prevFrameIndex := 0 }).2 = none ∧
    (maybeRender (MainLoopState.initial ℚ)).2 = some 0 ∧
    (maybeRender (MainLoopState.initial ℚ)).1.prevFrameIndex = 0 ∧
    (maybeRender { MainLoopState.initial ℚ with prevFrameIndex := 0, blink := true }).2
      = some 2 := by
  refine ⟨?_, ?_, ?_, ?_⟩ <;> rfl

/-! ### Sprite alignment -/

/-- On a surface in the format `RGBA8888` the value `alpha` tested by the scan is the
red channel of the pixel, for every pixel word. -/
theorem alignerAlpha_eq_red (pixel : Nat) :
    alignerAlpha pixel = (RGBA8888.getRGBA pixel).r.val := by
  have h : (pixel >>> 24) &&& 0xFF < 256 := Nat.lt_succ_of_le Nat.and_le_right
  simp only [alignerAlpha, RGBA8888, Fin.ofNat, Fin.val_mk]
  exact (Nat.mod_eq_of_lt h).symm

theorem pixelSteps_two : pixelSteps 0 2 0 2 = [(0, 0), (1, 0), (0, 1), (1, 1)] := by decide

theorem scanQuadrant_fourPixelSurface :
    scanQuadrant fourPixelSurface 0 0 = ⟨1, -1, 1, -1⟩ ∧
    scanQuadrant fourPixelSurface 1 0 = ⟨0, 0, 0, 0⟩ ∧
    scanQuadrant fourPixelSurface 0 1 = ⟨1, -1, 1, -1⟩ ∧
    scanQuadrant fourPixelSurface 1 1 = ⟨1, -1, 1, -1⟩ := by decide

/-- Claim C20, the code at the failing input.  In the format `RGBA8888` (red in bits
31..24, alpha in bits 7..0) the opaque black pixel `0x000000FF` has alpha 255 and is
not included by the scan, the fully transparent red pixel `0xFF000000` has alpha 0 and
is included.  For the 2 x 2 image `fourPixelSurface`, whose quadrants 0 and 1 are these
two pixels, the aligner leaves the offset of quadrant 0 at 0 and stores
the offset 1/2 for quadrant 1. -/
theorem aligner_tests_red_not_alpha :
    (RGBA8888.getRGBA 0x000000FF).a = 255 ∧ alignerAlpha 0x000000FF = 0 ∧
    (RGBA8888.getRGBA 0xFF000000).a = 0 ∧ alignerAlpha 0xFF000000 = 255 ∧
    scanIncludes fourPixelSurface 0 0 0 0 = false ∧
    scanIncludes fourPixelSurface 1 0 0 0 = true ∧
    (loadSprite SpriteAlignment.Centered fourPixelSurface
      (some fourPixelSurface) : SpriteList ℚ).baseOffsetX 0 = 0 ∧
    (loadSprite SpriteAlignment.Centered fourPixelSurface
      (some fourPixelSurface) : SpriteList ℚ).baseOffsetX 1 = 1 / 2 := by
  obtain ⟨q0, q1, q2, q3⟩ := scanQuadrant_fourPixelSurface
  have e1 : Int.tdiv fourPixelSurface.w 2 = 1 := by decide
  refine ⟨by decide, by decide, by decide, by decide, by decide, by decide, ?_, ?_⟩
  · simp only [loadSprite, alignedSurface, pixelSteps_two, List.foldl_cons, List.foldl_nil,
      alignQuadrant, q0, q1, q2, q3, e1]
    norm_num [Function.update]
  · simp only [loadSprite, alignedSurface, pixelSteps_two, List.foldl_cons, List.foldl_nil,
      alignQuadrant, q0, q1, q2, q3, e1]
    norm_num [Function.update]

theorem scanStep_included (surf : Surface) (fx fy : Int) (bb : BBox) (p : Int × Int)
    (h : scanIncludes surf fx fy p.1 p.2 = true) :
    (scanStep surf fx fy bb p).min_x = min bb.min_x p.1 ∧
    (scanStep surf fx fy bb p).max_x = max bb.max_x p.1 ∧
    (scanStep surf fx fy bb p).min_y = min bb.min_y p.2 ∧
    (scanStep surf fx fy bb p).max_y = max bb.max_y p.2 := by
  simp only [scanStep, h, if_true]
  refine ⟨?_, ?_, ?_, ?_⟩ <;> split_ifs <;> omega

theorem scanStep_excluded (surf : Surface) (fx fy : Int) (bb : BBox) (p : Int × Int)
    (h : scanIncludes surf fx fy p.1 p.2 = false) :
    scanStep surf fx fy bb p = bb := by
  simp [scanStep, h]

/-- The box computed by the scan loops over a list of positions: it contains every
included position, each of its four bounds is the initial bound or is attained at an
included position, and it is the initial box when no position is included. -/
theorem scan_foldl (surf : Surface) (fx fy : Int) (l : List (Int × Int)) (bb : BBox) :
    ((l.foldl (scanStep surf fx fy) bb).min_x ≤ bb.min_x ∧
      bb.max_x ≤ (l.foldl (scanStep surf fx fy) bb).max_x ∧
      (l.foldl (scanStep surf fx fy) bb).min_y ≤ bb.min_y ∧
      bb.max_y ≤ (l.foldl (scanStep surf fx fy) bb).max_y) ∧
    (∀ p ∈ l, scanIncludes surf fx fy p.1 p.2 = true →
      (l.foldl (scanStep surf fx fy) bb).min_x ≤ p.1 ∧
      p.1 ≤ (l.foldl (scanStep surf fx fy) bb).max_x ∧
      (l.foldl (scanStep surf fx fy) bb).min_y ≤ p.2 ∧
      p.2 ≤ (l.foldl (scanStep surf fx fy) bb).max_y) ∧
    ((l.foldl (scanStep surf fx fy) bb).min_x = bb.min_x ∨
      ∃ p ∈ l, scanIncludes surf fx fy p.1 p.2 = true ∧
        p.1 = (l.foldl (scanStep surf fx fy) bb).min_x) ∧
    ((l.foldl (scanStep surf fx fy) bb).max_x = bb.max_x ∨
      ∃ p ∈ l, scanIncludes surf fx fy p.1 p.2 = true ∧
        p.1 = (l.foldl (scanStep surf fx fy) bb).max_x) ∧
    ((l.foldl (scanStep surf fx fy) bb).min_y = bb.min_y ∨
      ∃ p ∈ l, scanIncludes surf fx fy p.1 p.2 = true ∧
        p.2 = (l.foldl (scanStep surf fx fy) bb).min_y) ∧
    ((l.foldl (scanStep surf fx fy) bb).max_y = bb.max_y ∨
      ∃ p ∈ l, scanIncludes surf fx fy p.1 p.2 = true ∧
        p.2 = (l.foldl (scanStep surf fx fy) bb).max_y) ∧
    ((∀ p ∈ l, scanIncludes surf fx fy p.1 p.2 = false) →
      l.foldl (scanStep surf fx fy) bb = bb) := by
  induction l generalizing bb with
  | nil =>
    refine ⟨⟨le_refl _, le_refl _, le_refl _, le_refl _⟩, ?_, Or.inl rfl, Or.inl rfl,
      Or.inl rfl, Or.inl rfl, fun _ => rfl⟩
    intro p hp
    cases hp
  | cons q rest ih =>
    obtain ⟨hmono, hcont, hminx, hmaxx, hminy, hmaxy, hnone⟩ :=
      ih (scanStep surf fx fy bb q)
    simp only [List.foldl_cons]
    cases hq : scanIncludes surf fx fy q.1 q.2 with
    | false =>
      rw [scanStep_excluded surf fx fy bb q hq] at hmono hcont hminx hmaxx hminy hmaxy hnone ⊢
      refine ⟨hmono, ?_, ?_, ?_, ?_, ?_, ?_⟩
      · intro p hp hinc
        rcases List.mem_cons.mp hp with rfl | hp
        · rw [hq] at hinc; cases hinc
        · exact hcont p hp hinc
      · rcases hminx with h | ⟨p, hp, hinc, he⟩
        · exact Or.inl h
        · exact Or.inr ⟨p, List.mem_cons_of_mem q hp, hinc, he⟩
      · rcases hmaxx with h | ⟨p, hp, hinc, he⟩
        · exact Or.inl h
        · exact Or.inr ⟨p, List.mem_cons_of_mem q hp, hinc, he⟩
      · rcases hminy with h | ⟨p, hp, hinc, he⟩
        · exact Or.inl h
        · exact Or.inr ⟨p, List.mem_cons_of_mem q hp, hinc, he⟩
      · rcases hmaxy with h | ⟨p, hp, hinc, he⟩
        · exact Or.inl h
        · exact Or.inr ⟨p, List.mem_cons_of_mem q hp, hinc, he⟩
      · intro hall
        exact hnone (fun p hp => hall p (List.mem_cons_of_mem q hp))
    | true =>
      obtain ⟨s1, s2, s3, s4⟩ := scanStep_included surf fx fy bb q hq
      obtain ⟨m1, m2, m3, m4⟩ := hmono
      refine ⟨⟨by omega, by omega, by omega, by omega⟩, ?_, ?_, ?_, ?_, ?_, ?_⟩
      · intro p hp hinc
        rcases List.mem_cons.mp hp with rfl | hp
        · exact ⟨by omega, by omega, by omega, by omega⟩
        · exact hcont p hp hinc
      · rcases hminx with h | ⟨p, hp, hinc, he⟩
        · by_cases hlt : q.1 < bb.min_x
          · exact Or.inr ⟨q, List.mem_cons_self q rest, hq, by omega⟩
          · exact Or.inl (by omega)
        · exact Or.inr ⟨p, List.mem_cons_of_mem q hp, hinc, he⟩
      · rcases hmaxx with h | ⟨p, hp, hinc, he⟩
        · by_cases hlt : bb.max_x < q.1
          · exact Or.inr ⟨q, List.mem_cons_self q rest, hq, by omega⟩
          · exact Or.inl (by omega)
        · exact Or.inr ⟨p, List.mem_cons_of_mem q hp, hinc, he⟩
      · rcases hminy with h | ⟨p, hp, hinc, he⟩
        · by_cases hlt : q.2 < bb.min_y
          · exact Or.inr ⟨q, List.mem_cons_self q rest, hq, by omega⟩
          · exact Or.inl (by omega)
        · exact Or.inr ⟨p, List.mem_cons_of_mem q hp, hinc, he⟩
      · rcases hmaxy with h | ⟨p, hp, hinc, he⟩
        · by_cases hlt : bb.max_y < q.2
          · exact Or.inr ⟨q, List.mem_cons_self q rest, hq, by omega⟩
          · exact Or.inl (by omega)
        · exact Or.inr ⟨p, List.mem_cons_of_mem q hp, hinc, he⟩
      · intro hall
        have := hall q (List.mem_cons_self q rest)
        rw [hq] at this
        cases this

/-- The scan of a quadrant that contains an included position yields a non-empty box
whose bounds are the least and greatest coordinates of the included positions. -/
theorem scanQuadrant_nonempty (surf : Surface) (fx fy : Int)
    (hex : ∃ x y, (0 ≤ x ∧ x < Int.tdiv surf.w 2) ∧ (0 ≤ y ∧ y < Int.tdiv surf.h 2) ∧
      scanIncludes surf fx fy x y = true) :
    ((scanQuadrant surf fx fy).min_x ≤ (scanQuadrant surf fx fy).max_x ∧
      (scanQuadrant surf fx fy).min_y ≤ (scanQuadrant surf fx fy).max_y) ∧
    IsLeast {x | ∃ y, (0 ≤ x ∧ x < Int.tdiv surf.w 2) ∧ (0 ≤ y ∧ y < Int.tdiv surf.h 2) ∧
      scanIncludes surf fx fy x y = true} (scanQuadrant surf fx fy).min_x ∧
    IsGreatest {x | ∃ y, (0 ≤ x ∧ x < Int.tdiv surf.w 2) ∧ (0 ≤ y ∧ y < Int.tdiv surf.h 2) ∧
      scanIncludes surf fx fy x y = true} (scanQuadrant surf fx fy).max_x ∧
    IsLeast {y | ∃ x, (0 ≤ x ∧ x < Int.tdiv surf.w 2) ∧ (0 ≤ y ∧ y < Int.tdiv surf.h 2) ∧
      scanIncludes surf fx fy x y = true} (scanQuadrant surf fx fy).min_y ∧
    IsGreatest {y | ∃ x, (0 ≤ x ∧ x < Int.tdiv surf.w 2) ∧ (0 ≤ y ∧ y < Int.tdiv surf.h 2) ∧
      scanIncludes surf fx fy x y = true} (scanQuadrant surf fx fy).max_y := by
  obtain ⟨x0, y0, hx0, hy0, hinc0⟩ := hex
  obtain ⟨_, hcont, hminx, hmaxx, hminy, hmaxy, _⟩ :=
    scan_foldl surf fx fy (pixelSteps 0 (Int.tdiv surf.w 2) 0 (Int.tdiv surf.h 2))
      { min_x := Int.tdiv surf.w 2, max_x := -1, min_y := Int.tdiv surf.h 2, max_y := -1 }
  have hmem : ∀ x y, (0 ≤ x ∧ x < Int.tdiv surf.w 2) → (0 ≤ y ∧ y < Int.tdiv surf.h 2) →
      (x, y) ∈ pixelSteps 0 (Int.tdiv surf.w 2) 0 (Int.tdiv surf.h 2) :=
    fun x y hx hy => mem_pixelSteps.mpr ⟨hx, hy⟩
  have h0 := hcont (x0, y0) (hmem x0 y0 hx0 hy0) hinc0
  change (scanQuadrant surf fx fy).min_x ≤ x0 ∧ x0 ≤ (scanQuadrant surf fx fy).max_x ∧
    (scanQuadrant surf fx fy).min_y ≤ y0 ∧ y0 ≤ (scanQuadrant surf fx fy).max_y at h0
  refine ⟨⟨by omega, by omega⟩, ⟨?_, ?_⟩, ⟨?_, ?_⟩, ⟨?_, ?_⟩, ⟨?_, ?_⟩⟩
  · rcases hminx with h | ⟨p, hp, hinc, he⟩
    · change (scanQuadrant surf fx fy).min_x = Int.tdiv surf.w 2 at h
      omega
    · have hb := mem_pixelSteps.mp hp
      exact ⟨p.2, by rw [← show p.1 = (scanQuadrant surf fx fy).min_x from he]; exact hb.1,
        hb.2, by rw [← show p.1 = (scanQuadrant surf fx fy).min_x from he]; exact hinc⟩
  · rintro x ⟨y, hx, hy, hinc⟩
    exact (hcont (x, y) (hmem x y hx hy) hinc).1
  · rcases hmaxx with h | ⟨p, hp, hinc, he⟩
    · change (scanQuadrant surf fx fy).max_x = -1 at h
      omega
    · have hb := mem_pixelSteps.mp hp
      exact ⟨p.2, by rw [← show p.1 = (scanQuadrant surf fx fy).max_x from he]; exact hb.1,
        hb.2, by rw [← show p.1 = (scanQuadrant surf fx fy).max_x from he]; exact hinc⟩
  · rintro x ⟨y, hx, hy, hinc⟩
    exact (hcont (x, y) (hmem x y hx hy) hinc).2.1
  · rcases hminy with h | ⟨p, hp, hinc, he⟩
    · change (scanQuadrant surf fx fy).min_y = Int.tdiv surf.h 2 at h
      omega
    · have hb := mem_pixelSteps.mp hp
      exact ⟨p.1, hb.1, by rw [← show p.2 = (scanQuadrant surf fx fy).min_y from he]; exact hb.2,
        by rw [← show p.2 = (scanQuadrant surf fx fy).min_y from he]; exact hinc⟩
  · rintro y ⟨x, hx, hy, hinc⟩
    exact (hcont (x, y) (hmem x y hx hy) hinc).2.2.1
  · rcases hmaxy with h | ⟨p, hp, hinc, he⟩
    · change (scanQuadrant surf fx fy).max_y = -1 at h
      omega
    · have hb := mem_pixelSteps.mp hp
      exact ⟨p.1, hb.1, by rw [← show p.2 = (scanQuadrant surf fx fy).max_y from he]; exact hb.2,
        by rw [← show p.2 = (scanQuadrant surf fx fy).max_y from he]; exact hinc⟩
  · rintro y ⟨x, hx, hy, hinc⟩
    exact (hcont (x, y) (hmem x y hx hy) hinc).2.2.2

/-- The scan of a quadrant without included position yields the empty initial box. -/
theorem scanQuadrant_empty (surf : Surface) (fx fy : Int) (hw : 0 ≤ surf.w)
    (hex : ¬ ∃ x y, (0 ≤ x ∧ x < Int.tdiv surf.w 2) ∧ (0 ≤ y ∧ y < Int.tdiv surf.h 2) ∧
      scanIncludes surf fx fy x y = true) :
    ¬ ((scanQuadrant surf fx fy).min_x ≤ (scanQuadrant surf fx fy).max_x ∧
      (scanQuadrant surf fx fy).min_y ≤ (scanQuadrant surf fx fy).max_y) := by
  obtain ⟨_, _, _, _, _, _, hnone⟩ :=
    scan_foldl surf fx fy (pixelSteps 0 (Int.tdiv surf.w 2) 0 (Int.tdiv surf.h 2))
      { min_x := Int.tdiv surf.w 2, max_x := -1, min_y := Int.tdiv surf.h 2, max_y := -1 }
  have hall : ∀ p ∈ pixelSteps 0 (Int.tdiv surf.w 2) 0 (Int.tdiv surf.h 2),
      scanIncludes surf fx fy p.1 p.2 = false := by
    intro p hp
    have hb := mem_pixelSteps.mp hp
    cases h : scanIncludes surf fx fy p.1 p.2 with
    | false => rfl
    | true => exact absurd ⟨p.1, p.2, hb.1, hb.2, h⟩ hex
  have hbox : scanQuadrant surf fx fy
      = { min_x := Int.tdiv surf.w 2, max_x := -1, min_y := Int.tdiv surf.h 2, max_y := -1 } :=
    hnone hall
  rw [hbox]
  have hq : 0 ≤ Int.tdiv surf.w 2 := Int.tdiv_nonneg hw (by decide)
  intro h
  have := h.1
  simp only at this
  omega

theorem alignQuadrant_baseOffsetX {F : Type} [LinearOrderedField F] (surf : Surface)
    (s : SpriteList F) (q : Int × Int) (j : Int) :
    (alignQuadrant surf s q).baseOffsetX j
      = if ((scanQuadrant surf q.1 q.2).min_x ≤ (scanQuadrant surf q.1 q.2).max_x ∧
            (scanQuadrant surf q.1 q.2).min_y ≤ (scanQuadrant surf q.1 q.2).max_y)
            ∧ j = q.2 * 2 + q.1 then
          ((Int.tdiv surf.w 2 : Int) : F) * 0.5
            - (((scanQuadrant surf q.1 q.2).min_x + (scanQuadrant surf q.1 q.2).max_x : Int) : F)
              * 0.5
        else s.baseOffsetX j := by
  unfold alignQuadrant
  simp only
  by_cases hbox : (scanQuadrant surf q.1 q.2).min_x ≤ (scanQuadrant surf q.1 q.2).max_x ∧
      (scanQuadrant surf q.1 q.2).min_y ≤ (scanQuadrant surf q.1 q.2).max_y
  · rw [if_pos hbox]
    by_cases hj : j = q.2 * 2 + q.1
    · rw [if_pos ⟨hbox, hj⟩, hj]
      simp only [Function.update_same]
    · rw [if_neg (fun h => hj h.2)]
      simp only [Function.update_noteq hj]
  · rw [if_neg hbox, if_neg (fun h => hbox h.1)]

theorem alignQuadrant_baseOffsetY {F : Type} [LinearOrderedField F] (surf : Surface)
    (s : SpriteList F) (q : Int × Int) (j : Int) :
    (alignQuadrant surf s q).baseOffsetY j
      = if ((scanQuadrant surf q.1 q.2).min_x ≤ (scanQuadrant surf q.1 q.2).max_x ∧
            (scanQuadrant surf q.1 q.2).min_y ≤ (scanQuadrant surf q.1 q.2).max_y)
            ∧ j = q.2 * 2 + q.1 then
          ((Int.tdiv surf.h 2 : Int) : F) * 0.5
            - (((scanQuadrant surf q.1 q.2).min_y + (scanQuadrant surf q.1 q.2).max_y : Int) : F)
              * 0.5
        else s.baseOffsetY j := by
  unfold alignQuadrant
  simp only
  by_cases hbox : (scanQuadrant surf q.1 q.2).min_x ≤ (scanQuadrant surf q.1 q.2).max_x ∧
      (scanQuadrant surf q.1 q.2).min_y ≤ (scanQuadrant surf q.1 q.2).max_y
  · rw [if_pos hbox]
    by_cases hj : j = q.2 * 2 + q.1
    · rw [if_pos ⟨hbox, hj⟩, hj]
      simp only [Function.update_same]
    · rw [if_neg (fun h => hj h.2)]
      simp only [Function.update_noteq hj]
  · rw [if_neg hbox, if_neg (fun h => hbox h.1)]

/-- With centered alignment the offsets stored for quadrant `(fx, fy)` are determined
by the scan of that quadrant alone. -/
theorem loadSprite_centered_offsets {F : Type} [LinearOrderedField F]
    (surf : Surface) (rgbaSurf : Option Surface) (fx fy : Int)
    (hfx : fx = 0 ∨ fx = 1) (hfy : fy = 0 ∨ fy = 1) :
    (loadSprite SpriteAlignment.Centered surf rgbaSurf : SpriteList F).baseOffsetX (fy * 2 + fx)
      = (if (scanQuadrant (alignedSurface surf rgbaSurf) fx fy).min_x
              ≤ (scanQuadrant (alignedSurface surf rgbaSurf) fx fy).max_x ∧
            (scanQuadrant (alignedSurface surf rgbaSurf) fx fy).min_y
              ≤ (scanQuadrant (alignedSurface surf rgbaSurf) fx fy).max_y then
          ((Int.tdiv (alignedSurface surf rgbaSurf).w 2 : Int) : F) * 0.5
            - (((scanQuadrant (alignedSurface surf rgbaSurf) fx fy).min_x
                + (scanQuadrant (alignedSurface surf rgbaSurf) fx fy).max_x : Int) : F) * 0.5
        else 0) ∧
    (loadSprite SpriteAlignment.Centered surf rgbaSurf : SpriteList F).baseOffsetY (fy * 2 + fx)
      = (if (scanQuadrant (alignedSurface surf rgbaSurf) fx fy).min_x
              ≤ (scanQuadrant (alignedSurface surf rgbaSurf) fx fy).max_x ∧
            (scanQuadrant (alignedSurface surf rgbaSurf) fx fy).min_y
              ≤ (scanQuadrant (alignedSurface surf rgbaSurf) fx fy).max_y then
          ((Int.tdiv (alignedSurface surf rgbaSurf).h 2 : Int) : F) * 0.5
            - (((scanQuadrant (alignedSurface surf rgbaSurf) fx fy).min_y
                + (scanQuadrant (alignedSurface surf rgbaSurf) fx fy).max_y : Int) : F) * 0.5
        else 0) := by
  simp only [loadSprite, pixelSteps_two, List.foldl_cons, List.foldl_nil]
  generalize alignedSurface surf rgbaSurf = S
  rcases hfx with rfl | rfl <;> rcases hfy with rfl | rfl <;>
    simp [alignQuadrant_baseOffsetX, alignQuadrant_baseOffsetY]

/-- The offsets in terms of the test of the scan.  With centered alignment, for each
quadrant `idx = fy * 2 + fx` of the scanned bitmap, `quadW = w / 2` and `quadH = h / 2`:
if the quadrant contains a position included by the scan (`scanIncludes`, the test of
the source on the bits 31..24 of the pixel), the stored offset is
`(quadW / 2 - (minX + maxX) / 2, quadH / 2 - (minY + maxY) / 2)` for the least and
greatest quadrant-local coordinates `minX, maxX, minY, maxY` of included positions; if
it contains none, the offset stays `(0, 0)`.  With as-is alignment all offsets stay
`(0, 0)`. -/
theorem aligner_offsets_of_scan {F : Type} [LinearOrderedField F]
    (surf : Surface) (rgbaSurf : Option Surface) (fx fy : Int)
    (hw : 0 ≤ (alignedSurface surf rgbaSurf).w)
    (hfx : fx = 0 ∨ fx = 1) (hfy : fy = 0 ∨ fy = 1) :
    ((∃ x y, (0 ≤ x ∧ x < Int.tdiv (alignedSurface surf rgbaSurf).w 2) ∧
        (0 ≤ y ∧ y < Int.tdiv (alignedSurface surf rgbaSurf).h 2) ∧
        scanIncludes (alignedSurface surf rgbaSurf) fx fy x y = true) →
      ∃ minX maxX minY maxY : Int,
        IsLeast {x | ∃ y, (0 ≤ x ∧ x < Int.tdiv (alignedSurface surf rgbaSurf).w 2) ∧
          (0 ≤ y ∧ y < Int.tdiv (alignedSurface surf rgbaSurf).h 2) ∧
          scanIncludes (alignedSurface surf rgbaSurf) fx fy x y = true} minX ∧
        IsGreatest {x | ∃ y, (0 ≤ x ∧ x < Int.tdiv (alignedSurface surf rgbaSurf).w 2) ∧
          (0 ≤ y ∧ y < Int.tdiv (alignedSurface surf rgbaSurf).h 2) ∧
          scanIncludes (alignedSurface surf rgbaSurf) fx fy x y = true} maxX ∧
        IsLeast {y | ∃ x, (0 ≤ x ∧ x < Int.tdiv (alignedSurface surf rgbaSurf).w 2) ∧
          (0 ≤ y ∧ y < Int.tdiv (alignedSurface surf rgbaSurf).h 2) ∧
          scanIncludes (alignedSurface surf rgbaSurf) fx fy x y = true} minY ∧
        IsGreatest {y | ∃ x, (0 ≤ x ∧ x < Int.tdiv (alignedSurface surf rgbaSurf).w 2) ∧
          (0 ≤ y ∧ y < Int.tdiv (alignedSurface surf rgbaSurf).h 2) ∧
          scanIncludes (alignedSurface surf rgbaSurf) fx fy x y = true} maxY ∧
        (loadSprite SpriteAlignment.Centered surf rgbaSurf : SpriteList F).baseOffsetX
            (fy * 2 + fx)
          = ((Int.tdiv (alignedSurface surf rgbaSurf).w 2 : Int) : F) / 2
            - ((minX + maxX : Int) : F) / 2 ∧
        (loadSprite SpriteAlignment.Centered surf rgbaSurf : SpriteList F).baseOffsetY
            (fy * 2 + fx)
          = ((Int.tdiv (alignedSurface surf rgbaSurf).h 2 : Int) : F) / 2
            - ((minY + maxY : Int) : F) / 2) ∧
    ((¬ ∃ x y, (0 ≤ x ∧ x < Int.tdiv (alignedSurface surf rgbaSurf).w 2) ∧
        (0 ≤ y ∧ y < Int.tdiv (alignedSurface surf rgbaSurf).h 2) ∧
        scanIncludes (alignedSurface surf rgbaSurf) fx fy x y = true) →
      (loadSprite SpriteAlignment.Centered surf rgbaSurf : SpriteList F).baseOffsetX
          (fy * 2 + fx) = 0 ∧
      (loadSprite SpriteAlignment.Centered surf rgbaSurf : SpriteList F).baseOffsetY
          (fy * 2 + fx) = 0) ∧
    (∀ i : Int,
      (loadSprite SpriteAlignment.AsIs surf rgbaSurf : SpriteList F).baseOffsetX i = 0 ∧
      (loadSprite SpriteAlignment.AsIs surf rgbaSurf : SpriteList F).baseOffsetY i = 0) := by
  obtain ⟨hX, hY⟩ := loadSprite_centered_offsets (F := F) surf rgbaSurf fx fy hfx hfy
  refine ⟨?_, ?_, fun i => ⟨rfl, rfl⟩⟩
  · intro hex
    obtain ⟨hbox, h1, h2, h3, h4⟩ :=
      scanQuadrant_nonempty (alignedSurface surf rgbaSurf) fx fy hex
    refine ⟨_, _, _, _, h1, h2, h3, h4, ?_, ?_⟩
    · rw [hX, if_pos hbox]
      norm_num
      ring
    · rw [hY, if_pos hbox]
      norm_num
      ring
  · intro hex
    have hbox := scanQuadrant_empty (alignedSurface surf rgbaSurf) fx fy hw hex
    rw [hX, hY, if_neg hbox, if_neg hbox]
    exact ⟨rfl, rfl⟩

theorem scanQuadrant_twoDotSurface :
    scanQuadrant twoDotSurface 0 0 = ⟨4, -1, 2, -1⟩ ∧
    scanQuadrant twoDotSurface 1 0 = ⟨2, 3, 1, 1⟩ := by decide

/-- An evaluation: in `twoDotSurface` quadrant 1 contains the included positions
(2,1) and (3,1) and gets the offset `(4/2 - (2+3)/2, 2/2 - (1+1)/2) = (-1/2, 0)`;
quadrant 0 contains no included position and keeps the offset `(0, 0)`. -/
theorem aligner_offsets_of_scan_example :
    (∃ minX maxX minY maxY : Int,
        IsLeast {x | ∃ y, (0 ≤ x ∧ x < Int.tdiv (alignedSurface twoDotSurface (some twoDotSurface)).w 2) ∧
          (0 ≤ y ∧ y < Int.tdiv (alignedSurface twoDotSurface (some twoDotSurface)).h 2) ∧
          scanIncludes (alignedSurface twoDotSurface (some twoDotSurface)) 1 0 x y = true} minX ∧
        IsGreatest {x | ∃ y, (0 ≤ x ∧ x < Int.tdiv (alignedSurface twoDotSurface (some twoDotSurface)).w 2) ∧
          (0 ≤ y ∧ y < Int.tdiv (alignedSurface twoDotSurface (some twoDotSurface)).h 2) ∧
          scanIncludes (alignedSurface twoDotSurface (some twoDotSurface)) 1 0 x y = true} maxX ∧
        IsLeast {y | ∃ x, (0 ≤ x ∧ x < Int.tdiv (alignedSurface twoDotSurface (some twoDotSurface)).w 2) ∧
          (0 ≤ y ∧ y < Int.tdiv (alignedSurface twoDotSurface (some twoDotSurface)).h 2) ∧
          scanIncludes (alignedSurface twoDotSurface (some twoDotSurface)) 1 0 x y = true} minY ∧
        IsGreatest {y | ∃ x, (0 ≤ x ∧ x < Int.tdiv (alignedSurface twoDotSurface (some twoDotSurface)).w 2) ∧
          (0 ≤ y ∧ y < Int.tdiv (alignedSurface twoDotSurface (some twoDotSurface)).h 2) ∧
          scanIncludes (alignedSurface twoDotSurface (some twoDotSurface)) 1 0 x y = true} maxY ∧
        (loadSprite SpriteAlignment.Centered twoDotSurface (some twoDotSurface)
            : SpriteList ℚ).baseOffsetX (0 * 2 + 1)
          = ((Int.tdiv (alignedSurface twoDotSurface (some twoDotSurface)).w 2 : Int) : ℚ) / 2
            - ((minX + maxX : Int) : ℚ) / 2 ∧
        (loadSprite SpriteAlignment.Centered twoDotSurface (some twoDotSurface)
            : SpriteList ℚ).baseOffsetY (0 * 2 + 1)
          = ((Int.tdiv (alignedSurface twoDotSurface (some twoDotSurface)).h 2 : Int) : ℚ) / 2
            - ((minY + maxY : Int) : ℚ) / 2) ∧
    (loadSprite SpriteAlignment.Centered twoDotSurface (some twoDotSurface)
      : SpriteList ℚ).baseOffsetX 1 = -1 / 2 ∧
    (loadSprite SpriteAlignment.Centered twoDotSurface (some twoDotSurface)
      : SpriteList ℚ).baseOffsetY 1 = 0 ∧
    (loadSprite SpriteAlignment.Centered twoDotSurface (some twoDotSurface)
      : SpriteList ℚ).baseOffsetX 0 = 0 ∧
    (loadSprite SpriteAlignment.AsIs twoDotSurface (some twoDotSurface)
      : SpriteList ℚ).baseOffsetX 1 = 0 := by
  obtain ⟨q0, q1⟩ := scanQuadrant_twoDotSurface
  have hc1 := loadSprite_centered_offsets (F := ℚ) twoDotSurface (some twoDotSurface) 1 0
    (Or.inr rfl) (Or.inl rfl)
  have hc0 := loadSprite_centered_offsets (F := ℚ) twoDotSurface (some twoDotSurface) 0 0
    (Or.inl rfl) (Or.inl rfl)
  have e1 : (0 : Int) * 2 + 1 = 1 := by decide
  have e0 : (0 : Int) * 2 + 0 = 0 := by decide
  have ew : Int.tdiv twoDotSurface.w 2 = 4 := by decide
  have eh : Int.tdiv twoDotSurface.h 2 = 2 := by decide
  rw [e1] at hc1
  rw [e0] at hc0
  simp only [alignedSurface, q0, q1, ew, eh] at hc1 hc0
  refine ⟨(aligner_offsets_of_scan (F := ℚ) twoDotSurface (some twoDotSurface) 1 0 (by decide)
    (Or.inr rfl) (Or.inl rfl)).1 ⟨2, 1, by decide, by decide, by decide⟩, ?_, ?_, ?_,
    ((aligner_offsets_of_scan (F := ℚ) twoDotSurface (some twoDotSurface) 1 0 (by decide)
      (Or.inr rfl) (Or.inl rfl)).2.2 1).1⟩
  · rw [hc1.1]; norm_num
  · rw [hc1.2]; norm_num
  · refine ((aligner_offsets_of_scan (F := ℚ) twoDotSurface (some twoDotSurface) 0 0 (by decide)
      (Or.inl rfl) (Or.inl rfl)).2.1 ?_).1
    rintro ⟨x, y, hx, hy, h⟩
    simp only [alignedSurface, ew, eh] at hx hy h
    obtain ⟨hx1, hx2⟩ := hx
    obtain ⟨hy1, hy2⟩ := hy
    interval_cases x <;> interval_cases y <;> revert h <;> decide

/-! ### Geometry -/

/-- Claim C13. The rectangles returned by `computeRenderGeometry` are a function of the
sprite size, the window size, the frame index, the shake amplitude and frequency, the
centering offsets of the frame index, and the state fields `breathScale`, `scale`,
`offsetX`, `offsetY`, `speak` and `globalTime`: two invocations that agree on these
inputs return the same destination and source rectangles, jitter included, whatever
the other fields of the two states are.  The function returns the rectangles only; it
has no access to a state that it could modify. -/
theorem computeRenderGeometry_deterministic {F : Type} [LinearOrderedField F] [FloorRing F]
    (sin cos : F → F) (spriteW spriteH winW winH : Int) (s1 s2 : MainLoopState F)
    (frameIndex : Int) (shakingAmp shakingFreq : F)
    (baseOffsetX1 baseOffsetY1 baseOffsetX2 baseOffsetY2 : Int → F)
    (hbreath : s1.breathScale = s2.breathScale) (hscale : s1.scale = s2.scale)
    (hoffx : s1.offsetX = s2.offsetX) (hoffy : s1.offsetY = s2.offsetY)
    (hspeak : s1.speak = s2.speak) (htime : s1.globalTime = s2.globalTime)
    (hbx : baseOffsetX1 frameIndex = baseOffsetX2 frameIndex)
    (hby : baseOffsetY1 frameIndex = baseOffsetY2 frameIndex) :
    computeRenderGeometry sin cos spriteW spriteH winW winH s1 frameIndex
        shakingAmp shakingFreq baseOffsetX1 baseOffsetY1
      = computeRenderGeometry sin cos spriteW spriteH winW winH s2 frameIndex
        shakingAmp shakingFreq baseOffsetX2 baseOffsetY2 := by
  unfold computeRenderGeometry
  rw [hbreath, hscale, hoffx, hoffy, hspeak, htime, hbx, hby]

/-- Witness for C13: a speaking state with shake, and the same state after a blink
started, a drag began, the breathing phase advanced and the sprite index changed;
the centering offsets differ at the indices other than the frame index. -/
theorem computeRenderGeometry_deterministic_witness :
    computeRenderGeometry (fun x : ℚ => x) (fun x : ℚ => 1 - x) 512 512 800 600
        { MainLoopState.initial ℚ with
          speak := true, globalTime := 3, breathScale := 1.01, scale := 2, offsetX := 5 }
        1 1 1 (fun _ => 0) (fun _ => 0)
      = computeRenderGeometry (fun x : ℚ => x) (fun x : ℚ => 1 - x) 512 512 800 600
        { MainLoopState.initial ℚ with
          speak := true, globalTime := 3, breathScale := 1.01, scale := 2, offsetX := 5,
          blink := true, dragging := true, breathPhase := 7, currentSpriteIndex := 2,
          lastBlink := 4000 }
        1 1 1 (fun i => if i = 1 then 0 else 9) (fun i => if i = 1 then 0 else 4) :=
  computeRenderGeometry_deterministic _ _ 512 512 800 600 _ _ 1 1 1 _ _ _ _
    rfl rfl rfl rfl rfl rfl rfl rfl

/-! ### Bilinear sampling -/

theorem truncInt_of_nonneg {F : Type} [LinearOrderedField F] [FloorRing F] (x : F)
    (h : 0 ≤ x) : truncInt x = ⌊x⌋ := by
  simp [truncInt, h]

theorem truncInt_intCast {F : Type} [LinearOrderedField F] [FloorRing F] (z : Int) :
    truncInt (z : F) = z := by
  unfold truncInt
  split_ifs
  · exact Int.floor_intCast z
  · exact Int.ceil_intCast z

/-- Adding `0.5` to a channel value and converting back to `Uint8` returns the value. -/
theorem castUint8_add_half {F : Type} [LinearOrderedField F] [FloorRing F] (a : Fin 256) :
    castUint8 (((a.val : Int) : F) + 0.5) = a := by
  have hnn : (0 : F) ≤ ((a.val : Int) : F) + 0.5 := by
    have : (0 : F) ≤ ((a.val : Int) : F) := by exact_mod_cast Int.natCast_nonneg a.val
    norm_num
    linarith
  have hfloor : ⌊((a.val : Int) : F) + 0.5⌋ = (a.val : Int) := by
    rw [Int.floor_eq_iff]
    constructor
    · norm_num
    · norm_num
  have hlt := a.isLt
  unfold castUint8
  rw [truncInt_of_nonneg _ hnn, hfloor]
  apply Fin.ext
  simp only [Fin.ofNat, Fin.val_mk]
  omega

theorem lerpUint8_zero {F : Type} [LinearOrderedField F] [FloorRing F] (a b : Fin 256) :
    lerpUint8 a b (0 : F) = a := by
  unfold lerpUint8
  rw [zero_mul, add_zero]
  exact castUint8_add_half a

theorem lerpUint8_self {F : Type} [LinearOrderedField F] [FloorRing F] (a : Fin 256) (t : F) :
    lerpUint8 a a t = a := by
  unfold lerpUint8
  rw [sub_self, Int.cast_zero, mul_zero, add_zero]
  exact castUint8_add_half a

theorem clampInt_of_mem (v lo hi : Int) (h1 : lo ≤ v) (h2 : v ≤ hi) : clampInt v lo hi = v := by
  unfold clampInt
  split_ifs <;> omega

theorem clampInt_bounds (v lo hi : Int) (h : lo ≤ hi) :
    lo ≤ clampInt v lo hi ∧ clampInt v lo hi ≤ hi := by
  unfold clampInt
  split_ifs <;> omega

/-- Claim C11. For a source image of width `w` and height `h` with available format
details and integer coordinates `0 ≤ u < w`, `0 ≤ v < h`, `sampleBilinear(src, u, v)`
is the pixel word that `SDL_MapRGBA` builds from the R, G, B and A values of the source
pixel `(u, v)`, whatever its neighbours are; its channel values are those of the
source pixel as soon as `SDL_GetRGBA` inverts `SDL_MapRGBA` on these values. -/
theorem sampleBilinear_at_integer {F : Type} [LinearOrderedField F] [FloorRing F]
    (src : Surface) (fmt : PixelFormat) (hfmt : src.format = some fmt) (u v : Int)
    (hu : 0 ≤ u ∧ u < src.w) (hv : 0 ≤ v ∧ v < src.h) :
    sampleBilinear (some src) (u : F) (v : F) = fmt.mapRGBA (fmt.getRGBA (getPixel src u v)) ∧
    (fmt.getRGBA (fmt.mapRGBA (fmt.getRGBA (getPixel src u v)))
        = fmt.getRGBA (getPixel src u v) →
      fmt.getRGBA (sampleBilinear (some src) (u : F) (v : F))
        = fmt.getRGBA (getPixel src u v)) := by
  have key : sampleBilinear (some src) (u : F) (v : F)
      = fmt.mapRGBA (fmt.getRGBA (getPixel src u v)) := by
    have hx0 : clampInt u 0 (src.w - 1) = u := clampInt_of_mem u 0 _ hu.1 (by omega)
    have hy0 : clampInt v 0 (src.h - 1) = v := clampInt_of_mem v 0 _ hv.1 (by omega)
    simp only [sampleBilinear, hfmt, Int.floor_intCast, hx0, hy0, sub_self, lerpUint8_zero]
  exact ⟨key, fun h => by rw [key, h]⟩

/-- Witness for C11: sampling `variedSurface` at the integer position (1, 0) returns the
pixel word `0xAABBCCDD` of that position, with the channels (0xAA, 0xBB, 0xCC, 0xDD). -/
theorem sampleBilinear_at_integer_witness :
    sampleBilinear (some variedSurface) (((1 : Int) : ℚ)) (((0 : Int) : ℚ)) = 0xAABBCCDD ∧
    RGBA8888.getRGBA (sampleBilinear (some variedSurface) (((1 : Int) : ℚ)) (((0 : Int) : ℚ)))
      = { r := 0xAA, g := 0xBB, b := 0xCC, a := 0xDD } := by
  have h := sampleBilinear_at_integer (F := ℚ) variedSurface RGBA8888 rfl 1 0
    (by decide) (by decide)
  have hpix : getPixel variedSurface 1 0 = 0xAABBCCDD := by decide
  constructor
  · rw [h.1, hpix]
    decide
  · rw [h.2 (by rw [hpix]; decide), hpix]
    decide

/-! ### Degenerate rectangles -/

/-- Claim C14. If the destination rectangle resolved by `computeRenderGeometry` has
width `≤ 0` or height `≤ 0`, or the source rectangle has width `≤ 0` or height `≤ 0`,
`renderFrameCpu` returns with the window surface exactly as it was: no pixel is
written, and the call yields no error. -/
theorem renderFrameCpu_degenerate {F : Type} [LinearOrderedField F] [FloorRing F]
    (sin cos : F → F) (ctx : AppContext F) (s : MainLoopState F) (sp : SpriteList F)
    (surface win : Surface) (frameIndex : Int) (hsp : sp.surface = some surface)
    (hdeg :
      (computeRenderGeometry sin cos surface.w surface.h win.w win.h s frameIndex
        ctx.cfg.shakingAmp ctx.cfg.shakingFreq sp.baseOffsetX sp.baseOffsetY).dstW ≤ 0 ∨
      (computeRenderGeometry sin cos surface.w surface.h win.w win.h s frameIndex
        ctx.cfg.shakingAmp ctx.cfg.shakingFreq sp.baseOffsetX sp.baseOffsetY).dstH ≤ 0 ∨
      (computeRenderGeometry sin cos surface.w surface.h win.w win.h s frameIndex
        ctx.cfg.shakingAmp ctx.cfg.shakingFreq sp.baseOffsetX sp.baseOffsetY).srcW ≤ 0 ∨
      (computeRenderGeometry sin cos surface.w surface.h win.w win.h s frameIndex
        ctx.cfg.shakingAmp ctx.cfg.shakingFreq sp.baseOffsetX sp.baseOffsetY).srcH ≤ 0) :
    rasterize sin cos ctx s sp win frameIndex = none ∧
    renderFrameCpu sin cos ctx s sp (some win) frameIndex = some win := by
  have hr : rasterize sin cos ctx s sp win frameIndex = none := by
    simp only [rasterize, hsp]
    rw [if_pos hdeg]
  exact ⟨hr, by simp only [renderFrameCpu, hr]⟩

/-- Witness for C14: the sprite sheet `narrowSprite` has quadrants of width 0, and the
window `smallWindow` keeps its eight pixels. -/
theorem renderFrameCpu_degenerate_witness :
    (computeRenderGeometry (fun x : ℚ => x) (fun x : ℚ => x) 1 2 4 2 (MainLoopState.initial ℚ) 0
      1 1 (fun _ => 0) (fun _ => 0)).srcW = 0 ∧
    renderFrameCpu (fun x : ℚ => x) (fun x : ℚ => x) (exampleContext ℚ)
      (MainLoopState.initial ℚ) narrowSprite (some smallWindow) 0 = some smallWindow :=
  ⟨by simp only [computeRenderGeometry]; split_ifs <;> decide,
    (renderFrameCpu_degenerate (fun x : ℚ => x) (fun x : ℚ => x) (exampleContext ℚ)
      (MainLoopState.initial ℚ) narrowSprite
      { w := 1, h := 2, pitch := 4, pixels := [0xFF0000FF, 0xFF0000FF], format := some RGBA8888 }
      smallWindow 0 rfl
      (Or.inr (Or.inr (Or.inl (by
        simp only [computeRenderGeometry]
        split_ifs <;> decide))))).2⟩

/-! ### Rendering a uniform opaque image -/

theorem foldl_shadePixel_const (body : Int → Int → Nat → Option Nat) (winW : Int) (v : Nat)
    (l : List (Int × Int)) (hbody : ∀ p ∈ l, ∀ d, body p.1 p.2 d = some v) (fb : List Nat) :
    l.foldl (fun acc p => shadePixel body winW acc p.1 p.2) fb
      = (l.map (fun p => (p.2 * winW + p.1).toNat)).foldl (fun acc k => acc.set k v) fb := by
  induction l generalizing fb with
  | nil => rfl
  | cons q rest ih =>
    rw [List.foldl_cons, List.map_cons, List.foldl_cons,
      ih (fun p hp => hbody p (List.mem_cons_of_mem q hp))]
    congr 1
    unfold shadePixel
    rw [hbody q (List.mem_cons_self q rest)]

theorem getElem?_foldl_set (v : Nat) (ks : List Nat) (fb : List Nat) (i : Nat) :
    (ks.foldl (fun acc k => acc.set k v) fb)[i]?
      = if i ∈ ks ∧ i < fb.length then some v else fb[i]? := by
  induction ks generalizing fb with
  | nil => simp
  | cons k rest ih =>
    rw [List.foldl_cons, ih, List.length_set, List.getElem?_set]
    by_cases hlt : i < fb.length
    · by_cases hr : i ∈ rest
      · simp [hr, hlt]
      · by_cases hk : k = i
        · subst hk
          simp [hr, hlt]
        · have hk' : ¬ i = k := fun h => hk h.symm
          simp [hr, hlt, hk, hk']
    · have hnone : fb[i]? = none := List.getElem?_eq_none (by omega)
      by_cases hk : k = i
      · subst hk
        simp [hlt, hnone]
      · simp [hlt, hk]

/-- Every cell of a `W x H` frame buffer belongs to a pixel of the window. -/
theorem exists_pixelStep_of_index (W H : Int) (hW : 0 < W) (i : Nat)
    (hi : i < (W * H).toNat) :
    ∃ p ∈ pixelSteps 0 W 0 H, (p.2 * W + p.1).toNat = i := by
  have hiW : (i : Int) < W * H := by omega
  have hx0 : 0 ≤ (i : Int) % W := Int.emod_nonneg _ (by omega)
  have hx1 : (i : Int) % W < W := Int.emod_lt_of_pos _ hW
  have hy0 : 0 ≤ (i : Int) / W := Int.ediv_nonneg (by omega) hW.le
  have hy1 : (i : Int) / W < H := Int.ediv_lt_of_lt_mul hW (by rw [mul_comm]; exact hiW)
  have hsum : (i : Int) / W * W + (i : Int) % W = (i : Int) := by
    rw [mul_comm]
    exact Int.ediv_add_emod _ _
  refine ⟨((i : Int) % W, (i : Int) / W), mem_pixelSteps.mpr ⟨⟨hx0, hx1⟩, ⟨hy0, hy1⟩⟩, ?_⟩
  simp only [hsum]
  omega

/-- If the loop body writes the value `v` at every pixel of the window, whatever the
pixel held before, the rows `[0, H)` over the columns `[0, W)` turn the initial frame
buffer into the buffer that holds `v` everywhere. -/
theorem renderRows_const_full (body : Int → Int → Nat → Option Nat) (W H : Int)
    (hW : 0 < W) (v bg : Nat)
    (hbody : ∀ x y d, 0 ≤ x → x < W → 0 ≤ y → y < H → body x y d = some v) :
    renderRows body W 0 W (initFrameBuffer W H bg) 0 H = List.replicate (W * H).toNat v := by
  rw [renderRows_eq_foldl_pixelSteps, foldl_shadePixel_const body W v]
  · apply List.ext_getElem?
    intro i
    rw [getElem?_foldl_set, List.getElem?_replicate]
    unfold initFrameBuffer
    rw [List.length_replicate, List.getElem?_replicate]
    by_cases hi : i < (W * H).toNat
    · obtain ⟨p, hp, hidx⟩ := exists_pixelStep_of_index W H hW i hi
      have hmem : i ∈ (pixelSteps 0 W 0 H).map (fun p => (p.2 * W + p.1).toNat) :=
        List.mem_map.mpr ⟨p, hp, hidx⟩
      simp [hmem, hi]
    · simp [hi]
  · intro p hp d
    have hb := mem_pixelSteps.mp hp
    exact hbody p.1 p.2 d hb.1.1 hb.1.2 hb.2.1 hb.2.2

/-- Sampling an image all of whose pixels have the channel values `c` yields the pixel
word of `c` at every position `(u, v)`. -/
theorem sampleBilinear_uniform {F : Type} [LinearOrderedField F] [FloorRing F]
    (src : Surface) (fmt : PixelFormat) (c : RGBA) (hfmt : src.format = some fmt)
    (hw : 0 < src.w) (hh : 0 < src.h)
    (huni : ∀ x y, 0 ≤ x → x < src.w → 0 ≤ y → y < src.h →
      fmt.getRGBA (getPixel src x y) = c) (u v : F) :
    sampleBilinear (some src) u v = fmt.mapRGBA c := by
  have bx0 := clampInt_bounds ⌊u⌋ 0 (src.w - 1) (by omega)
  have bx1 := clampInt_bounds (⌊u⌋ + 1) 0 (src.w - 1) (by omega)
  have by0 := clampInt_bounds ⌊v⌋ 0 (src.h - 1) (by omega)
  have by1 := clampInt_bounds (⌊v⌋ + 1) 0 (src.h - 1) (by omega)
  simp only [sampleBilinear, hfmt]
  rw [huni _ _ bx0.1 (by omega) by0.1 (by omega), huni _ _ bx1.1 (by omega) by0.1 (by omega),
    huni _ _ bx0.1 (by omega) by1.1 (by omega), huni _ _ bx1.1 (by omega) by1.1 (by omega)]
  simp only [lerpUint8_self]

/-- The loop body of `renderFrameCpu` for an opaque image of one colour `c` that is
stretched over the whole window: at every pixel of the window it writes
`SDL_MapRGB(dstFmt, c.r, c.g, c.b)`, whatever the pixel held before. -/
theorem pixelBody_uniform {F : Type} [LinearOrderedField F] [FloorRing F]
    (surface : Surface) (srcFmt dstFmt : PixelFormat) (c : RGBA)
    (hfmt : surface.format = some srcFmt) (hw : 0 < surface.w) (hh : 0 < surface.h)
    (huni : ∀ x y, 0 ≤ x → x < surface.w → 0 ≤ y → y < surface.h →
      srcFmt.getRGBA (getPixel surface x y) = c)
    (halpha : c.a = 255) (hround : srcFmt.getRGBA (srcFmt.mapRGBA c) = c)
    (W H srcX srcY srcW srcH : Int) (x y : Int) (d : Nat)
    (hx0 : 0 ≤ x) (hx1 : x < W) (hy0 : 0 ≤ y) (hy1 : y < H) :
    pixelBody surface srcFmt dstFmt
        { dstX := (0 : F), dstY := 0, dstW := (W : F), dstH := (H : F),
          srcX := srcX, srcY := srcY, srcW := srcW, srcH := srcH } x y d
      = some (dstFmt.mapRGB c.r c.g c.b) := by
  have hWpos : (0 : F) < (W : F) := by exact_mod_cast (by omega : (0 : Int) < W)
  have hHpos : (0 : F) < (H : F) := by exact_mod_cast (by omega : (0 : Int) < H)
  have hxc : (0 : F) ≤ (x : F) := by exact_mod_cast hx0
  have hyc : (0 : F) ≤ (y : F) := by exact_mod_cast hy0
  have hxW : (x : F) + 1 ≤ (W : F) := by exact_mod_cast (by omega : x + 1 ≤ W)
  have hyH : (y : F) + 1 ≤ (H : F) := by exact_mod_cast (by omega : y + 1 ≤ H)
  have hfx : ¬ ((((x : F) + 0.5 - 0) * (1.0 / (W : F)) < 0.0) ∨
      (((x : F) + 0.5 - 0) * (1.0 / (W : F)) ≥ 1.0) ∨
      (((y : F) + 0.5 - 0) * (1.0 / (H : F)) < 0.0) ∨
      (((y : F) + 0.5 - 0) * (1.0 / (H : F)) ≥ 1.0)) := by
    have e1 : ((x : F) + 0.5 - 0) * (1.0 / (W : F)) = ((x : F) + 1 / 2) / (W : F) := by
      norm_num
      ring
    have e2 : ((y : F) + 0.5 - 0) * (1.0 / (H : F)) = ((y : F) + 1 / 2) / (H : F) := by
      norm_num
      ring
    rw [e1, e2]
    have a1 : (0 : F) ≤ ((x : F) + 1 / 2) / (W : F) := div_nonneg (by linarith) hWpos.le
    have a2 : ((x : F) + 1 / 2) / (W : F) < 1 := by
      rw [div_lt_one hWpos]
      linarith
    have a3 : (0 : F) ≤ ((y : F) + 1 / 2) / (H : F) := div_nonneg (by linarith) hHpos.le
    have a4 : ((y : F) + 1 / 2) / (H : F) < 1 := by
      rw [div_lt_one hHpos]
      linarith
    norm_num
    exact ⟨a1, a2, a3, a4⟩
  have hca : ¬ c.a = 0 := by
    rw [halpha]
    decide
  have hblend : ∀ (p q : Fin 256),
      castUint8 (((p.val : Int) : F) * (((c.a.val : Int) : F) / 255.0)
        + ((q.val : Int) : F) * (1.0 - ((c.a.val : Int) : F) / 255.0) + 0.5) = p := by
    intro p q
    have hv : c.a.val = 255 := by
      rw [halpha]
      rfl
    have ha : (((c.a.val : Int) : F) / 255.0) = 1 := by
      rw [hv]
      norm_num
    rw [ha]
    have e : ((p.val : Int) : F) * 1 + ((q.val : Int) : F) * (1.0 - 1) + 0.5
        = ((p.val : Int) : F) + 0.5 := by
      norm_num
    rw [e]
    exact castUint8_add_half p
  unfold pixelBody
  simp only
  rw [if_neg hfx, sampleBilinear_uniform surface srcFmt c hfmt hw hh huni, hround, if_neg hca]
  simp only [hblend]

/-- The geometry of a sprite sheet of `2a x 2b` pixels in a window of the same size,
with viewport scale 1, no offset, breath scale 1, no centering offset and no shake: the
destination rectangle is the whole window and the source rectangle is the quadrant of
the frame index. -/
theorem computeRenderGeometry_same_size {F : Type} [LinearOrderedField F] [FloorRing F]
    (sin cos : F → F) (a b : Int) (ha : 0 < a) (hb : 0 < b) (s : MainLoopState F)
    (frameIndex : Int) (shakingAmp shakingFreq : F) (baseOffsetX baseOffsetY : Int → F)
    (hscale : s.scale = 1) (hbreath : s.breathScale = 1)
    (hoffx : s.offsetX = 0) (hoffy : s.offsetY = 0)
    (hbx : baseOffsetX frameIndex = 0) (hby : baseOffsetY frameIndex = 0)
    (hshake : ¬ (shakingAmp > 0.0 ∧ shakingFreq > 0.0 ∧ s.speak = true)) :
    computeRenderGeometry sin cos (2 * a) (2 * b) (2 * a) (2 * b) s frameIndex
        shakingAmp shakingFreq baseOffsetX baseOffsetY
      = { dstX := 0, dstY := 0, dstW := ((2 * a : Int) : F), dstH := ((2 * b : Int) : F),
          srcX := Int.tmod frameIndex 2 * a, srcY := Int.tdiv frameIndex 2 * b,
          srcW := a, srcH := b } := by
  have hqa : Int.tdiv (2 * a) 2 = a := Int.mul_tdiv_cancel_left a (by decide)
  have hqb : Int.tdiv (2 * b) 2 = b := Int.mul_tdiv_cancel_left b (by decide)
  have haF : (a : F) ≠ 0 := by exact_mod_cast (by omega : a ≠ 0)
  have hbF : (b : F) ≠ 0 := by exact_mod_cast (by omega : b ≠ 0)
  have e1 : ((2 * b : Int) : F) * ((a : F) / (b : F)) = ((2 * a : Int) : F) := by
    push_cast
    field_simp
    ring
  have e2 : ((2 * a : Int) : F) / ((a : F) / (b : F)) = ((2 * b : Int) : F) := by
    push_cast
    field_simp
    ring
  unfold computeRenderGeometry
  simp only [hqa, hqb, e1, e2, truncInt_intCast, min_self, hscale, hbreath, hoffx, hoffy,
    hbx, hby, if_neg hshake]
  norm_num

/-- Rendering a uniform image in exact arithmetic.  A fully opaque source image of even
width `2a` and even height `2b` whose pixels all have the channel values `c` is
rasterised by `renderFrameCpu`, computing without rounding, onto a window of the same
size with viewport scale 1, offset 0, breath scale 1, zero centering offsets and no
shake.  Then every cell of the frame buffer after the join holds the pixel word
`SDL_MapRGB(dstFmt, c.r, c.g, c.b)` of the colour `c`, no cell holds the background
pixel if that differs from the pixel word of `c`, and with the context menu closed the
window surface receives exactly this buffer.  `SDL_GetRGBA` is assumed to invert
`SDL_MapRGBA` at `c` in the format of the source.  With the rounding of the type `float`
the statement fails, see `rasterizeRounded_tall`. -/
theorem render_uniform_image_exact {F : Type} [LinearOrderedField F] [FloorRing F]
    (sin cos : F → F) (ctx : AppContext F) (s : MainLoopState F) (sp : SpriteList F)
    (surface win : Surface) (srcFmt dstFmt : PixelFormat) (c : RGBA) (a b : Int)
    (frameIndex : Int) (ha : 0 < a) (hb : 0 < b)
    (hsp : sp.surface = some surface)
    (hsw : surface.w = 2 * a) (hsh : surface.h = 2 * b) (hsfmt : surface.format = some srcFmt)
    (huni : ∀ x y, 0 ≤ x → x < surface.w → 0 ≤ y → y < surface.h →
      srcFmt.getRGBA (getPixel surface x y) = c)
    (halpha : c.a = 255) (hround : srcFmt.getRGBA (srcFmt.mapRGBA c) = c)
    (hww : win.w = 2 * a) (hwh : win.h = 2 * b) (hwfmt : win.format = some dstFmt)
    (hwlen : win.pixels.length = (win.w * win.h).toNat)
    (hn : 1 ≤ ctx.nThreads)
    (hscale : s.scale = 1) (hbreath : s.breathScale = 1)
    (hoffx : s.offsetX = 0) (hoffy : s.offsetY = 0)
    (hbx : sp.baseOffsetX frameIndex = 0) (hby : sp.baseOffsetY frameIndex = 0)
    (hshake : ¬ (ctx.cfg.shakingAmp > 0.0 ∧ ctx.cfg.shakingFreq > 0.0 ∧ s.speak = true)) :
    rasterize sin cos ctx s sp win frameIndex
      = some (List.replicate (win.w * win.h).toNat (dstFmt.mapRGB c.r c.g c.b)) ∧
    0 < (win.w * win.h).toNat ∧
    (dstFmt.mapRGB c.r c.g c.b
        ≠ dstFmt.mapRGB (Fin.ofNat ((ctx.cfg.bgColor >>> 16) &&& 0xFF))
            (Fin.ofNat ((ctx.cfg.bgColor >>> 8) &&& 0xFF)) (Fin.ofNat (ctx.cfg.bgColor &&& 0xFF)) →
      ∀ fb, rasterize sin cos ctx s sp win frameIndex = some fb →
        ∀ p ∈ fb, p ≠ dstFmt.mapRGB (Fin.ofNat ((ctx.cfg.bgColor >>> 16) &&& 0xFF))
            (Fin.ofNat ((ctx.cfg.bgColor >>> 8) &&& 0xFF)) (Fin.ofNat (ctx.cfg.bgColor &&& 0xFF))) ∧
    (s.showContextMenu = false →
      renderFrameCpu sin cos ctx s sp (some win) frameIndex
        = some { win with
            pixels := List.replicate (win.w * win.h).toNat (dstFmt.mapRGB c.r c.g c.b) }) := by
  have hgeom := computeRenderGeometry_same_size sin cos a b ha hb s frameIndex
    ctx.cfg.shakingAmp ctx.cfg.shakingFreq sp.baseOffsetX sp.baseOffsetY
    hscale hbreath hoffx hoffy hbx hby hshake
  have hWpos : (0 : F) < ((2 * a : Int) : F) := by exact_mod_cast (by omega : (0 : Int) < 2 * a)
  have hHpos : (0 : F) < ((2 * b : Int) : F) := by exact_mod_cast (by omega : (0 : Int) < 2 * b)
  have hnotdeg : ¬ (((2 * a : Int) : F) ≤ 0 ∨ ((2 * b : Int) : F) ≤ 0 ∨ a ≤ 0 ∨ b ≤ 0) := by
    rintro (h | h | h | h)
    · exact absurd h (not_le.mpr hWpos)
    · exact absurd h (not_le.mpr hHpos)
    · omega
    · omega
  have hbounds : ¬ ((0 : Int) ≥ 2 * a ∨ (0 : Int) ≥ 2 * b) := by omega
  have hsw0 : 0 < surface.w := by omega
  have hsh0 : 0 < surface.h := by omega
  have hr : rasterize sin cos ctx s sp win frameIndex
      = some (List.replicate (win.w * win.h).toNat (dstFmt.mapRGB c.r c.g c.b)) := by
    simp only [rasterize, hsp, hsw, hsh, hww, hwh, hgeom, if_neg hnotdeg, hwfmt, hsfmt,
      Int.floor_zero, max_self, zero_add, Int.ceil_intCast, min_self, if_neg hbounds]
    rw [renderBands_eq_renderRows _ _ _ _ _ _ _ hn]
    rw [renderRows_const_full _ (2 * a) (2 * b) (by omega) (dstFmt.mapRGB c.r c.g c.b)]
    intro x y d hx0 hx1 hy0 hy1
    exact pixelBody_uniform surface srcFmt dstFmt c hsfmt hsw0 hsh0 huni halpha hround
      (2 * a) (2 * b) _ _ _ _ x y d hx0 hx1 hy0 hy1
  have hpos : 0 < (win.w * win.h).toNat := by
    rw [hww, hwh]
    have : 0 < (2 * a) * (2 * b) := Int.mul_pos (by omega) (by omega)
    omega
  refine ⟨hr, hpos, ?_, ?_⟩
  · intro hne fb hfb p hp
    rw [hr] at hfb
    cases hfb
    rw [List.eq_of_mem_replicate hp]
    exact hne
  · intro hmenu
    have hdrop : win.pixels.drop
        (List.replicate (win.w * win.h).toNat (dstFmt.mapRGB c.r c.g c.b)).length = [] := by
      rw [List.length_replicate, ← hwlen]
      exact List.drop_length win.pixels
    simp only [renderFrameCpu, hr, hwfmt, hmenu, Bool.false_eq_true, if_false, hdrop,
      List.append_nil]

/-- The opaque 4 x 2 image `uniformSurface` of colour (0x33, 0x66, 0xCC) rendered in exact
arithmetic with four workers onto the 4 x 2 window `smallWindow`, background black, from
the initial state: all eight cells of the window hold `0x3366CCFF`. -/
theorem render_uniform_image_exact_example :
    renderFrameCpu (fun x : ℚ => x) (fun x : ℚ => x) (exampleContext ℚ)
        (MainLoopState.initial ℚ) uniformSprite (some smallWindow) 3
      = some { smallWindow with pixels := List.replicate 8 0x3366CCFF } ∧
    rasterize (fun x : ℚ => x) (fun x : ℚ => x) (exampleContext ℚ)
        (MainLoopState.initial ℚ) uniformSprite smallWindow 3
      = some (List.replicate 8 0x3366CCFF) := by
  have huni : ∀ x y, 0 ≤ x → x < uniformSurface.w → 0 ≤ y → y < uniformSurface.h →
      RGBA8888.getRGBA (getPixel uniformSurface x y)
        = { r := 0x33, g := 0x66, b := 0xCC, a := 255 } := by
    intro x y hx0 hx1 hy0 hy1
    simp only [uniformSurface] at hx1 hy1
    interval_cases x <;> interval_cases y <;> decide
  have h := render_uniform_image_exact (fun x : ℚ => x) (fun x : ℚ => x) (exampleContext ℚ)
    (MainLoopState.initial ℚ) uniformSprite uniformSurface smallWindow RGBA8888 RGBA8888
    { r := 0x33, g := 0x66, b := 0xCC, a := 255 } 2 1 3 (by decide) (by decide) rfl rfl rfl rfl
    huni rfl (by decide) rfl rfl rfl (by decide) (by decide) rfl rfl rfl rfl rfl rfl
    (by simp [MainLoopState.initial])
  exact ⟨h.2.2.2 rfl, h.1⟩

/-! ### The format `RGBA8888` -/

theorem pack_RGBA8888 (r g b a : Nat) (hg : g < 256) (hb : b < 256) (ha : a < 256) :
    (r <<< 24) ||| (g <<< 16) ||| (b <<< 8) ||| a
      = r * 2 ^ 24 + g * 2 ^ 16 + b * 2 ^ 8 + a := by
  simp only [Nat.shiftLeft_eq]
  have s1 : r * 2 ^ 24 ||| g * 2 ^ 16 = r * 2 ^ 24 + g * 2 ^ 16 := by
    have := Nat.mul_add_lt_is_or (i := 24) (b := g * 2 ^ 16) (by omega) r
    rw [Nat.mul_comm (2 ^ 24) r] at this
    exact this.symm
  have s2 : (r * 2 ^ 24 + g * 2 ^ 16) ||| b * 2 ^ 8 = r * 2 ^ 24 + g * 2 ^ 16 + b * 2 ^ 8 := by
    have := Nat.mul_add_lt_is_or (i := 16) (b := b * 2 ^ 8) (by omega) (r * 2 ^ 8 + g)
    have e : 2 ^ 16 * (r * 2 ^ 8 + g) = r * 2 ^ 24 + g * 2 ^ 16 := by ring
    rw [e] at this
    exact this.symm
  have s3 : (r * 2 ^ 24 + g * 2 ^ 16 + b * 2 ^ 8) ||| a
      = r * 2 ^ 24 + g * 2 ^ 16 + b * 2 ^ 8 + a := by
    have := Nat.mul_add_lt_is_or (i := 8) (b := a) (by omega) (r * 2 ^ 16 + g * 2 ^ 8 + b)
    have e : 2 ^ 8 * (r * 2 ^ 16 + g * 2 ^ 8 + b) = r * 2 ^ 24 + g * 2 ^ 16 + b * 2 ^ 8 := by
      ring
    rw [e] at this
    exact this.symm
  rw [s1, s2, s3]

theorem unpack_RGBA8888 (p : Nat) :
    (p >>> 24) &&& 0xFF = (p / 2 ^ 24) % 256 ∧ (p >>> 16) &&& 0xFF = (p / 2 ^ 16) % 256 ∧
    (p >>> 8) &&& 0xFF = (p / 2 ^ 8) % 256 ∧ p &&& 0xFF = p % 256 := by
  have h := fun x => Nat.and_pow_two_sub_one_eq_mod x 8
  simp only [Nat.shiftRight_eq_div_pow]
  exact ⟨h _, h _, h _, h _⟩

/-- In the format `RGBA8888` unpacking a packed colour returns the colour: the
assumption on the pixel format made by the statements on `sampleBilinear` and
`renderFrameCpu` holds for the format used by the aligner. -/
theorem RGBA8888_getRGBA_mapRGBA (c : RGBA) : RGBA8888.getRGBA (RGBA8888.mapRGBA c) = c := by
  obtain ⟨⟨r, hr⟩, ⟨g, hg⟩, ⟨b, hb⟩, ⟨a, ha⟩⟩ := c
  obtain ⟨u1, u2, u3, u4⟩ :=
    unpack_RGBA8888 (r * 2 ^ 24 + g * 2 ^ 16 + b * 2 ^ 8 + a)
  simp only [RGBA8888, pack_RGBA8888 r g b a hg hb ha, u1, u2, u3, u4, RGBA.mk.injEq]
  refine ⟨?_, ?_, ?_, ?_⟩ <;>
    (apply Fin.ext
     simp only [Fin.ofNat, Fin.val_mk]
     omega)

/-! ### Evaluations of the rasteriser on concrete inputs -/

/-- A sprite sheet of 512 x 512 pixels in a window of 800 x 600 pixels, initial state,
frame index 3: the destination is the square of side 600 in the middle of the window,
the source is the lower right quadrant. -/
theorem computeRenderGeometry_example :
    computeRenderGeometry (fun x : ℚ => x) (fun x : ℚ => x) 512 512 800 600
        (MainLoopState.initial ℚ) 3 1 1 (fun _ => 0) (fun _ => 0)
      = { dstX := 100, dstY := 0, dstW := 600, dstH := 600,
          srcX := 256, srcY := 256, srcW := 256, srcH := 256 } := by
  have q : Int.tdiv 512 2 = 256 := by decide
  have m : Int.tmod 3 2 = 1 := by decide
  have d : Int.tdiv 3 2 = 1 := by decide
  have t1 : truncInt (((600 : Int) : ℚ) * (((256 : Int) : ℚ) / ((256 : Int) : ℚ))) = 600 := by
    rw [show ((600 : Int) : ℚ) * (((256 : Int) : ℚ) / ((256 : Int) : ℚ)) = ((600 : Int) : ℚ)
      by norm_num]
    exact truncInt_intCast 600
  have t2 : truncInt (((800 : Int) : ℚ) / (((256 : Int) : ℚ) / ((256 : Int) : ℚ))) = 800 := by
    rw [show ((800 : Int) : ℚ) / (((256 : Int) : ℚ) / ((256 : Int) : ℚ)) = ((800 : Int) : ℚ)
      by norm_num]
    exact truncInt_intCast 800
  simp only [computeRenderGeometry, q, m, d, t1, t2]
  norm_num [MainLoopState.initial]

/-- A sprite sheet of 2 x 2000 pixels in a window of 800 x 600 pixels: the destination
rectangle has width `static_cast<int>(600 * 1 / 1000) = 0`, a degenerate rectangle. -/
theorem computeRenderGeometry_tall_sprite :
    (computeRenderGeometry (fun x : ℚ => x) (fun x : ℚ => x) 2 2000 800 600
        (MainLoopState.initial ℚ) 0 1 1 (fun _ => 0) (fun _ => 0)).dstW = 0 := by
  have q1 : Int.tdiv 2 2 = 1 := by decide
  have q2 : Int.tdiv 2000 2 = 1000 := by decide
  have t1 : truncInt (((600 : Int) : ℚ) * (((1 : Int) : ℚ) / ((1000 : Int) : ℚ))) = 0 := by
    rw [truncInt_of_nonneg _ (by norm_num), Int.floor_eq_iff]
    norm_num
  simp only [computeRenderGeometry, q1, q2, t1]
  norm_num [MainLoopState.initial]

theorem lerpUint8_half_eval (a b : Fin 256) (na nb n : Nat) (ha : a.val = na) (hb : b.val = nb)
    (hfl : ((n : Int) : ℚ)
        ≤ ((na : Int) : ℚ) + (1 / 2) * (((nb : Int) - (na : Int) : Int) : ℚ) + 0.5 ∧
      ((na : Int) : ℚ) + (1 / 2) * (((nb : Int) - (na : Int) : Int) : ℚ) + 0.5
        < ((n : Int) : ℚ) + 1) :
    lerpUint8 a b (1 / 2 : ℚ) = Fin.ofNat n := by
  have hfloor :
      ⌊((na : Int) : ℚ) + (1 / 2) * (((nb : Int) - (na : Int) : Int) : ℚ) + 0.5⌋ = (n : Int) :=
    Int.floor_eq_iff.mpr hfl
  unfold lerpUint8 castUint8
  rw [ha, hb, truncInt_of_nonneg, hfloor]
  · apply Fin.ext
    simp only [Fin.ofNat, Fin.val_mk]
    omega
  · exact le_trans (by exact_mod_cast Int.natCast_nonneg n) hfl.1

/-- Sampling `variedSurface` half way between the pixels (0,0) and (1,0): each channel
is the mean of the two channel values, rounded to nearest. -/
theorem sampleBilinear_half_pixel :
    sampleBilinear (some variedSurface) (1 / 2 : ℚ) 0 = 0x5E6F8091 := by
  have f1 : ⌊(1 / 2 : ℚ)⌋ = 0 := by rw [Int.floor_eq_iff]; norm_num
  have f2 : ⌊(0 : ℚ)⌋ = 0 := Int.floor_zero
  have c1 : clampInt 0 0 (variedSurface.w - 1) = 0 := by decide
  have c2 : clampInt (0 + 1) 0 (variedSurface.w - 1) = 1 := by decide
  have c3 : clampInt 0 0 (variedSurface.h - 1) = 0 := by decide
  have c4 : clampInt (0 + 1) 0 (variedSurface.h - 1) = 1 := by decide
  have h : variedSurface.format = some RGBA8888 := rfl
  simp only [sampleBilinear, h, f1, f2, c1, c2, c3, c4]
  have p00 : RGBA8888.getRGBA (getPixel variedSurface 0 0) = ⟨0x11, 0x22, 0x33, 0x44⟩ := by
    decide
  have p10 : RGBA8888.getRGBA (getPixel variedSurface 1 0) = ⟨0xAA, 0xBB, 0xCC, 0xDD⟩ := by
    decide
  rw [p00, p10]
  simp only [Int.cast_zero, sub_zero, sub_self, lerpUint8_zero]
  rw [lerpUint8_half_eval 0x11 0xAA 17 170 94 rfl rfl (by norm_num),
    lerpUint8_half_eval 0x22 0xBB 34 187 111 rfl rfl (by norm_num),
    lerpUint8_half_eval 0x33 0xCC 51 204 128 rfl rfl (by norm_num),
    lerpUint8_half_eval 0x44 0xDD 68 221 145 rfl rfl (by norm_num)]
  decide

/-! ### Shake -/

/-- The size of the destination rectangle: the window-fitted size of a quadrant times
`breathScale` times `scale`, in both branches of the shake test. -/
theorem computeRenderGeometry_dst_size {F : Type} [LinearOrderedField F] [FloorRing F]
    (sin cos : F → F) (spriteW spriteH winW winH : Int) (s : MainLoopState F)
    (frameIndex : Int) (shakingAmp shakingFreq : F) (baseOffsetX baseOffsetY : Int → F) :
    (computeRenderGeometry sin cos spriteW spriteH winW winH s frameIndex
        shakingAmp shakingFreq baseOffsetX baseOffsetY).dstW
      = ((min winW (truncInt ((winH : F)
          * (((Int.tdiv spriteW 2 : Int) : F) / ((Int.tdiv spriteH 2 : Int) : F)))) : Int) : F)
        * s.breathScale * s.scale ∧
    (computeRenderGeometry sin cos spriteW spriteH winW winH s frameIndex
        shakingAmp shakingFreq baseOffsetX baseOffsetY).dstH
      = ((min winH (truncInt ((winW : F)
          / (((Int.tdiv spriteW 2 : Int) : F) / ((Int.tdiv spriteH 2 : Int) : F)))) : Int) : F)
        * s.breathScale * s.scale := by
  unfold computeRenderGeometry
  constructor <;> split_ifs <;> rfl

/-- The position of the destination rectangle: the centred position plus the viewport
offset plus the scaled centering offset, plus the jitter when the shake test holds. -/
theorem computeRenderGeometry_dst_pos {F : Type} [LinearOrderedField F] [FloorRing F]
    (sin cos : F → F) (spriteW spriteH winW winH : Int) (s : MainLoopState F)
    (frameIndex : Int) (shakingAmp shakingFreq : F) (baseOffsetX baseOffsetY : Int → F) :
    (computeRenderGeometry sin cos spriteW spriteH winW winH s frameIndex
        shakingAmp shakingFreq baseOffsetX baseOffsetY).dstX
      = ((winW : F) - (computeRenderGeometry sin cos spriteW spriteH winW winH s frameIndex
            shakingAmp shakingFreq baseOffsetX baseOffsetY).dstW) / 2
        + s.offsetX + baseOffsetX frameIndex * s.scale
        + (if shakingAmp > 0 ∧ shakingFreq > 0 ∧ s.speak = true then
            sin (s.globalTime * (50 * shakingFreq) * PI F) * 2 * (shakingAmp / 2)
          else 0) ∧
    (computeRenderGeometry sin cos spriteW spriteH winW winH s frameIndex
        shakingAmp shakingFreq baseOffsetX baseOffsetY).dstY
      = ((winH : F) - (computeRenderGeometry sin cos spriteW spriteH winW winH s frameIndex
            shakingAmp shakingFreq baseOffsetX baseOffsetY).dstH) / 2
        + s.offsetY + baseOffsetY frameIndex * s.scale
        + (if shakingAmp > 0 ∧ shakingFreq > 0 ∧ s.speak = true then
            cos (s.globalTime * (36 * shakingFreq) * PI F) * 1 * (shakingAmp / 2)
          else 0) := by
  unfold computeRenderGeometry
  by_cases h : shakingAmp > 0 ∧ shakingFreq > 0 ∧ s.speak = true
  · have h2 : shakingAmp > 0.0 ∧ shakingFreq > 0.0 ∧ s.speak = true := by
      norm_num
      exact h
    simp only [if_pos h, if_pos h2]
    constructor <;> norm_num
  · have h2 : ¬ (shakingAmp > 0.0 ∧ shakingFreq > 0.0 ∧ s.speak = true) := by
      norm_num
      simpa using h
    simp only [if_neg h, if_neg h2]
    constructor <;> norm_num

/-- Claim C21. In `computeRenderGeometry` (with `std::sin`, `std::cos` the real sine and
cosine and `pi` the constant `PI` of the source): if `shakingAmp > 0`, `shakingFreq > 0`
and `speak` is true, the destination position is the centred position plus the viewport
offset plus the scaled centering offset plus the jitter
`dx = sin(t * 50 * freq * PI) * amp`, `dy = cos(t * 36 * freq * PI) * 0.5 * amp` with
`t = globalTime`, and `|dx| ≤ amp`, `|dy| ≤ amp / 2`; if one of the three conditions
fails, the destination position is the centred position plus the viewport offset plus
the scaled centering offset, with no jitter.  The destination width and height do not
depend on the shake amplitude, the shake frequency, `speak` or `globalTime`. -/
theorem shake_jitter (spriteW spriteH winW winH : Int) (s : MainLoopState ℝ)
    (frameIndex : Int) (shakingAmp shakingFreq : ℝ) (baseOffsetX baseOffsetY : Int → ℝ) :
    (shakingAmp > 0 ∧ shakingFreq > 0 ∧ s.speak = true →
      (computeRenderGeometry Real.sin Real.cos spriteW spriteH winW winH s frameIndex
          shakingAmp shakingFreq baseOffsetX baseOffsetY).dstX
        = ((winW : ℝ) - (computeRenderGeometry Real.sin Real.cos spriteW spriteH winW winH s
              frameIndex shakingAmp shakingFreq baseOffsetX baseOffsetY).dstW) / 2
          + s.offsetX + baseOffsetX frameIndex * s.scale
          + Real.sin (s.globalTime * 50 * shakingFreq * PI ℝ) * shakingAmp ∧
      (computeRenderGeometry Real.sin Real.cos spriteW spriteH winW winH s frameIndex
          shakingAmp shakingFreq baseOffsetX baseOffsetY).dstY
        = ((winH : ℝ) - (computeRenderGeometry Real.sin Real.cos spriteW spriteH winW winH s
              frameIndex shakingAmp shakingFreq baseOffsetX baseOffsetY).dstH) / 2
          + s.offsetY + baseOffsetY frameIndex * s.scale
          + Real.cos (s.globalTime * 36 * shakingFreq * PI ℝ) * 0.5 * shakingAmp ∧
      |Real.sin (s.globalTime * 50 * shakingFreq * PI ℝ) * shakingAmp| ≤ shakingAmp ∧
      |Real.cos (s.globalTime * 36 * shakingFreq * PI ℝ) * 0.5 * shakingAmp|
        ≤ shakingAmp / 2) ∧
    (¬ (shakingAmp > 0 ∧ shakingFreq > 0 ∧ s.speak = true) →
      (computeRenderGeometry Real.sin Real.cos spriteW spriteH winW winH s frameIndex
          shakingAmp shakingFreq baseOffsetX baseOffsetY).dstX
        = ((winW : ℝ) - (computeRenderGeometry Real.sin Real.cos spriteW spriteH winW winH s
              frameIndex shakingAmp shakingFreq baseOffsetX baseOffsetY).dstW) / 2
          + s.offsetX + baseOffsetX frameIndex * s.scale ∧
      (computeRenderGeometry Real.sin Real.cos spriteW spriteH winW winH s frameIndex
          shakingAmp shakingFreq baseOffsetX baseOffsetY).dstY
        = ((winH : ℝ) - (computeRenderGeometry Real.sin Real.cos spriteW spriteH winW winH s
              frameIndex shakingAmp shakingFreq baseOffsetX baseOffsetY).dstH) / 2
          + s.offsetY + baseOffsetY frameIndex * s.scale) ∧
    (∀ (s2 : MainLoopState ℝ) (amp2 freq2 : ℝ) (baseOffsetX2 baseOffsetY2 : Int → ℝ),
      s2.breathScale = s.breathScale → s2.scale = s.scale →
      (computeRenderGeometry Real.sin Real.cos spriteW spriteH winW winH s2 frameIndex
          amp2 freq2 baseOffsetX2 baseOffsetY2).dstW
        = (computeRenderGeometry Real.sin Real.cos spriteW spriteH winW winH s frameIndex
          shakingAmp shakingFreq baseOffsetX baseOffsetY).dstW ∧
      (computeRenderGeometry Real.sin Real.cos spriteW spriteH winW winH s2 frameIndex
          amp2 freq2 baseOffsetX2 baseOffsetY2).dstH
        = (computeRenderGeometry Real.sin Real.cos spriteW spriteH winW winH s frameIndex
          shakingAmp shakingFreq baseOffsetX baseOffsetY).dstH) := by
  have hpos := computeRenderGeometry_dst_pos Real.sin Real.cos spriteW spriteH winW winH s
    frameIndex shakingAmp shakingFreq baseOffsetX baseOffsetY
  refine ⟨fun h => ?_, fun h => ?_, fun s2 amp2 freq2 bx2 by2 hb hs => ?_⟩
  · have e1 : s.globalTime * (50 * shakingFreq) * PI ℝ = s.globalTime * 50 * shakingFreq * PI ℝ := by
      ring
    have e2 : s.globalTime * (36 * shakingFreq) * PI ℝ = s.globalTime * 36 * shakingFreq * PI ℝ := by
      ring
    refine ⟨?_, ?_, ?_, ?_⟩
    · rw [hpos.1, if_pos h, e1]
      ring
    · rw [hpos.2, if_pos h, e2]
      ring
    · rw [abs_mul, abs_of_pos h.1]
      have := Real.abs_sin_le_one (s.globalTime * 50 * shakingFreq * PI ℝ)
      nlinarith [h.1]
    · rw [abs_mul, abs_mul, abs_of_pos h.1]
      have := Real.abs_cos_le_one (s.globalTime * 36 * shakingFreq * PI ℝ)
      have h5 : |(0.5 : ℝ)| = 1 / 2 := by rw [abs_of_pos (by norm_num)]; norm_num
      rw [h5]
      nlinarith [h.1]
  · constructor
    · rw [hpos.1, if_neg h, add_zero]
    · rw [hpos.2, if_neg h, add_zero]
  · have h1 := computeRenderGeometry_dst_size Real.sin Real.cos spriteW spriteH winW winH s
      frameIndex shakingAmp shakingFreq baseOffsetX baseOffsetY
    have h2 := computeRenderGeometry_dst_size Real.sin Real.cos spriteW spriteH winW winH s2
      frameIndex amp2 freq2 bx2 by2
    rw [h1.1, h1.2, h2.1, h2.2, hb, hs]
    exact ⟨rfl, rfl⟩

/-- Witness for C21: the default shake (amplitude 1, frequency 1) of a speaking state at
`globalTime = 3`, and the same state when it does not speak. -/
theorem shake_jitter_witness :
    |Real.sin ((3 : ℝ) * 50 * 1 * PI ℝ) * 1| ≤ (1 : ℝ) ∧
    (computeRenderGeometry Real.sin Real.cos 512 512 800 600
        { MainLoopState.initial ℝ with globalTime := 3 } 3 1 1 (fun _ => 0) (fun _ => 0)).dstX
      = (((800 : Int) : ℝ) - (computeRenderGeometry Real.sin Real.cos 512 512 800 600
          { MainLoopState.initial ℝ with globalTime := 3 } 3 1 1
          (fun _ => 0) (fun _ => 0)).dstW) / 2 + 0 + 0 * 1 :=
  ⟨((shake_jitter 512 512 800 600
      { MainLoopState.initial ℝ with speak := true, globalTime := 3 } 3 1 1
      (fun _ => 0) (fun _ => 0)).1 ⟨by norm_num, by norm_num, rfl⟩).2.2.1,
   ((shake_jitter 512 512 800 600
      { MainLoopState.initial ℝ with globalTime := 3 } 3 1 1
      (fun _ => 0) (fun _ => 0)).2.1 (fun h => Bool.noConfusion h.2.2)).1⟩

/-! ### Source rectangle -/

/-- The source rectangle returned by `computeRenderGeometry`, for every input. -/
theorem computeRenderGeometry_src {F : Type} [LinearOrderedField F] [FloorRing F]
    (sin cos : F → F) (spriteW spriteH winW winH : Int) (s : MainLoopState F)
    (frameIndex : Int) (shakingAmp shakingFreq : F) (baseOffsetX baseOffsetY : Int → F) :
    (computeRenderGeometry sin cos spriteW spriteH winW winH s frameIndex
        shakingAmp shakingFreq baseOffsetX baseOffsetY).srcX
      = Int.tmod frameIndex 2 * Int.tdiv spriteW 2 ∧
    (computeRenderGeometry sin cos spriteW spriteH winW winH s frameIndex
        shakingAmp shakingFreq baseOffsetX baseOffsetY).srcY
      = Int.tdiv frameIndex 2 * Int.tdiv spriteH 2 ∧
    (computeRenderGeometry sin cos spriteW spriteH winW winH s frameIndex
        shakingAmp shakingFreq baseOffsetX baseOffsetY).srcW = Int.tdiv spriteW 2 ∧
    (computeRenderGeometry sin cos spriteW spriteH winW winH s frameIndex
        shakingAmp shakingFreq baseOffsetX baseOffsetY).srcH = Int.tdiv spriteH 2 := by
  unfold computeRenderGeometry
  refine ⟨?_, ?_, ?_, ?_⟩ <;> split_ifs <;> rfl

/-- Claim C23. For a sprite sheet of width `W ≥ 0` and height `H ≥ 0` and a frame index
`i` in `{0, 1, 2, 3}`, `computeRenderGeometry` returns the source rectangle
`srcX = (i % 2) * (W / 2)`, `srcY = (i / 2) * (H / 2)`, `srcW = W / 2`, `srcH = H / 2`
(integer division); the rectangle lies inside the image, and no pixel position belongs
to the source rectangles of two different frame indices. -/
theorem source_rect_in_image {F : Type} [LinearOrderedField F] [FloorRing F]
    (sin cos : F → F) (W H winW winH : Int) (s : MainLoopState F)
    (shakingAmp shakingFreq : F) (baseOffsetX baseOffsetY : Int → F)
    (hW : 0 ≤ W) (hH : 0 ≤ H) :
    (∀ i : Int, 0 ≤ i → i ≤ 3 →
      (computeRenderGeometry sin cos W H winW winH s i
          shakingAmp shakingFreq baseOffsetX baseOffsetY).srcX = (i % 2) * (W / 2) ∧
      (computeRenderGeometry sin cos W H winW winH s i
          shakingAmp shakingFreq baseOffsetX baseOffsetY).srcY = (i / 2) * (H / 2) ∧
      (computeRenderGeometry sin cos W H winW winH s i
          shakingAmp shakingFreq baseOffsetX baseOffsetY).srcW = W / 2 ∧
      (computeRenderGeometry sin cos W H winW winH s i
          shakingAmp shakingFreq baseOffsetX baseOffsetY).srcH = H / 2 ∧
      0 ≤ (computeRenderGeometry sin cos W H winW winH s i
          shakingAmp shakingFreq baseOffsetX baseOffsetY).srcX ∧
      0 ≤ (computeRenderGeometry sin cos W H winW winH s i
          shakingAmp shakingFreq baseOffsetX baseOffsetY).srcY ∧
      (computeRenderGeometry sin cos W H winW winH s i
          shakingAmp shakingFreq baseOffsetX baseOffsetY).srcX
        + (computeRenderGeometry sin cos W H winW winH s i
          shakingAmp shakingFreq baseOffsetX baseOffsetY).srcW ≤ W ∧
      (computeRenderGeometry sin cos W H winW winH s i
          shakingAmp shakingFreq baseOffsetX baseOffsetY).srcY
        + (computeRenderGeometry sin cos W H winW winH s i
          shakingAmp shakingFreq baseOffsetX baseOffsetY).srcH ≤ H) ∧
    (∀ i j : Int, 0 ≤ i → i ≤ 3 → 0 ≤ j → j ≤ 3 → i ≠ j → ∀ x y : Int,
      ¬ (((computeRenderGeometry sin cos W H winW winH s i
              shakingAmp shakingFreq baseOffsetX baseOffsetY).srcX ≤ x ∧
          x < (computeRenderGeometry sin cos W H winW winH s i
              shakingAmp shakingFreq baseOffsetX baseOffsetY).srcX
            + (computeRenderGeometry sin cos W H winW winH s i
              shakingAmp shakingFreq baseOffsetX baseOffsetY).srcW ∧
          (computeRenderGeometry sin cos W H winW winH s i
              shakingAmp shakingFreq baseOffsetX baseOffsetY).srcY ≤ y ∧
          y < (computeRenderGeometry sin cos W H winW winH s i
              shakingAmp shakingFreq baseOffsetX baseOffsetY).srcY
            + (computeRenderGeometry sin cos W H winW winH s i
              shakingAmp shakingFreq baseOffsetX baseOffsetY).srcH) ∧
        ((computeRenderGeometry sin cos W H winW winH s j
              shakingAmp shakingFreq baseOffsetX baseOffsetY).srcX ≤ x ∧
          x < (computeRenderGeometry sin cos W H winW winH s j
              shakingAmp shakingFreq baseOffsetX baseOffsetY).srcX
            + (computeRenderGeometry sin cos W H winW winH s j
              shakingAmp shakingFreq baseOffsetX baseOffsetY).srcW ∧
          (computeRenderGeometry sin cos W H winW winH s j
              shakingAmp shakingFreq baseOffsetX baseOffsetY).srcY ≤ y ∧
          y < (computeRenderGeometry sin cos W H winW winH s j
              shakingAmp shakingFreq baseOffsetX baseOffsetY).srcY
            + (computeRenderGeometry sin cos W H winW winH s j
              shakingAmp shakingFreq baseOffsetX baseOffsetY).srcH))) := by
  have hqW : Int.tdiv W 2 = W / 2 := Int.tdiv_eq_ediv hW (by decide)
  have hqH : Int.tdiv H 2 = H / 2 := Int.tdiv_eq_ediv hH (by decide)
  have hsrc : ∀ i : Int, 0 ≤ i →
      (computeRenderGeometry sin cos W H winW winH s i
          shakingAmp shakingFreq baseOffsetX baseOffsetY).srcX = (i % 2) * (W / 2) ∧
      (computeRenderGeometry sin cos W H winW winH s i
          shakingAmp shakingFreq baseOffsetX baseOffsetY).srcY = (i / 2) * (H / 2) ∧
      (computeRenderGeometry sin cos W H winW winH s i
          shakingAmp shakingFreq baseOffsetX baseOffsetY).srcW = W / 2 ∧
      (computeRenderGeometry sin cos W H winW winH s i
          shakingAmp shakingFreq baseOffsetX baseOffsetY).srcH = H / 2 := by
    intro i hi
    have h := computeRenderGeometry_src sin cos W H winW winH s i
      shakingAmp shakingFreq baseOffsetX baseOffsetY
    rw [hqW, hqH, Int.tmod_eq_emod hi (by decide), Int.tdiv_eq_ediv hi (by decide)] at h
    exact h
  have hw2 : 0 ≤ W / 2 ∧ 2 * (W / 2) ≤ W := by omega
  have hh2 : 0 ≤ H / 2 ∧ 2 * (H / 2) ≤ H := by omega
  constructor
  · intro i hi0 hi3
    obtain ⟨h1, h2, h3, h4⟩ := hsrc i hi0
    have ha : i % 2 = 0 ∨ i % 2 = 1 := by omega
    have hb : i / 2 = 0 ∨ i / 2 = 1 := by omega
    refine ⟨h1, h2, h3, h4, ?_, ?_, ?_, ?_⟩
    · rw [h1]
      rcases ha with ha | ha <;> rw [ha] <;> omega
    · rw [h2]
      rcases hb with hb | hb <;> rw [hb] <;> omega
    · rw [h1, h3]
      rcases ha with ha | ha <;> rw [ha] <;> omega
    · rw [h2, h4]
      rcases hb with hb | hb <;> rw [hb] <;> omega
  · intro i j hi0 hi3 hj0 hj3 hij x y
    obtain ⟨h1, h2, h3, h4⟩ := hsrc i hi0
    obtain ⟨k1, k2, k3, k4⟩ := hsrc j hj0
    rw [h1, h2, h3, h4, k1, k2, k3, k4]
    have hne : i % 2 ≠ j % 2 ∨ i / 2 ≠ j / 2 := by omega
    have ha : i % 2 = 0 ∨ i % 2 = 1 := by omega
    have hb : i / 2 = 0 ∨ i / 2 = 1 := by omega
    have hc : j % 2 = 0 ∨ j % 2 = 1 := by omega
    have hd : j / 2 = 0 ∨ j / 2 = 1 := by omega
    have key : ∀ a b c d q r : Int, (a = 0 ∨ a = 1) → (b = 0 ∨ b = 1) → (c = 0 ∨ c = 1) →
        (d = 0 ∨ d = 1) → (a ≠ c ∨ b ≠ d) → 0 ≤ q → 0 ≤ r →
        ¬ ((a * q ≤ x ∧ x < a * q + q ∧ b * r ≤ y ∧ y < b * r + r) ∧
          (c * q ≤ x ∧ x < c * q + q ∧ d * r ≤ y ∧ y < d * r + r)) := by
      intro a b c d q r ha hb hc hd hne hq hr
      rcases ha with rfl | rfl <;> rcases hb with rfl | rfl <;> rcases hc with rfl | rfl <;>
        rcases hd with rfl | rfl <;> simp only [zero_mul, one_mul] <;> omega
    exact key _ _ _ _ _ _ ha hb hc hd hne hw2.1 hh2.1

/-- Witness for C23: a sheet of 7 x 5 pixels (quadrants of 3 x 2 pixels) and the frame
index 3: the source rectangle starts at (3, 2) and ends at (6, 4), inside the image. -/
theorem source_rect_in_image_witness :
    (computeRenderGeometry (fun x : ℚ => x) (fun x : ℚ => x) 7 5 800 600
        (MainLoopState.initial ℚ) 3 1 1 (fun _ => 0) (fun _ => 0)).srcX = (3 % 2) * (7 / 2) ∧
    (computeRenderGeometry (fun x : ℚ => x) (fun x : ℚ => x) 7 5 800 600
        (MainLoopState.initial ℚ) 3 1 1 (fun _ => 0) (fun _ => 0)).srcX
      + (computeRenderGeometry (fun x : ℚ => x) (fun x : ℚ => x) 7 5 800 600
        (MainLoopState.initial ℚ) 3 1 1 (fun _ => 0) (fun _ => 0)).srcW ≤ 7 :=
  ⟨((source_rect_in_image (fun x : ℚ => x) (fun x : ℚ => x) 7 5 800 600
      (MainLoopState.initial ℚ) 1 1 (fun _ => 0) (fun _ => 0) (by decide) (by decide)).1
      3 (by decide) (by decide)).1,
   ((source_rect_in_image (fun x : ℚ => x) (fun x : ℚ => x) 7 5 800 600
      (MainLoopState.initial ℚ) 1 1 (fun _ => 0) (fun _ => 0) (by decide) (by decide)).1
      3 (by decide) (by decide)).2.2.2.2.2.2.1⟩

/-- The four source rectangles of a sheet of 7 x 5 pixels: quadrants of 3 x 2 pixels at
(0,0), (3,0), (0,2) and (3,2); the last column and the last row of the sheet belong to
no quadrant. -/
theorem source_rect_example (i : Int) (hi0 : 0 ≤ i) (hi3 : i ≤ 3) :
    ((computeRenderGeometry (fun x : ℚ => x) (fun x : ℚ => x) 7 5 800 600
        (MainLoopState.initial ℚ) i 1 1 (fun _ => 0) (fun _ => 0)).srcX,
     (computeRenderGeometry (fun x : ℚ => x) (fun x : ℚ => x) 7 5 800 600
        (MainLoopState.initial ℚ) i 1 1 (fun _ => 0) (fun _ => 0)).srcY,
     (computeRenderGeometry (fun x : ℚ => x) (fun x : ℚ => x) 7 5 800 600
        (MainLoopState.initial ℚ) i 1 1 (fun _ => 0) (fun _ => 0)).srcW,
     (computeRenderGeometry (fun x : ℚ => x) (fun x : ℚ => x) 7 5 800 600
        (MainLoopState.initial ℚ) i 1 1 (fun _ => 0) (fun _ => 0)).srcH)
      = (if i = 0 then (0, 0, 3, 2) else if i = 1 then (3, 0, 3, 2)
          else if i = 2 then (0, 2, 3, 2) else (3, 2, 3, 2)) := by
  have h := computeRenderGeometry_src (fun x : ℚ => x) (fun x : ℚ => x) 7 5 800 600
    (MainLoopState.initial ℚ) i 1 1 (fun _ => 0) (fun _ => 0)
  rw [h.1, h.2.1, h.2.2.1, h.2.2.2]
  interval_cases i <;> decide

/-! ### Dragging -/

/-- A pointer motion while dragging adds the motion delta to the offset and moves the
drag origin to the pointer position. -/
theorem handleEvent_motion_dragging {F : Type} [LinearOrderedField F] (ctx : AppContext F)
    (t : MainLoopState F) (x y : Int) (hd : t.dragging = true) :
    handleEvent ctx t (Event.mouseMotion x y)
      = { t with offsetX := t.offsetX + ((x - t.dragStartX : Int) : F),
                 offsetY := t.offsetY + ((y - t.dragStartY : Int) : F),
                 dragStartX := x, dragStartY := y } := by
  simp only [handleEvent, hd, if_true]

/-- A pointer motion while not dragging leaves the state as it is. -/
theorem handleEvent_motion_idle {F : Type} [LinearOrderedField F] (ctx : AppContext F)
    (t : MainLoopState F) (x y : Int) (hd : t.dragging = false) :
    handleEvent ctx t (Event.mouseMotion x y) = t := by
  simp [handleEvent, hd]

/-- A sequence of pointer motions while dragging: the sum of the offset and the
distance still to be credited is invariant, the drag origin follows the pointer. -/
theorem handleEvents_motions {F : Type} [LinearOrderedField F] (ctx : AppContext F)
    (moves : List (Int × Int)) (t : MainLoopState F) (hd : t.dragging = true) :
    (handleEvents ctx t (moves.map fun p => Event.mouseMotion p.1 p.2)).dragging = true ∧
    (handleEvents ctx t (moves.map fun p => Event.mouseMotion p.1 p.2)).scale = t.scale ∧
    (handleEvents ctx t (moves.map fun p => Event.mouseMotion p.1 p.2)).dragStartX
      = (moves.getLast?.getD (t.dragStartX, t.dragStartY)).1 ∧
    (handleEvents ctx t (moves.map fun p => Event.mouseMotion p.1 p.2)).dragStartY
      = (moves.getLast?.getD (t.dragStartX, t.dragStartY)).2 ∧
    (handleEvents ctx t (moves.map fun p => Event.mouseMotion p.1 p.2)).offsetX
      = t.offsetX
        + (((moves.getLast?.getD (t.dragStartX, t.dragStartY)).1 - t.dragStartX : Int) : F) ∧
    (handleEvents ctx t (moves.map fun p => Event.mouseMotion p.1 p.2)).offsetY
      = t.offsetY
        + (((moves.getLast?.getD (t.dragStartX, t.dragStartY)).2 - t.dragStartY : Int) : F) := by
  induction moves using List.reverseRecOn with
  | nil =>
    simp [handleEvents, hd]
  | append_singleton l p ih =>
    obtain ⟨h1, h2, h3, h4, h5, h6⟩ := ih
    have hstep : handleEvents ctx t ((l ++ [p]).map fun p => Event.mouseMotion p.1 p.2)
        = handleEvent ctx (handleEvents ctx t (l.map fun p => Event.mouseMotion p.1 p.2))
            (Event.mouseMotion p.1 p.2) := by
      simp [handleEvents, List.foldl_append]
    rw [hstep, handleEvent_motion_dragging ctx _ p.1 p.2 h1, List.getLast?_concat]
    refine ⟨h1, h2, rfl, rfl, ?_, ?_⟩
    · show (handleEvents ctx t (l.map fun p => Event.mouseMotion p.1 p.2)).offsetX
          + ((p.1 - (handleEvents ctx t (l.map fun p => Event.mouseMotion p.1 p.2)).dragStartX
              : Int) : F)
        = t.offsetX + ((p.1 - t.dragStartX : Int) : F)
      rw [h5, h3]
      push_cast
      ring
    · show (handleEvents ctx t (l.map fun p => Event.mouseMotion p.1 p.2)).offsetY
          + ((p.2 - (handleEvents ctx t (l.map fun p => Event.mouseMotion p.1 p.2)).dragStartY
              : Int) : F)
        = t.offsetY + ((p.2 - t.dragStartY : Int) : F)
      rw [h6, h4]
      push_cast
      ring

/-- A left press with the menu closed that is not a double click starts a drag at the
pointer position and leaves offset and scale as they are. -/
theorem handleEvent_press_starts_drag {F : Type} [LinearOrderedField F] (ctx : AppContext F)
    (s : MainLoopState F) (x0 y0 : Int) (ticks : Nat)
    (hmenu : s.showContextMenu = false)
    (hsingle : isDoubleClick s x0 y0 (ticks % 2 ^ 32) = false) :
    handleEvent ctx s (Event.mouseButtonDown MouseButton.left x0 y0 ticks)
      = { s with dragging := true, dragStartX := x0, dragStartY := y0,
                 lastLeftClickTime := ticks % 2 ^ 32, lastLeftClickX := x0,
                 lastLeftClickY := y0 } := by
  simp only [handleEvent, hmenu, hsingle, Bool.false_eq_true, if_false]

/-- Claim C22. A left press at `(x0, y0)` with the menu closed that is not a double click
starts a drag and leaves the offset as it is; after any sequence of pointer motions
`p1, ..., pn` that follows the press, the offset is the offset at the press plus
`pn - (x0, y0)` (for `n = 0` the offset at the press), the scale is the scale at the
press and the drag is still on.  A pointer motion while not dragging leaves the state,
and so the offset, as it is; a release of the left button sets `dragging = false` and
changes nothing else. -/
theorem drag_telescopes {F : Type} [LinearOrderedField F] (ctx : AppContext F)
    (s : MainLoopState F) (x0 y0 : Int) (ticks : Nat) (moves : List (Int × Int))
    (hmenu : s.showContextMenu = false)
    (hsingle : isDoubleClick s x0 y0 (ticks % 2 ^ 32) = false) :
    (handleEvent ctx s (Event.mouseButtonDown MouseButton.left x0 y0 ticks)).dragging = true ∧
    (handleEvent ctx s (Event.mouseButtonDown MouseButton.left x0 y0 ticks)).offsetX
      = s.offsetX ∧
    (handleEvent ctx s (Event.mouseButtonDown MouseButton.left x0 y0 ticks)).offsetY
      = s.offsetY ∧
    (handleEvents ctx s (Event.mouseButtonDown MouseButton.left x0 y0 ticks
        :: moves.map fun p => Event.mouseMotion p.1 p.2)).offsetX
      = s.offsetX + ((((moves.getLast?.getD (x0, y0)).1 - x0 : Int)) : F) ∧
    (handleEvents ctx s (Event.mouseButtonDown MouseButton.left x0 y0 ticks
        :: moves.map fun p => Event.mouseMotion p.1 p.2)).offsetY
      = s.offsetY + ((((moves.getLast?.getD (x0, y0)).2 - y0 : Int)) : F) ∧
    (handleEvents ctx s (Event.mouseButtonDown MouseButton.left x0 y0 ticks
        :: moves.map fun p => Event.mouseMotion p.1 p.2)).scale = s.scale ∧
    (handleEvents ctx s (Event.mouseButtonDown MouseButton.left x0 y0 ticks
        :: moves.map fun p => Event.mouseMotion p.1 p.2)).dragging = true ∧
    (∀ (t : MainLoopState F) (x y : Int), t.dragging = false →
      handleEvent ctx t (Event.mouseMotion x y) = t) ∧
    (∀ t : MainLoopState F,
      handleEvent ctx t (Event.mouseButtonUp MouseButton.left) = { t with dragging := false }) := by
  have hpress := handleEvent_press_starts_drag ctx s x0 y0 ticks hmenu hsingle
  have hcons : handleEvents ctx s (Event.mouseButtonDown MouseButton.left x0 y0 ticks
        :: moves.map fun p => Event.mouseMotion p.1 p.2)
      = handleEvents ctx (handleEvent ctx s (Event.mouseButtonDown MouseButton.left x0 y0 ticks))
          (moves.map fun p => Event.mouseMotion p.1 p.2) := by
    simp [handleEvents]
  have hdrag : (handleEvent ctx s
      (Event.mouseButtonDown MouseButton.left x0 y0 ticks)).dragging = true := by
    rw [hpress]
  obtain ⟨m1, m2, _, _, m5, m6⟩ := handleEvents_motions ctx moves _ hdrag
  refine ⟨hdrag, by rw [hpress], by rw [hpress], ?_, ?_, ?_, ?_, ?_, ?_⟩
  · rw [hcons, m5, hpress]
  · rw [hcons, m6, hpress]
  · rw [hcons, m2, hpress]
  · rw [hcons, m1]
  · intro t x y hd
    exact handleEvent_motion_idle ctx t x y hd
  · intro t
    simp [handleEvent]

/-- Witness for C22: in the initial state a press at (10, 10) at 1000 ms followed by
motions to (12, 15) and (30, 5) moves the offset by (20, -5). -/
theorem drag_telescopes_witness :
    (handleEvents (exampleContext ℚ) (MainLoopState.initial ℚ)
      [Event.mouseButtonDown MouseButton.left 10 10 1000, Event.mouseMotion 12 15,
        Event.mouseMotion 30 5]).offsetX = 0 + (((30 - 10 : Int)) : ℚ) ∧
    (handleEvents (exampleContext ℚ) (MainLoopState.initial ℚ)
      [Event.mouseButtonDown MouseButton.left 10 10 1000, Event.mouseMotion 12 15,
        Event.mouseMotion 30 5]).offsetY = 0 + (((5 - 10 : Int)) : ℚ) :=
  ⟨(drag_telescopes (exampleContext ℚ) (MainLoopState.initial ℚ) 10 10 1000
      [(12, 15), (30, 5)] rfl (by decide)).2.2.2.1,
   (drag_telescopes (exampleContext ℚ) (MainLoopState.initial ℚ) 10 10 1000
      [(12, 15), (30, 5)] rfl (by decide)).2.2.2.2.1⟩

/-! ### Main loop -/

/-- The procedure `updateBlinking` leaves `isBreathing` as it is. -/
theorem updateBlinking_isBreathing {F : Type} (ticks : Nat) (s : MainLoopState F) :
    (updateBlinking ticks s).isBreathing = s.isBreathing := by
  simp only [updateBlinking]
  split_ifs <;> rfl

/-- A state with `isBreathing = true` is rendered by `maybeRender`. -/
theorem maybeRender_of_isBreathing {F : Type} (s : MainLoopState F)
    (hb : s.isBreathing = true) :
    maybeRender s = ({ s with prevFrameIndex := frameIndex s }, some (frameIndex s)) := by
  have hn : needsRender s = true := by
    simp [needsRender, hb]
  simp [maybeRender, hn]

/-- With breathing enabled an iteration of the main loop calls `renderFrame`, with the
frame index of the state that `updateBlinking` returns. -/
theorem runTick_renders {F : Type} [LinearOrderedField F] (sqrt sin : F → F)
    (ctx : AppContext F) (s : MainLoopState F) (inp : TickInput F)
    (hon : ctx.cfg.enableBreathing = true) :
    (runTick sqrt sin ctx s inp).2
      = some (frameIndex (updateBlinking inp.ticks (updateBreathing sin ctx.cfg
          (updateAudioState sqrt ctx.cfg inp.stream
            (updateTiming inp.counter (handleEvents ctx s inp.events)))))) := by
  have hb : (updateBlinking inp.ticks (updateBreathing sin ctx.cfg
      (updateAudioState sqrt ctx.cfg inp.stream
        (updateTiming inp.counter (handleEvents ctx s inp.events))))).isBreathing = true := by
    rw [updateBlinking_isBreathing]
    exact updateBreathing_isBreathing sin ctx.cfg _ hon
  simp only [runTick]
  rw [maybeRender_of_isBreathing _ hb]

/-- With breathing enabled every iteration of the main loop that runs calls
`renderFrame`. -/
theorem tickLoop_renders {F : Type} [LinearOrderedField F] (sqrt sin : F → F)
    (ctx : AppContext F) (hon : ctx.cfg.enableBreathing = true)
    (inputs : List (TickInput F)) (s : MainLoopState F) :
    ∀ r ∈ (tickLoop sqrt sin ctx s inputs).2, r ≠ none := by
  induction inputs generalizing s with
  | nil =>
    intro r hr
    simp [tickLoop] at hr
  | cons inp rest ih =>
    intro r hr
    simp only [tickLoop] at hr
    split_ifs at hr with hrun
    · rcases List.mem_cons.mp hr with h | h
      · rw [h, runTick_renders sqrt sin ctx s inp hon]
        exact Option.some_ne_none _
      · exact ih _ r h
    · simp at hr

/-- The main loop runs at most one iteration for each input: it stops at the first
iteration that finds `running = false`. -/
theorem tickLoop_length_le {F : Type} [LinearOrderedField F] (sqrt sin : F → F)
    (ctx : AppContext F) (inputs : List (TickInput F)) (s : MainLoopState F) :
    (tickLoop sqrt sin ctx s inputs).2.length ≤ inputs.length := by
  induction inputs generalizing s with
  | nil => simp [tickLoop]
  | cons inp rest ih =>
    simp only [tickLoop]
    split_ifs
    · simp only [List.length_cons]
      exact Nat.succ_le_succ (ih _)
    · simp

/-- An iteration of the main loop that skips the render has breathing disabled. -/
theorem runTick_skip_breathing_disabled {F : Type} [LinearOrderedField F] (sqrt sin : F → F)
    (ctx : AppContext F) (s : MainLoopState F) (inp : TickInput F)
    (hskip : (runTick sqrt sin ctx s inp).2 = none) :
    ctx.cfg.enableBreathing = false := by
  cases hon : ctx.cfg.enableBreathing
  · rfl
  · rw [runTick_renders sqrt sin ctx s inp hon] at hskip
    cases hskip

/-- With breathing disabled the render is skipped in an idle iteration: no event, no
audio stream, no blink due, and the pose 0 rendered last. -/
theorem runTick_skip_example :
    (runTick (fun x : ℚ => x) (fun x : ℚ => x)
      { exampleContext ℚ with cfg := { AppConfig.default ℚ with enableBreathing := false } }
      { MainLoopState.initial ℚ with prevFrameIndex := 0 }
      { events := [], counter := 0, stream := none, ticks := 0, globalRunning := true }).2
      = none := by
  rfl

/-- Claim C24. When breathing is enabled, `updateBreathing` returns a state with
`isBreathing = true` whatever the state before the call is (`speak`, `prevSpeak` and
the previous `isBreathing` included); hence `maybeRender` calls `renderFrame` when it
follows `updateBreathing`, directly or with `updateBlinking` in between as in the main
loop, every iteration of the main loop calls `renderFrame`, and the branch of
`maybeRender` that skips the render is not taken in any iteration. -/
theorem breathing_renders_every_tick {F : Type} [LinearOrderedField F] (sqrt sin : F → F)
    (ctx : AppContext F) (hon : ctx.cfg.enableBreathing = true) :
    (∀ s : MainLoopState F, (updateBreathing sin ctx.cfg s).isBreathing = true) ∧
    (∀ s : MainLoopState F,
      (maybeRender (updateBreathing sin ctx.cfg s)).2
        = some (frameIndex (updateBreathing sin ctx.cfg s))) ∧
    (∀ (s : MainLoopState F) (ticks : Nat),
      (maybeRender (updateBlinking ticks (updateBreathing sin ctx.cfg s))).2
        = some (frameIndex (updateBlinking ticks (updateBreathing sin ctx.cfg s)))) ∧
    (∀ (s : MainLoopState F) (inp : TickInput F), (runTick sqrt sin ctx s inp).2 ≠ none) ∧
    (∀ (s : MainLoopState F) (inputs : List (TickInput F)),
      ∀ r ∈ (tickLoop sqrt sin ctx s inputs).2, r ≠ none) := by
  refine ⟨fun s => updateBreathing_isBreathing sin ctx.cfg s hon, fun s => ?_,
    fun s ticks => ?_, fun s inp => ?_, fun s inputs => tickLoop_renders sqrt sin ctx hon inputs s⟩
  · rw [maybeRender_of_isBreathing _ (updateBreathing_isBreathing sin ctx.cfg s hon)]
  · have hb : (updateBlinking ticks (updateBreathing sin ctx.cfg s)).isBreathing = true := by
      rw [updateBlinking_isBreathing]
      exact updateBreathing_isBreathing sin ctx.cfg s hon
    rw [maybeRender_of_isBreathing _ hb]
  · rw [runTick_renders sqrt sin ctx s inp hon]
    exact Option.some_ne_none _

/-- Witness for C24: the default configuration (breathing enabled) and the idle
iteration of `runTick_skip_example`: the frame is rendered. -/
theorem breathing_renders_every_tick_witness :
    (runTick (fun x : ℚ => x) (fun x : ℚ => x) (exampleContext ℚ)
      { MainLoopState.initial ℚ with prevFrameIndex := 0 }
      { events := [], counter := 0, stream := none, ticks := 0, globalRunning := true }).2
      ≠ none :=
  (breathing_renders_every_tick (fun x : ℚ => x) (fun x : ℚ => x) (exampleContext ℚ) rfl).2.2.2.1
    { MainLoopState.initial ℚ with prevFrameIndex := 0 }
    { events := [], counter := 0, stream := none, ticks := 0, globalRunning := true }

/-! ### Rounded arithmetic -/

/-- A rational number that differs from the integer `m` by less than one half is rounded
to `m`. -/
theorem roundHalfEven_eval (x : ℚ) (m : Int) (h1 : (m : ℚ) - 1 / 2 < x)
    (h2 : x < (m : ℚ) + 1 / 2) : roundHalfEven x = m := by
  unfold roundHalfEven
  by_cases hx : (m : ℚ) ≤ x
  · have hf : ⌊x⌋ = m := by
      rw [Int.floor_eq_iff]
      exact ⟨hx, by linarith⟩
    simp only [hf]
    rw [if_pos (by linarith)]
  · have hf : ⌊x⌋ = m - 1 := by
      rw [Int.floor_eq_iff]
      push_cast
      push_neg at hx
      exact ⟨by linarith, by linarith⟩
    simp only [hf]
    push_cast
    rw [if_neg (by linarith), if_pos (by linarith)]
    ring

/-- An integer is rounded to itself. -/
theorem roundHalfEven_intCast (m : Int) : roundHalfEven (m : ℚ) = m :=
  roundHalfEven_eval _ m (by linarith) (by linarith)

/-- Evaluation of `roundBinary`: for `2 ^ e ≤ |x| < 2 ^ (e + 1)` with `emin ≤ e`, the
result is `m * 2 ^ (e - (p - 1))` for the integer `m` nearest to `x / 2 ^ (e - (p - 1))`. -/
theorem roundBinary_eval (p : Nat) (emin : Int) (x : ℚ) (e m : Int) (hemin : emin ≤ e)
    (hlo : (2 : ℚ) ^ e ≤ |x|) (hhi : |x| < (2 : ℚ) ^ (e + 1))
    (hm1 : (m : ℚ) - 1 / 2 < x / (2 : ℚ) ^ (e - ((p : Int) - 1)))
    (hm2 : x / (2 : ℚ) ^ (e - ((p : Int) - 1)) < (m : ℚ) + 1 / 2) :
    roundBinary p emin x = (m : ℚ) * (2 : ℚ) ^ (e - ((p : Int) - 1)) := by
  have hpos : 0 < |x| := lt_of_lt_of_le (by positivity) hlo
  have hx : x ≠ 0 := abs_pos.mp hpos
  have hlog : Int.log 2 |x| = e := by
    apply le_antisymm
    · have := (Int.lt_zpow_iff_log_lt (b := 2) (by norm_num) hpos (x := e + 1)).mp
        (by exact_mod_cast hhi)
      omega
    · exact (Int.zpow_le_iff_le_log (b := 2) (by norm_num) hpos).mp (by exact_mod_cast hlo)
  unfold roundBinary
  rw [if_neg hx]
  simp only [hlog, max_eq_left hemin]
  rw [roundHalfEven_eval _ m hm1 hm2]

/-- A value `m * 2 ^ k` with `|m| < 2 ^ p` and `k` not below the exponent of the least
subnormal number is representable: rounding returns it. -/
theorem roundBinary_of_representable (p : Nat) (emin : Int) (m k : Int)
    (hm : |m| < 2 ^ p) (hk : emin - ((p : Int) - 1) ≤ k) :
    roundBinary p emin ((m : ℚ) * (2 : ℚ) ^ k) = (m : ℚ) * (2 : ℚ) ^ k := by
  by_cases hm0 : m = 0
  · subst hm0
    simp [roundBinary]
  have h2k : (0 : ℚ) < (2 : ℚ) ^ k := by positivity
  have hmq : (m : ℚ) ≠ 0 := by exact_mod_cast hm0
  have hx : (m : ℚ) * (2 : ℚ) ^ k ≠ 0 := mul_ne_zero hmq h2k.ne'
  have hpos : 0 < |(m : ℚ) * (2 : ℚ) ^ k| := abs_pos.mpr hx
  have hlt : |(m : ℚ) * (2 : ℚ) ^ k| < (2 : ℚ) ^ ((p : Int) + k) := by
    rw [abs_mul, abs_of_pos h2k, zpow_add₀ (by norm_num : (2 : ℚ) ≠ 0), zpow_natCast]
    have : |(m : ℚ)| < (2 : ℚ) ^ p := by exact_mod_cast hm
    exact mul_lt_mul_of_pos_right this h2k
  have hlog : Int.log 2 |(m : ℚ) * (2 : ℚ) ^ k| < (p : Int) + k :=
    (Int.lt_zpow_iff_log_lt (b := 2) (by norm_num) hpos).mp (by exact_mod_cast hlt)
  have he : max (Int.log 2 |(m : ℚ) * (2 : ℚ) ^ k|) emin - ((p : Int) - 1) ≤ k := by
    rcases max_cases (Int.log 2 |(m : ℚ) * (2 : ℚ) ^ k|) emin with ⟨h, _⟩ | ⟨h, _⟩ <;>
      rw [h] <;> omega
  unfold roundBinary
  rw [if_neg hx]
  simp only []
  generalize max (Int.log 2 |(m : ℚ) * (2 : ℚ) ^ k|) emin - ((p : Int) - 1) = u at he ⊢
  obtain ⟨n, rfl⟩ : ∃ n : Nat, k = u + (n : Int) := ⟨(k - u).toNat, by omega⟩
  have hq : (m : ℚ) * (2 : ℚ) ^ (u + (n : Int)) / (2 : ℚ) ^ u = ((m * 2 ^ n : Int) : ℚ) := by
    rw [zpow_add₀ (by norm_num : (2 : ℚ) ≠ 0), zpow_natCast]
    push_cast
    field_simp
    ring
  rw [hq, roundHalfEven_intCast]
  rw [zpow_add₀ (by norm_num : (2 : ℚ) ≠ 0), zpow_natCast]
  push_cast
  ring

/-- An integer below `2 ^ 24` in absolute value is a `float`. -/
theorem roundF32_intCast (n : Int) (hn : |n| < 2 ^ 24) : roundF32 (n : ℚ) = (n : ℚ) := by
  have h := roundBinary_of_representable 24 (-126) n 0 hn (by norm_num)
  simpa [roundF32] using h

/-- An odd multiple of one half below `2 ^ 23` in absolute value is a `float`. -/
theorem roundF32_half (n : Int) (hn : |n| < 2 ^ 24) : roundF32 ((n : ℚ) / 2) = (n : ℚ) / 2 := by
  have h := roundBinary_of_representable 24 (-126) n (-1) hn (by norm_num)
  have e : (n : ℚ) * (2 : ℚ) ^ (-1 : Int) = (n : ℚ) / 2 := by
    rw [zpow_neg, zpow_one]
    ring
  rw [e] at h
  exact h

/-- Zero is a `float`. -/
theorem roundF32_zero : roundF32 0 = 0 := by
  simp [roundF32, roundBinary]

/-- With `fl32 = fl64 = id` the geometry with rounded arithmetic is the geometry in exact
arithmetic. -/
theorem computeRenderGeometryRounded_id {F : Type} [LinearOrderedField F] [FloorRing F]
    (sin cos : F → F) (spriteW spriteH winW winH : Int) (s : MainLoopState F)
    (frameIndex : Int) (shakingAmp shakingFreq : F) (baseOffsetX baseOffsetY : Int → F) :
    computeRenderGeometryRounded id id sin cos spriteW spriteH winW winH s frameIndex
        shakingAmp shakingFreq baseOffsetX baseOffsetY
      = computeRenderGeometry sin cos spriteW spriteH winW winH s frameIndex
        shakingAmp shakingFreq baseOffsetX baseOffsetY := rfl

/-- With `fl32 = id` the rounded `lerpUint8` is the exact one. -/
theorem lerpUint8Rounded_id {F : Type} [LinearOrderedField F] [FloorRing F]
    (a b : Fin 256) (t : F) : lerpUint8Rounded id a b t = lerpUint8 a b t := rfl

/-- With `fl32 = id` the rounded `sampleBilinear` is the exact one. -/
theorem sampleBilinearRounded_id {F : Type} [LinearOrderedField F] [FloorRing F]
    (src : Option Surface) (u v : F) :
    sampleBilinearRounded id src u v = sampleBilinear src u v := rfl

/-- With `fl32 = id` the rounded loop body is the exact one. -/
theorem pixelBodyRounded_id {F : Type} [LinearOrderedField F] [FloorRing F]
    (surface : Surface) (srcFmt dstFmt : PixelFormat) (geom : RenderGeometry F) (x y : Int)
    (dstPixel : Nat) :
    pixelBodyRounded id surface srcFmt dstFmt geom x y dstPixel
      = pixelBody surface srcFmt dstFmt geom x y dstPixel := rfl

/-- With `fl32 = fl64 = id` the rounded rasteriser is the exact one. -/
theorem rasterizeRounded_id {F : Type} [LinearOrderedField F] [FloorRing F]
    (sin cos : F → F) (ctx : AppContext F) (s : MainLoopState F) (sp : SpriteList F)
    (win : Surface) (frameIndex : Int) :
    rasterizeRounded id id sin cos ctx s sp win frameIndex
      = rasterize sin cos ctx s sp win frameIndex := by
  have hbody : ∀ (surface : Surface) (srcFmt dstFmt : PixelFormat) (geom : RenderGeometry F),
      pixelBodyRounded id surface srcFmt dstFmt geom = pixelBody surface srcFmt dstFmt geom :=
    fun _ _ _ _ => rfl
  simp only [rasterizeRounded, rasterize, computeRenderGeometryRounded_id, hbody, id_eq]

/-- With `fl32 = fl64 = id` the rounded `renderFrameCpu` is the exact one. -/
theorem renderFrameCpuRounded_id {F : Type} [LinearOrderedField F] [FloorRing F]
    (sin cos : F → F) (ctx : AppContext F) (s : MainLoopState F) (sp : SpriteList F)
    (winSurface : Option Surface) (frameIndex : Int) :
    renderFrameCpuRounded id id sin cos ctx s sp winSurface frameIndex
      = renderFrameCpu sin cos ctx s sp winSurface frameIndex := by
  simp only [renderFrameCpuRounded, renderFrameCpu, rasterizeRounded_id]

/-- The quotient `150.0f / 250.0f`, the aspect ratio of a quadrant of 150 x 250 pixels:
`0.60000002384185791015625`, above 3/5. -/
theorem roundF32_three_fifths : roundF32 ((150 : ℚ) / 250) = 10066330 / 16777216 := by
  have h := roundBinary_eval 24 (-126) ((150 : ℚ) / 250) (-1) 10066330 (by norm_num)
    (by rw [abs_of_pos (by norm_num)]; norm_num) (by rw [abs_of_pos (by norm_num)]; norm_num)
    (by norm_num) (by norm_num)
  rw [roundF32, h]
  norm_num

/-- The product `500.0f * aspect` is `300.0f`. -/
theorem roundF32_width : roundF32 ((500 : ℚ) * (10066330 / 16777216)) = 300 := by
  have h := roundBinary_eval 24 (-126) ((500 : ℚ) * (10066330 / 16777216)) 8 9830400
    (by norm_num)
    (by rw [abs_of_pos (by norm_num)]; norm_num) (by rw [abs_of_pos (by norm_num)]; norm_num)
    (by norm_num) (by norm_num)
  rw [roundF32, h]
  norm_num

/-- The quotient `300.0f / aspect` is `499.999969482421875`, below 500. -/
theorem roundF32_height : roundF32 ((300 : ℚ) / (10066330 / 16777216)) = 16383999 / 32768 := by
  have h := roundBinary_eval 24 (-126) ((300 : ℚ) / (10066330 / 16777216)) 8 16383999
    (by norm_num)
    (by rw [abs_of_pos (by norm_num)]; norm_num) (by rw [abs_of_pos (by norm_num)]; norm_num)
    (by norm_num) (by norm_num)
  rw [roundF32, h]
  norm_num

/-- The quotient `1.0f / 499.0f`, the value of `invDstH`, lies above 1/499. -/
theorem roundF32_inv_height : roundF32 ((1 : ℚ) / 499) = 8607149 / 4294967296 := by
  have h := roundBinary_eval 24 (-126) ((1 : ℚ) / 499) (-9) 8607149
    (by norm_num)
    (by rw [abs_of_pos (by norm_num)]; norm_num) (by rw [abs_of_pos (by norm_num)]; norm_num)
    (by norm_num) (by norm_num)
  rw [roundF32, h]
  norm_num

/-- The product `499.0f * invDstH` is `1.0f`. -/
theorem roundF32_last_row : roundF32 ((499 : ℚ) * (8607149 / 4294967296)) = 1 := by
  have h := roundBinary_eval 24 (-126) ((499 : ℚ) * (8607149 / 4294967296)) 0 8388608
    (by norm_num)
    (by rw [abs_of_pos (by norm_num)]; norm_num) (by rw [abs_of_pos (by norm_num)]; norm_num)
    (by norm_num) (by norm_num)
  rw [roundF32, h]
  norm_num

/-- The geometry of a sheet of 300 x 500 pixels in a window of 300 x 500 pixels, computed
in binary32 from the initial state: the destination height is 499 and `dstY` is 0.5. -/
theorem computeRenderGeometryRounded_tall (sin cos : ℚ → ℚ) (shakingAmp shakingFreq : ℚ) :
    computeRenderGeometryRounded roundF32 roundF64 sin cos 300 500 300 500
        (MainLoopState.initial ℚ) 0 shakingAmp shakingFreq (fun _ => 0) (fun _ => 0)
      = { dstX := 0, dstY := 1 / 2, dstW := 300, dstH := 499,
          srcX := 0, srcY := 0, srcW := 150, srcH := 250 } := by
  have q1 : Int.tdiv 300 2 = 150 := by decide
  have q2 : Int.tdiv 500 2 = 250 := by decide
  have m0 : Int.tmod 0 2 = 0 := by decide
  have d0 : Int.tdiv 0 2 = 0 := by decide
  have i1 : roundF32 (1 : ℚ) = 1 := by
    simpa using roundF32_intCast 1 (by norm_num)
  have i150 : roundF32 (150 : ℚ) = 150 := by
    simpa using roundF32_intCast 150 (by norm_num)
  have i250 : roundF32 (250 : ℚ) = 250 := by
    simpa using roundF32_intCast 250 (by norm_num)
  have i300 : roundF32 (300 : ℚ) = 300 := by
    simpa using roundF32_intCast 300 (by norm_num)
  have i499 : roundF32 (499 : ℚ) = 499 := by
    simpa using roundF32_intCast 499 (by norm_num)
  have i500 : roundF32 (500 : ℚ) = 500 := by
    simpa using roundF32_intCast 500 (by norm_num)
  have ih : roundF32 ((1 : ℚ) / 2.0) = 1 / 2 := by
    have h := roundF32_half 1 (by norm_num)
    norm_num at h ⊢
    exact h
  have t300 : truncInt (300 : ℚ) = 300 := by
    simpa using truncInt_intCast (F := ℚ) 300
  have t499 : truncInt ((16383999 : ℚ) / 32768) = 499 := by
    rw [truncInt_of_nonneg _ (by norm_num), Int.floor_eq_iff]
    norm_num
  have n1 : min (300 : Int) 300 = 300 := by decide
  have n2 : min (500 : Int) 499 = 499 := by decide
  have s1 : (500 : ℚ) - 499 = 1 := by norm_num
  have ih2 : roundF32 ((1 : ℚ) / 2) = 1 / 2 := by
    simpa using roundF32_half 1 (by norm_num)
  simp only [computeRenderGeometryRounded, q1, q2, m0, d0, MainLoopState.initial,
    Int.cast_ofNat, Bool.false_eq_true, and_false, if_false, i150, i250,
    roundF32_three_fifths, i500, roundF32_width, t300, n1, i300, roundF32_height, t499, n2,
    mul_one, i499, sub_self, roundF32_zero, zero_div, add_zero, zero_mul, s1, i1, ih, ih2]

/-- A cell of the frame buffer is left as it was by a sequence of pixel updates in
which every update of that cell is skipped. -/
theorem foldl_shadePixel_skipped (body : Int → Int → Nat → Option Nat) (winW : Int)
    (i : Nat) (l : List (Int × Int))
    (hskip : ∀ p ∈ l, (p.2 * winW + p.1).toNat = i → ∀ d, body p.1 p.2 d = none)
    (fb : List Nat) :
    (l.foldl (fun acc p => shadePixel body winW acc p.1 p.2) fb)[i]? = fb[i]? := by
  induction l generalizing fb with
  | nil => rfl
  | cons q rest ih =>
    rw [List.foldl_cons, ih (fun p hp => hskip p (List.mem_cons_of_mem q hp))]
    unfold shadePixel
    by_cases hq : (q.2 * winW + q.1).toNat = i
    · rw [hskip q (List.mem_cons_self q rest) hq]
    · cases hb : body q.1 q.2 (fb.getD (q.2 * winW + q.1).toNat 0) with
      | none => rfl
      | some v => exact List.getElem?_set_ne hq

/-- If the loop body skips every pixel of the row `y0`, the banded loop leaves the cells
of that row as they were. -/
theorem renderBands_skipped_row (body : Int → Int → Nat → Option Nat)
    (winW dstLeft dstRight dstTop dstBottom : Int) (nThreads : Nat) (hn : 1 ≤ nThreads)
    (fb : List Nat) (y0 x0 : Int) (hw : 0 < winW) (hl : 0 ≤ dstLeft) (hr : dstRight ≤ winW)
    (ht : 0 ≤ dstTop) (hx0 : 0 ≤ x0 ∧ x0 < winW) (hy0 : 0 ≤ y0)
    (hskip : ∀ x d, body x y0 d = none) :
    (renderBands body winW dstLeft dstRight dstTop dstBottom nThreads fb)[(y0 * winW + x0).toNat]?
      = fb[(y0 * winW + x0).toNat]? := by
  rw [renderBands_eq_renderRows body winW dstLeft dstRight dstTop dstBottom nThreads hn,
    renderRows_eq_foldl_pixelSteps]
  apply foldl_shadePixel_skipped
  intro p hp hidx d
  obtain ⟨⟨hp1, hp2⟩, ⟨hp3, hp4⟩⟩ := mem_pixelSteps.mp hp
  have hrow : p.2 = y0 := by
    have h1 : 0 ≤ p.2 * winW := Int.mul_nonneg (by omega) hw.le
    have h2 : 0 ≤ y0 * winW := Int.mul_nonneg hy0 hw.le
    have h3 : p.2 * winW + p.1 = y0 * winW + x0 := by omega
    by_contra hne
    rcases lt_or_gt_of_ne hne with hlt | hgt
    · have : (p.2 + 1) * winW ≤ y0 * winW := Int.mul_le_mul_of_nonneg_right (by omega) hw.le
      nlinarith
    · have : (y0 + 1) * winW ≤ p.2 * winW := Int.mul_le_mul_of_nonneg_right (by omega) hw.le
      nlinarith
  rw [hrow]
  exact hskip p.1 d

/-- With the geometry of `computeRenderGeometryRounded_tall` the loop body skips every
pixel of the row 499: `fy = (499 + 0.5f - 0.5f) * (1.0f / 499.0f)` is `1.0f`. -/
theorem pixelBodyRounded_last_row (surface : Surface) (srcFmt dstFmt : PixelFormat)
    (geom : RenderGeometry ℚ) (hY : geom.dstY = 1 / 2) (hH : geom.dstH = 499)
    (x : Int) (d : Nat) :
    pixelBodyRounded roundF32 surface srcFmt dstFmt geom x 499 d = none := by
  have i499 : roundF32 (499 : ℚ) = 499 := by
    simpa using roundF32_intCast 499 (by norm_num)
  have h1 : roundF32 ((499 : ℚ) + 0.5) = 999 / 2 := by
    have h := roundF32_half 999 (by norm_num)
    norm_num at h ⊢
    exact h
  have h2 : roundF32 ((999 : ℚ) / 2 - 1 / 2) = 499 := by
    norm_num
    exact i499
  have h3 : roundF32 ((1.0 : ℚ) / 499) = 8607149 / 4294967296 := by
    have h := roundF32_inv_height
    norm_num at h ⊢
    exact h
  simp only [pixelBodyRounded, hY, hH, Int.cast_ofNat, i499, h1, h2, h3, roundF32_last_row]
  norm_num

/-- The rasteriser in binary32 on `tallUniformSprite` and `tallWindow`: the rows
`[0, 500)` are visited over the columns `[0, 300)` with the geometry of
`computeRenderGeometryRounded_tall`. -/
theorem rasterizeRounded_tall (sin cos : ℚ → ℚ) :
    rasterizeRounded roundF32 roundF64 sin cos (exampleContext ℚ) (MainLoopState.initial ℚ)
        tallUniformSprite tallWindow 0
      = some (renderBands
          (pixelBodyRounded roundF32 tallUniformSurface RGBA8888 RGBA8888
            { dstX := 0, dstY := 1 / 2, dstW := 300, dstH := 499,
              srcX := 0, srcY := 0, srcW := 150, srcH := 250 })
          300 0 300 0 500 4 (initFrameBuffer 300 500 0x000000FF)) := by
  have hgeom : computeRenderGeometryRounded roundF32 roundF64 sin cos tallUniformSurface.w
      tallUniformSurface.h 300 500 (MainLoopState.initial ℚ) 0
      (exampleContext ℚ).cfg.shakingAmp (exampleContext ℚ).cfg.shakingFreq
      tallUniformSprite.baseOffsetX tallUniformSprite.baseOffsetY
      = { dstX := 0, dstY := 1 / 2, dstW := 300, dstH := 499,
          srcX := 0, srcY := 0, srcW := 150, srcH := 250 } :=
    computeRenderGeometryRounded_tall sin cos _ _
  have hsp : tallUniformSprite.surface = some tallUniformSurface := rfl
  have hwf : tallWindow.format = some RGBA8888 := rfl
  have hsf : tallUniformSurface.format = some RGBA8888 := rfl
  have hww : tallWindow.w = 300 := rfl
  have hwh : tallWindow.h = 500 := rfl
  have hn : (exampleContext ℚ).nThreads = 4 := rfl
  have hbg : RGBA8888.mapRGB (Fin.ofNat (((exampleContext ℚ).cfg.bgColor >>> 16) &&& 0xFF))
      (Fin.ofNat (((exampleContext ℚ).cfg.bgColor >>> 8) &&& 0xFF))
      (Fin.ofNat ((exampleContext ℚ).cfg.bgColor &&& 0xFF)) = 0x000000FF := by decide
  have i300 : roundF32 ((0 : ℚ) + 300) = 300 := by
    rw [zero_add]
    simpa using roundF32_intCast 300 (by norm_num)
  have i999 : roundF32 ((1 : ℚ) / 2 + 499) = 999 / 2 := by
    have h := roundF32_half 999 (by norm_num)
    norm_num at h ⊢
    exact h
  have f0 : ⌊(0 : ℚ)⌋ = 0 := Int.floor_zero
  have f1 : ⌊(1 : ℚ) / 2⌋ = 0 := by
    rw [Int.floor_eq_iff]
    norm_num
  have c1 : ⌈(300 : ℚ)⌉ = 300 := by
    exact_mod_cast Int.ceil_intCast (α := ℚ) 300
  have c2 : ⌈(999 : ℚ) / 2⌉ = 500 := by
    rw [Int.ceil_eq_iff]
    norm_num
  have g1 : ¬ ((300 : ℚ) ≤ 0 ∨ (499 : ℚ) ≤ 0 ∨ (150 : Int) ≤ 0 ∨ (250 : Int) ≤ 0) := by
    norm_num
  have g2 : ¬ ((0 : Int) ≥ 300 ∨ (0 : Int) ≥ 500) := by
    decide
  have m1 : max (0 : Int) 0 = 0 := by decide
  have m2 : min (300 : Int) 300 = 300 := by decide
  have m3 : min (500 : Int) 500 = 500 := by decide
  simp only [rasterizeRounded, hsp, hgeom, hwf, hsf, hww, hwh, hn, hbg, i300, i999, f0, f1,
    c1, c2, g1, g2, if_false, m1, m2, m3]

/-- With the context menu closed the window surface receives the frame buffer. -/
theorem renderFrameCpuRounded_of_rasterize {F : Type} [LinearOrderedField F] [FloorRing F]
    (fl32 fl64 : F → F) (sin cos : F → F) (ctx : AppContext F) (s : MainLoopState F)
    (sp : SpriteList F) (win : Surface) (frameIndex : Int) (fb : List Nat)
    (dstFmt : PixelFormat)
    (hr : rasterizeRounded fl32 fl64 sin cos ctx s sp win frameIndex = some fb)
    (hf : win.format = some dstFmt) (hm : s.showContextMenu = false) :
    renderFrameCpuRounded fl32 fl64 sin cos ctx s sp (some win) frameIndex
      = some { win with pixels := fb ++ win.pixels.drop fb.length } := by
  simp only [renderFrameCpuRounded, hr, hf, hm, Bool.false_eq_true, if_false]

/-- Claim C12, the code at the failing input.  A fully opaque sprite sheet of 300 x 500
pixels, all of the colour (0x33, 0x66, 0xCC), is rasterised onto a window of 300 x 500
pixels from the initial state (scale 1, offset 0, breath scale 1, not speaking), with
zero centering offsets, black background and four workers, the arithmetic of type
`float` being IEEE 754 binary32.  The quotient `winW / aspect` is rounded to
`499.99997`, so that the destination height is 499 and `dstY` is 0.5; the loop body
skips the row 499 (`fy = 1.0f`), and the 300 cells of that row hold the background
pixel `0x000000FF` in the frame buffer and in the window surface, not the pixel
`0x3366CCFF` of the colour of the image.  In exact arithmetic the same input fills the
whole buffer with `0x3366CCFF`. -/
theorem render_uniform_image_keeps_background_row (sin cos : ℚ → ℚ) :
    (∀ p ∈ tallUniformSurface.pixels,
      RGBA8888.getRGBA p = { r := 0x33, g := 0x66, b := 0xCC, a := 255 }) ∧
    RGBA8888.mapRGB 0x33 0x66 0xCC = 0x3366CCFF ∧
    RGBA8888.mapRGB 0 0 0 = 0x000000FF ∧
    computeRenderGeometryRounded roundF32 roundF64 sin cos 300 500 300 500
        (MainLoopState.initial ℚ) 0 1 1 (fun _ => 0) (fun _ => 0)
      = { dstX := 0, dstY := 1 / 2, dstW := 300, dstH := 499,
          srcX := 0, srcY := 0, srcW := 150, srcH := 250 } ∧
    (∃ fb : List Nat,
      rasterizeRounded roundF32 roundF64 sin cos (exampleContext ℚ) (MainLoopState.initial ℚ)
        tallUniformSprite tallWindow 0 = some fb ∧
      ∀ x : Nat, x < 300 → fb[499 * 300 + x]? = some 0x000000FF) ∧
    (∃ out : Surface,
      renderFrameCpuRounded roundF32 roundF64 sin cos (exampleContext ℚ)
        (MainLoopState.initial ℚ) tallUniformSprite (some tallWindow) 0 = some out ∧
      ∀ x : Nat, x < 300 → out.pixels[499 * 300 + x]? = some 0x000000FF) ∧
    rasterize sin cos (exampleContext ℚ) (MainLoopState.initial ℚ) tallUniformSprite
      tallWindow 0 = some (List.replicate 150000 0x3366CCFF) := by
  have hcells : ∀ x : Nat, x < 300 →
      (renderBands
          (pixelBodyRounded roundF32 tallUniformSurface RGBA8888 RGBA8888
            { dstX := 0, dstY := 1 / 2, dstW := 300, dstH := 499,
              srcX := 0, srcY := 0, srcW := 150, srcH := 250 })
          300 0 300 0 500 4 (initFrameBuffer 300 500 0x000000FF))[499 * 300 + x]?
        = some 0x000000FF := by
    intro x hx
    have h := renderBands_skipped_row
      (pixelBodyRounded roundF32 tallUniformSurface RGBA8888 RGBA8888
        { dstX := 0, dstY := 1 / 2, dstW := 300, dstH := 499,
          srcX := 0, srcY := 0, srcW := 150, srcH := 250 })
      300 0 300 0 500 4 (by decide) (initFrameBuffer 300 500 0x000000FF) 499 (x : Int)
      (by decide) (by decide) (by decide) (by decide) ⟨by omega, by omega⟩ (by decide)
      (fun x d => pixelBodyRounded_last_row _ _ _ _ rfl rfl x d)
    have hidx : ((499 : Int) * 300 + (x : Int)).toNat = 499 * 300 + x := by omega
    rw [hidx] at h
    rw [h]
    simp only [initFrameBuffer]
    rw [List.getElem?_replicate, if_pos (by omega)]
  refine ⟨?_, by decide, by decide, computeRenderGeometryRounded_tall sin cos 1 1, ?_, ?_, ?_⟩
  · intro p hp
    simp only [tallUniformSurface] at hp
    rw [List.eq_of_mem_replicate hp]
    decide
  · exact ⟨_, rasterizeRounded_tall sin cos, hcells⟩
  · obtain ⟨fb, hfb, hc⟩ : ∃ fb : List Nat,
        rasterizeRounded roundF32 roundF64 sin cos (exampleContext ℚ) (MainLoopState.initial ℚ)
          tallUniformSprite tallWindow 0 = some fb ∧
        ∀ x : Nat, x < 300 → fb[499 * 300 + x]? = some 0x000000FF :=
      ⟨_, rasterizeRounded_tall sin cos, hcells⟩
    refine ⟨{ tallWindow with pixels := fb ++ tallWindow.pixels.drop fb.length }, ?_, ?_⟩
    · exact renderFrameCpuRounded_of_rasterize _ _ _ _ _ _ _ _ _ fb RGBA8888 hfb rfl rfl
    · intro x hx
      have hlt := (List.getElem?_eq_some_iff.mp (hc x hx)).1
      show (fb ++ tallWindow.pixels.drop fb.length)[499 * 300 + x]? = _
      rw [List.getElem?_append_left hlt]
      exact hc x hx
  · have huni : ∀ x y, 0 ≤ x → x < tallUniformSurface.w → 0 ≤ y → y < tallUniformSurface.h →
        RGBA8888.getRGBA (getPixel tallUniformSurface x y)
          = { r := 0x33, g := 0x66, b := 0xCC, a := 255 } := by
      intro x y hx0 hx1 hy0 hy1
      have hw : tallUniformSurface.w = 300 := rfl
      have hh : tallUniformSurface.h = 500 := rfl
      rw [hw] at hx1
      rw [hh] at hy1
      have hp : getPixel tallUniformSurface x y = 0x3366CCFF := by
        simp only [getPixel, tallUniformSurface]
        rw [List.getD_eq_getElem?_getD, List.getElem?_replicate, if_pos (by omega)]
        rfl
      rw [hp]
      decide
    have hlen : tallWindow.pixels.length = (tallWindow.w * tallWindow.h).toNat := by
      simp only [tallWindow, List.length_replicate]
      decide
    have h := render_uniform_image_exact sin cos (exampleContext ℚ) (MainLoopState.initial ℚ)
      tallUniformSprite tallUniformSurface tallWindow RGBA8888 RGBA8888
      { r := 0x33, g := 0x66, b := 0xCC, a := 255 } 150 250 0 (by decide) (by decide) rfl rfl
      rfl rfl huni rfl (by decide) rfl rfl rfl hlen (by decide) rfl rfl rfl rfl rfl rfl
      (by simp [MainLoopState.initial])
    have e1 : (tallWindow.w * tallWindow.h).toNat = 150000 := by decide
    have e2 : RGBA8888.mapRGB 0x33 0x66 0xCC = 0x3366CCFF := by decide
    rw [h.1, e1, e2]

/-! ### Sprite alignment and the visible pixels of the specification -/

/-- The boxes found by the scan of the source in the quadrants of `darkDotSurface`. -/
theorem scanQuadrant_darkDotSurface :
    scanQuadrant darkDotSurface 0 0 = ⟨3, 3, 1, 1⟩ ∧
    scanQuadrant darkDotSurface 1 0 = ⟨0, 0, 0, 0⟩ ∧
    scanQuadrant darkDotSurface 0 1 = ⟨4, -1, 2, -1⟩ ∧
    scanQuadrant darkDotSurface 1 1 = ⟨4, -1, 2, -1⟩ := by decide

/-- The visible positions of quadrant 0 of `darkDotSurface` are (1,0) and (3,1);
quadrant 1 has no visible position. -/
theorem specVisible_darkDotSurface (x y : Int) (hx0 : 0 ≤ x) (hx1 : x < 4) (hy0 : 0 ≤ y)
    (hy1 : y < 2) :
    (specVisible darkDotSurface 0 0 x y = true ↔ (x = 1 ∧ y = 0) ∨ (x = 3 ∧ y = 1)) ∧
    specVisible darkDotSurface 1 0 x y = false := by
  interval_cases x <;> interval_cases y <;> decide

/-- Claim C15, the code at the failing input.  The image `darkDotSurface` (8 x 4 pixels,
`quadW = 4`, `quadH = 2`) is loaded with centered alignment.  The visible pixels of
quadrant 0 (alpha not zero) are the opaque black pixel at (1,0) and the opaque white
pixel at (3,1), so that `minX = 1`, `maxX = 3`, `minY = 0`, `maxY = 1` and the offset of
the claim is `(4/2 - (1+3)/2, 2/2 - (0+1)/2) = (0, 1/2)`; the aligner stores `(-1, 0)`,
the offset of the box of the white pixel alone.  Quadrant 1 has no visible pixel, its
only non-zero pixel being fully transparent, so that its offset is `(0, 0)` according
to the claim; the aligner stores `(2, 1)`. -/
theorem aligner_offsets_miss_visible_pixels :
    (∀ x y : Int, 0 ≤ x → x < 4 → 0 ≤ y → y < 2 →
      (specVisible darkDotSurface 0 0 x y = true ↔ (x = 1 ∧ y = 0) ∨ (x = 3 ∧ y = 1))) ∧
    IsLeast {x : Int | ∃ y : Int, (0 ≤ x ∧ x < 4) ∧ (0 ≤ y ∧ y < 2) ∧
      specVisible darkDotSurface 0 0 x y = true} 1 ∧
    IsGreatest {x : Int | ∃ y : Int, (0 ≤ x ∧ x < 4) ∧ (0 ≤ y ∧ y < 2) ∧
      specVisible darkDotSurface 0 0 x y = true} 3 ∧
    IsLeast {y : Int | ∃ x : Int, (0 ≤ x ∧ x < 4) ∧ (0 ≤ y ∧ y < 2) ∧
      specVisible darkDotSurface 0 0 x y = true} 0 ∧
    IsGreatest {y : Int | ∃ x : Int, (0 ≤ x ∧ x < 4) ∧ (0 ≤ y ∧ y < 2) ∧
      specVisible darkDotSurface 0 0 x y = true} 1 ∧
    (loadSprite SpriteAlignment.Centered darkDotSurface (some darkDotSurface)
      : SpriteList ℚ).baseOffsetX 0 = -1 ∧
    (loadSprite SpriteAlignment.Centered darkDotSurface (some darkDotSurface)
      : SpriteList ℚ).baseOffsetY 0 = 0 ∧
    (loadSprite SpriteAlignment.Centered darkDotSurface (some darkDotSurface)
      : SpriteList ℚ).baseOffsetX 0
        ≠ ((Int.tdiv darkDotSurface.w 2 : Int) : ℚ) / 2 - (((1 + 3 : Int)) : ℚ) / 2 ∧
    (loadSprite SpriteAlignment.Centered darkDotSurface (some darkDotSurface)
      : SpriteList ℚ).baseOffsetY 0
        ≠ ((Int.tdiv darkDotSurface.h 2 : Int) : ℚ) / 2 - (((0 + 1 : Int)) : ℚ) / 2 ∧
    (∀ x y : Int, 0 ≤ x → x < 4 → 0 ≤ y → y < 2 →
      specVisible darkDotSurface 1 0 x y = false) ∧
    (loadSprite SpriteAlignment.Centered darkDotSurface (some darkDotSurface)
      : SpriteList ℚ).baseOffsetX 1 = 2 ∧
    (loadSprite SpriteAlignment.Centered darkDotSurface (some darkDotSurface)
      : SpriteList ℚ).baseOffsetY 1 = 1 := by
  obtain ⟨q0, q1, q2, q3⟩ := scanQuadrant_darkDotSurface
  have e1 : Int.tdiv darkDotSurface.w 2 = 4 := by decide
  have e2 : Int.tdiv darkDotSurface.h 2 = 2 := by decide
  have hX0 : (loadSprite SpriteAlignment.Centered darkDotSurface (some darkDotSurface)
      : SpriteList ℚ).baseOffsetX 0 = -1 := by
    simp only [loadSprite, alignedSurface, pixelSteps_two, List.foldl_cons, List.foldl_nil,
      alignQuadrant, q0, q1, q2, q3, e1, e2]
    norm_num [Function.update]
  have hY0 : (loadSprite SpriteAlignment.Centered darkDotSurface (some darkDotSurface)
      : SpriteList ℚ).baseOffsetY 0 = 0 := by
    simp only [loadSprite, alignedSurface, pixelSteps_two, List.foldl_cons, List.foldl_nil,
      alignQuadrant, q0, q1, q2, q3, e1, e2]
    norm_num [Function.update]
  have hvis := specVisible_darkDotSurface
  refine ⟨fun x y hx0 hx1 hy0 hy1 => (hvis x y hx0 hx1 hy0 hy1).1, ?_, ?_, ?_, ?_, hX0, hY0,
    ?_, ?_, fun x y hx0 hx1 hy0 hy1 => (hvis x y hx0 hx1 hy0 hy1).2, ?_, ?_⟩
  · refine ⟨⟨0, by decide, by decide, by decide⟩, ?_⟩
    rintro x ⟨y, ⟨hx0, hx1⟩, ⟨hy0, hy1⟩, hv⟩
    rcases ((hvis x y hx0 hx1 hy0 hy1).1).mp hv with ⟨h, _⟩ | ⟨h, _⟩ <;> omega
  · refine ⟨⟨1, by decide, by decide, by decide⟩, ?_⟩
    rintro x ⟨y, ⟨hx0, hx1⟩, ⟨hy0, hy1⟩, hv⟩
    rcases ((hvis x y hx0 hx1 hy0 hy1).1).mp hv with ⟨h, _⟩ | ⟨h, _⟩ <;> omega
  · refine ⟨⟨1, by decide, by decide, by decide⟩, ?_⟩
    rintro y ⟨x, ⟨hx0, hx1⟩, ⟨hy0, hy1⟩, hv⟩
    exact hy0
  · refine ⟨⟨3, by decide, by decide, by decide⟩, ?_⟩
    rintro y ⟨x, ⟨hx0, hx1⟩, ⟨hy0, hy1⟩, hv⟩
    omega
  · rw [hX0, e1]
    norm_num
  · rw [hY0, e2]
    norm_num
  · simp only [loadSprite, alignedSurface, pixelSteps_two, List.foldl_cons, List.foldl_nil,
      alignQuadrant, q0, q1, q2, q3, e1, e2]
    norm_num [Function.update]
  · simp only [loadSprite, alignedSurface, pixelSteps_two, List.foldl_cons, List.foldl_nil,
      alignQuadrant, q0, q1, q2, q3, e1, e2]
    norm_num [Function.update]

end PNGPill
